import Mathlib

/-!
# BusyChaincode: the balance-record ledger of `busyTokens.go`

A shallow embedding of the balance accounting core of the chaincode
(`addBalance`, `setBalance`, `removeBalance`, `balanceOfHelper`,
`BusyTokens.TransferFrom`) over an explicit model of the ledger stub, followed
by theorems about it.

Conventions of the embedding:

* `*big.Int` values are `Int`; `big.Int.SetString(s, 10)` is `setString` and
  `big.Int.String()` is `bigString`, both over real decimal text.
* The world state is an association list from keys to stored text.  A write is
  visible to every later read of the same invocation.  The order of the list is
  the order in which a prefix scan yields records; nothing below depends on it.
* Every stub call that can return an error in Go consumes one entry of a fault
  plan carried by the stub; the entries decide which calls fail.
* A Go runtime panic (nil dereference, index out of range) is the outcome
  `Outcome.panicked`.
* Functions and constants that the chaincode uses and the given sources do not
  define are fields of `Externals`, a parameter of the functions that use them.
-/

namespace BusyChaincode

/-! ## Decimal text of arbitrary-precision integers -/

/-- Value of a decimal digit character, `none` for any other character. -/
def digitValue (c : Char) : Option Nat :=
  if 48 ≤ c.toNat ∧ c.toNat ≤ 57 then some (c.toNat - 48) else none

/-- Reads a run of decimal digits, most significant first, onto `acc`. -/
def parseDigits : List Char → Nat → Option Nat
  | [], acc => some acc
  | c :: cs, acc =>
    match digitValue c with
    | some d => parseDigits cs (acc * 10 + d)
    | none => none

/-- Reads a non-empty run of decimal digits. -/
def parseNat (cs : List Char) : Option Nat :=
  match cs with
  | [] => none
  | _ :: _ => parseDigits cs 0

/-- Models `new(big.Int).SetString(s, 10)`: an optional sign followed by at least one
decimal digit; `none` is Go's `(nil, false)`. -/
def setString (s : String) : Option Int :=
  match s.data with
  | [] => none
  | '-' :: cs => (parseNat cs).map (fun n => -(n : Int))
  | '+' :: cs => (parseNat cs).map (fun n => (n : Int))
  | cs => (parseNat cs).map (fun n => (n : Int))

/-- Models `(*big.Int).String()`: canonical base-10 text, `-` for negative values. -/
def bigString : Int → String
  | Int.ofNat n => Nat.repr n
  | Int.negSucc n => "-" ++ Nat.repr (n + 1)

/-- The shared zero constant `bigZero` of the chaincode. -/
def bigZero : Int := 0

/-! ## Errors and outcomes -/

/-- Error values of the chaincode.  The stub faults carry no text; the errors
built with `fmt.Errorf` are tagged by the message they format. -/
inductive Error
  /-- an error returned by the ledger stub itself -/
  | stub
  /-- message "failed to create the composite key for prefix ..." -/
  | failedCompositeKey
  /-- message "failed to read account ... from world state" -/
  | failedRead (account : String)
  /-- message "failed to get state for prefix ..." -/
  | failedGetState
  /-- message "failed to get the next state for prefix ..." -/
  | failedNext
  /-- message "failed to delete the state of ..." -/
  | failedDelete
  /-- message "sender has insufficient funds for token ..., needed funds: ..., available fund: ..." -/
  | insufficientFunds (tokenId : String) (needed available : Int)
  /-- message "balance query for the zero address" -/
  | zeroAddressQuery
  /-- message "mint to the zero address" -/
  | mintToZeroAddress
  /-- the value of `generateError(status, code, message)`; the message is not kept -/
  | generated (status : Nat) (code : String)
  /-- any other error built with `fmt.Errorf`, tagged by its fixed text -/
  | formatted (text : String)
  deriving DecidableEq, Repr

/-- Whether an error is the insufficient-funds error of `removeBalance`. -/
def Error.isInsufficientFunds : Error → Bool
  | .insufficientFunds _ _ _ => true
  | _ => false

/-- How a Go call ends: it returns its results, or the runtime panics. -/
inductive Outcome (α : Type) where
  | returned (a : α)
  | panicked
  deriving DecidableEq, Repr

/-! ## The ledger stub -/

/-- A world-state key: a plain key, or a composite key made of an object type
and its attributes (the text `\x00 objectType \x00 a₁ \x00 … aₙ \x00` of the
ledger, kept in split form). -/
inductive Key where
  | simple (key : String)
  | composite (objectType : String) (attributes : List String)
  deriving DecidableEq, Repr

/-- Source struct `UserAddress` (`events.go`). -/
structure UserAddress where
  Address : String
  Token : String
  deriving DecidableEq, Repr

/-- Source struct `NFTEventInfo`. -/
structure NFTEventInfo where
  Account : String
  Symbol : String
  TokenType : String
  deriving DecidableEq, Repr

/-- Source struct `NFTEvent`. -/
structure NFTEvent where
  UserAddresses : UserAddress
  NFTList : List NFTEventInfo
  TransactionFee : String
  TransactionId : String
  deriving DecidableEq, Repr

/-- Source struct `BalanceEvent` (`events.go`). -/
structure BalanceEvent where
  UserAddresses : List UserAddress
  TransactionFee : String
  TransactionId : String
  deriving DecidableEq, Repr

/-- The value marshalled into the payload of a chaincode event. -/
inductive EventPayload where
  | nft (data : NFTEvent)
  | balance (data : BalanceEvent)
  deriving DecidableEq, Repr

/-- The world state: stored text per key, in scan order. -/
abbrev WorldState := List (Key × String)

/-- A call of one of the ledger helpers that the chaincode uses and the given
sources do not define.  An amount is `none` for a nil `*big.Int`. -/
inductive LedgerCall where
  /-- the call `addUTXO(ctx, address, amount, token)` -/
  | addUTXO (address : String) (amount : Option Int) (token : String)
  /-- the call `addTotalSupplyUTXO(ctx, token, amount)` -/
  | addTotalSupplyUTXO (token : String) (amount : Option Int)
  /-- the call `burnTxFee(ctx, address, token)` -/
  | burnTxFee (address token : String)
  /-- the call `transferHelper(ctx, sender, recipient, amount, token, fee)` -/
  | transferHelper (sender recipient : String) (amount : Int) (token : String)
      (fee : Option Int)
  /-- the call `burnTxFeeWithTotalSupply(ctx, address, token)` -/
  | burnTxFeeWithTotalSupply (address token : String)
  deriving DecidableEq, Repr

/-- The transaction context as far as the ledger core uses it. -/
structure Stub where
  /-- current world state, own writes included -/
  state : WorldState
  /-- fault plan: each fallible stub call takes the head; `true` makes it fail -/
  faults : List Bool
  /-- transaction id reported by `GetTxID` -/
  txID : String
  /-- chaincode event set by `SetEvent`: its name and payload -/
  event : Option (String × EventPayload)
  /-- the calls of the undefined ledger helpers made so far, oldest first -/
  calls : List LedgerCall
  deriving DecidableEq, Repr

/-- Takes the next entry of the fault plan; an exhausted plan means no fault. -/
def Stub.tick (ctx : Stub) : Bool × Stub :=
  match ctx.faults with
  | [] => (false, ctx)
  | f :: fs => (f, { ctx with faults := fs })

/-- Value stored under a key, if any. -/
def lookup : WorldState → Key → Option String
  | [], _ => none
  | (k', v) :: rest, k => if k' = k then some v else lookup rest k

/-- Writes a value under a key, replacing the stored one if the key exists.  A
new key goes to the end of the list; the ledger yields a prefix scan in key
order, which the list does not reproduce, so the properties are stated on sums
and filters, which do not depend on the order. -/
def put : WorldState → Key → String → WorldState
  | [], k, v => [(k, v)]
  | (k', v') :: rest, k, v => if k' = k then (k, v) :: rest else (k', v') :: put rest k v

/-- Removes a key and its value. -/
def erase : WorldState → Key → WorldState
  | [], _ => []
  | (k', v') :: rest, k => if k' = k then erase rest k else (k', v') :: erase rest k

/-- An attribute of a composite key may hold neither U+0000 nor U+10FFFF. -/
def validAttribute (s : String) : Bool :=
  s.data.all (fun c => c.toNat ≠ 0 ∧ c.toNat ≠ 0x10FFFF)

/-- Models `stub.CreateCompositeKey(objectType, attributes)`. -/
def CreateCompositeKey (objectType : String) (attributes : List String) : Except Error Key :=
  if validAttribute objectType ∧ attributes.all validAttribute then
    .ok (.composite objectType attributes)
  else .error .stub

/-- Models `stub.SplitCompositeKey(key)`. -/
def SplitCompositeKey : Key → Except Error (String × List String)
  | .composite objectType attributes => .ok (objectType, attributes)
  | .simple _ => .error .stub

/-- Models `stub.GetState(key)`; `none` is Go's nil value for a missing key. -/
def GetState (ctx : Stub) (key : Key) : Except Error (Option String) × Stub :=
  match ctx.tick with
  | (true, ctx1) => (.error .stub, ctx1)
  | (false, ctx1) => (.ok (lookup ctx1.state key), ctx1)

/-- Models `stub.PutState(key, value)`; the empty key is refused before the call
reaches the ledger. -/
def PutState (ctx : Stub) (key : Key) (value : String) : Option Error × Stub :=
  if key = .simple "" then (some .stub, ctx)
  else
    match ctx.tick with
    | (true, ctx1) => (some .stub, ctx1)
    | (false, ctx1) => (none, { ctx1 with state := put ctx1.state key value })

/-- Models `stub.DelState(key)`; deleting an absent key changes nothing. -/
def DelState (ctx : Stub) (key : Key) : Option Error × Stub :=
  match ctx.tick with
  | (true, ctx1) => (some .stub, ctx1)
  | (false, ctx1) => (none, { ctx1 with state := erase ctx1.state key })

/-- Models `stub.SetEvent(name, payload)`: a local call that fails only on an
empty event name. -/
def SetEvent (ctx : Stub) (name : String) (payload : EventPayload) : Option Error × Stub :=
  if name = "" then (some .stub, ctx) else (none, { ctx with event := some (name, payload) })

/-- Whether a key lies under the partial composite key `(objectType, attributes)`. -/
def underPrefix (objectType : String) (attributes : List String) : Key → Bool
  | .composite objectType' attributes' =>
    decide (objectType' = objectType) && attributes.isPrefixOf attributes'
  | .simple _ => false

/-- A prefix-scan iterator: the records still to be yielded. -/
abbrev StateQueryIterator := List (Key × String)

/-- Models `stub.GetStateByPartialCompositeKey(objectType, attributes)`: the partial key
is validated like a composite key, then the matching records are yielded in
scan order. -/
def GetStateByPartialCompositeKey (ctx : Stub) (objectType : String) (attributes : List String) :
    Except Error StateQueryIterator × Stub :=
  match CreateCompositeKey objectType attributes with
  | .error e => (.error e, ctx)
  | .ok _ =>
    match ctx.tick with
    | (true, ctx1) => (.error .stub, ctx1)
    | (false, ctx1) =>
      (.ok (ctx1.state.filter (fun kv => underPrefix objectType attributes kv.1)), ctx1)

/-! ## Balance records (`busyTokens.go`) -/

/-- Object type of the balance records, keyed `(account, tokenId, sender)`. -/
def balancePrefix : String := "account~tokenId~sender"

/-- Source `addBalance`: accumulates `bigAmount` into the record keyed
`(recipient, symbol, sender)`.  The first component of the result is the value
of `*bigAmount` when the call returns: Go adds the stored amount into the
caller's integer in place. -/
def addBalance (ctx : Stub) (sender recipient symbol : String) (bigAmount : Int) :
    Outcome (Int × Option Error) × Stub :=
  match CreateCompositeKey balancePrefix [recipient, symbol, sender] with
  | .error _ => (.returned (bigAmount, some .failedCompositeKey), ctx)
  | .ok balanceKey =>
    match GetState ctx balanceKey with
    | (.error _, ctx1) => (.returned (bigAmount, some (.failedRead recipient)), ctx1)
    | (.ok none, ctx1) =>
      match PutState ctx1 balanceKey (bigString bigAmount) with
      | (some err, ctx2) => (.returned (bigAmount, some err), ctx2)
      | (none, ctx2) => (.returned (bigAmount, none), ctx2)
    | (.ok (some balanceBytes), ctx1) =>
      match setString balanceBytes with
      | none => (.panicked, ctx1)
      | some balance =>
        match PutState ctx1 balanceKey (bigString (balance + bigAmount)) with
        | (some err, ctx2) => (.returned (balance + bigAmount, some err), ctx2)
        | (none, ctx2) => (.returned (balance + bigAmount, none), ctx2)

/-- Source `setBalance`: overwrites the record keyed `(recipient, symbol, sender)`. -/
def setBalance (ctx : Stub) (sender recipient symbol : String) (bigAmount : Int) :
    Outcome (Option Error) × Stub :=
  match CreateCompositeKey balancePrefix [recipient, symbol, sender] with
  | .error _ => (.returned (some .failedCompositeKey), ctx)
  | .ok balanceKey =>
    match PutState ctx balanceKey (bigString bigAmount) with
    | (some err, ctx1) => (.returned (some err), ctx1)
    | (none, ctx1) => (.returned none, ctx1)

/-- Source `mintHelper`. -/
def mintHelper (ctx : Stub) (operator account symbol : String) (bigAmount : Int) :
    Outcome (Int × Option Error) × Stub :=
  if account = "0x" then (.returned (bigAmount, some .mintToZeroAddress), ctx)
  else addBalance ctx operator account symbol bigAmount

/-- One step of the first loop of `removeBalance`: adds `amount` to the entry of
`symbol` in the map `necessaryFunds`, creating the entry if it is missing. -/
def addNecessaryFunds : List (String × Int) → String → Int → List (String × Int)
  | [], symbol, amount => [(symbol, amount)]
  | (s, total) :: rest, symbol, amount =>
    if s = symbol then (s, total + amount) :: rest
    else (s, total) :: addNecessaryFunds rest symbol amount

/-- The first loop of `removeBalance` (`for i := 0; i < len(amounts); i++`):
`symbols[i]` is out of range, a panic, when `symbols` is the shorter list. -/
def necessaryFundsLoop :
    List String → List Int → List (String × Int) → Outcome (List (String × Int))
  | _, [], necessaryFunds => .returned necessaryFunds
  | [], _ :: _, _ => .panicked
  | symbol :: symbols, amount :: amounts, necessaryFunds =>
    necessaryFundsLoop symbols amounts (addNecessaryFunds necessaryFunds symbol amount)

/-- Source `sortedKeys`: the keys of the map in increasing order.  Go compares
strings byte by byte, which on UTF-8 text is the order of the code points. -/
def sortedKeys {α : Type} (m : List (String × α)) : List String :=
  (m.map Prod.fst).insertionSort (fun a b => a.data < b.data)

/-- Go map read `necessaryFunds[tokenId]`; `none` is the nil pointer of a missing key. -/
def mapGet : List (String × Int) → String → Option Int
  | [], _ => none
  | (s, total) :: rest, tokenId => if s = tokenId then some total else mapGet rest tokenId

/-- Local variables of the token loop of `removeBalance` that the scan updates. -/
structure ScanState where
  partialBalance : Int
  selfRecipientKeyNeedsToBeRemoved : Bool
  selfRecipientKey : Key
  deriving DecidableEq, Repr

/-- The inner loop of `removeBalance` (`for balanceIterator.HasNext() &&
partialBalance.Cmp(neededAmount) == -1`).  It returns the locals on leaving the
loop, or the error with which the loop returns from `removeBalance`. -/
def removeBalanceScan (sender : String) (neededAmount : Int) :
    StateQueryIterator → ScanState → Stub → Outcome (Except Error ScanState) × Stub
  | [], vars, ctx => (.returned (.ok vars), ctx)
  | queryResponse :: balanceIterator, vars, ctx =>
    if vars.partialBalance < neededAmount then
      match ctx.tick with
      | (true, ctx1) => (.returned (.error .failedNext), ctx1)
      | (false, ctx1) =>
        match setString queryResponse.2 with
        | none => (.panicked, ctx1)
        | some partBalAmount =>
          let partialBalance := vars.partialBalance + partBalAmount
          match SplitCompositeKey queryResponse.1 with
          | .error err => (.returned (.error err), ctx1)
          | .ok (_, compositeKeyParts) =>
            match compositeKeyParts.get? 2 with
            | none => (.panicked, ctx1)
            | some part =>
              if part = sender then
                removeBalanceScan sender neededAmount balanceIterator
                  ⟨partialBalance, true, queryResponse.1⟩ ctx1
              else
                match DelState ctx1 queryResponse.1 with
                | (some _, ctx2) => (.returned (.error .failedDelete), ctx2)
                | (none, ctx2) =>
                  removeBalanceScan sender neededAmount balanceIterator
                    ⟨partialBalance, vars.selfRecipientKeyNeedsToBeRemoved,
                      vars.selfRecipientKey⟩ ctx2
    else (.returned (.ok vars), ctx)

/-- The body of the token loop of `removeBalance` for one `tokenId`: scan the
sender's records, then reject, return the change, or delete the self-keyed
record.  The result is the error with which `removeBalance` returns, or `none`
when the loop goes on to the next token. -/
def removeBalanceToken (ctx : Stub) (sender tokenId : String) (neededAmount : Int) :
    Outcome (Option Error) × Stub :=
  match GetStateByPartialCompositeKey ctx balancePrefix [sender, tokenId] with
  | (.error _, ctx1) => (.returned (some .failedGetState), ctx1)
  | (.ok balanceIterator, ctx1) =>
    match removeBalanceScan sender neededAmount balanceIterator
        ⟨bigZero, false, .simple ""⟩ ctx1 with
    | (.panicked, ctx2) => (.panicked, ctx2)
    | (.returned (.error err), ctx2) => (.returned (some err), ctx2)
    | (.returned (.ok vars), ctx2) =>
      if vars.partialBalance < neededAmount then
        (.returned (some (.insufficientFunds tokenId neededAmount vars.partialBalance)), ctx2)
      else if vars.partialBalance > neededAmount then
        let remainder := vars.partialBalance - neededAmount
        if vars.selfRecipientKeyNeedsToBeRemoved then
          setBalance ctx2 sender sender tokenId remainder
        else
          match addBalance ctx2 sender sender tokenId remainder with
          | (.panicked, ctx3) => (.panicked, ctx3)
          | (.returned (_, err), ctx3) => (.returned err, ctx3)
      else
        match DelState ctx2 vars.selfRecipientKey with
        | (some _, ctx3) => (.returned (some .failedDelete), ctx3)
        | (none, ctx3) => (.returned none, ctx3)

/-- The token loop of `removeBalance` over the sorted keys of `necessaryFunds`. -/
def removeBalanceTokens (sender : String) (necessaryFunds : List (String × Int)) :
    List String → Stub → Outcome (Option Error) × Stub
  | [], ctx => (.returned none, ctx)
  | tokenId :: necessaryFundsKeys, ctx =>
    match mapGet necessaryFunds tokenId with
    | none => (.panicked, ctx)
    | some neededAmount =>
      match removeBalanceToken ctx sender tokenId neededAmount with
      | (.returned none, ctx1) => removeBalanceTokens sender necessaryFunds necessaryFundsKeys ctx1
      | (.returned (some err), ctx1) => (.returned (some err), ctx1)
      | (.panicked, ctx1) => (.panicked, ctx1)

/-- Source `removeBalance`: withdraws, per token symbol, the total of the
amounts listed for it from the sender's records. -/
def removeBalance (ctx : Stub) (sender : String) (symbols : List String) (amounts : List Int) :
    Outcome (Option Error) × Stub :=
  match necessaryFundsLoop symbols amounts [] with
  | .panicked => (.panicked, ctx)
  | .returned necessaryFunds =>
    removeBalanceTokens sender necessaryFunds (sortedKeys necessaryFunds) ctx

/-- The loop of `balanceOfHelper` over the iterator. -/
def balanceOfHelperLoop :
    StateQueryIterator → Int → Stub → Outcome (String × Option Error) × Stub
  | [], balance, ctx => (.returned (bigString balance, none), ctx)
  | queryResponse :: balanceIterator, balance, ctx =>
    match ctx.tick with
    | (true, ctx1) => (.returned (bigString bigZero, some .failedNext), ctx1)
    | (false, ctx1) =>
      match setString queryResponse.2 with
      | none => (.panicked, ctx1)
      | some balAmount => balanceOfHelperLoop balanceIterator (balance + balAmount) ctx1

/-- Source `balanceOfHelper`: the text of the summed balance and the error. -/
def balanceOfHelper (ctx : Stub) (account symbol : String) :
    Outcome (String × Option Error) × Stub :=
  if account = "0x" then (.returned (bigString bigZero, some .zeroAddressQuery), ctx)
  else
    match GetStateByPartialCompositeKey ctx balancePrefix [account, symbol] with
    | (.error _, ctx1) => (.returned (bigString bigZero, some .failedGetState), ctx1)
    | (.ok balanceIterator, ctx1) => balanceOfHelperLoop balanceIterator bigZero ctx1

/-! ## `BusyTokens.TransferFrom` -/

/-- Source struct `TransferSingle`. -/
structure TransferSingle where
  Operator : String
  From : String
  To : String
  Symbol : String
  Value : String
  TokenAddress : String
  deriving DecidableEq, Repr

/-- Source struct `TransferBatch`. -/
structure TransferBatch where
  Operator : String
  From : String
  To : String
  Symbols : List String
  Values : List String
  TokenAddresses : List String
  deriving DecidableEq, Repr

/-- Source struct `TokenMetaData`.  Of `Properties`, an `interface{}`, the model
keeps what the code reads: `none` when the value is no `map[string]interface{}`,
otherwise the entries, each value `some s` when it is the string `s`.  The
field `Type` is spelled `Type_`. -/
structure TokenMetaData where
  Name : String
  Type_ : String
  Description : String
  Logo : String
  Properties : Option (List (String × Option String))
  Website : String
  SocialMedia : String
  deriving DecidableEq, Repr

/-- Source struct `MetaDataBatch`. -/
structure MetaDataBatch where
  MetaData : List TokenMetaData
  deriving DecidableEq, Repr

/-- Source struct `BusyTokensInfo`; the time stamp is kept as text. -/
structure BusyTokensInfo where
  Account : String
  CreatedAT : String
  TokenAddress : String
  MetaData : TokenMetaData
  TotalSupply : String
  TokenSymbol : String
  deriving DecidableEq, Repr

/-- The struct `Token` of the chaincode, with the fields that `IssueToken`
assigns; the given sources use the type and do not declare it. -/
structure Token where
  DocType : String
  ID : Nat
  TokenName : String
  TokenSymbol : String
  Admin : String
  TotalSupply : String
  Decimals : Nat
  MetaData : TokenMetaData
  TokenAddress : String
  deriving DecidableEq, Repr

/-- The struct `TokenIssueFee` of the chaincode, with the fields that
`getTokenIssueFeeForTokenType` reads. -/
structure TokenIssueFee where
  BUSY20 : String
  NFT : String
  GAME : String
  deriving DecidableEq, Repr

/-- Source struct `BusyNFTMeta` (`busyNFT.go`); `Properties` is kept as in
`TokenMetaData`. -/
structure BusyNFTMeta where
  Description : String
  Image : String
  Properties : Option (List (String × Option String))
  deriving DecidableEq, Repr

/-- Source struct `BusyNft` (`busyNFT.go`); the time stamp is kept as text. -/
structure BusyNft where
  Account : String
  CreatedAT : String
  MetaData : BusyNFTMeta
  deriving DecidableEq, Repr

/-- The struct `LockedTokens` of the chaincode, with the fields that the vesting
functions assign and read; the given sources use the type and do not declare
it.  The two times are `uint64` seconds. -/
structure LockedTokens where
  DocType : String
  TotalAmount : String
  ReleasedAmount : String
  StartedAt : Nat
  ReleaseAt : Nat
  deriving DecidableEq, Repr

/-- Source struct `ApprovalForAll`. -/
structure ApprovalForAll where
  Owner : String
  Operator : String
  Approved : Bool
  deriving DecidableEq, Repr

/-- The values assigned to `Response.Data`. -/
inductive ResponseData where
  | transferSingle (data : TransferSingle)
  | transferBatch (data : TransferBatch)
  | token (data : Token)
  | tokensInfo (data : BusyTokensInfo)
  | nft (data : BusyNft)
  | text (data : String)
  | approvalForAll (data : ApprovalForAll)
  deriving DecidableEq, Repr

/-- The response struct of the chaincode; of a formatted message only the fixed
text is kept. -/
structure Response where
  TxID : String
  Success : Bool
  Message : String
  Data : Option ResponseData
  deriving DecidableEq, Repr

/-- The unspent-output record written by `txFeeHelper`. -/
structure UTXO where
  DocType : String
  Address : String
  Amount : String
  Token : String
  deriving DecidableEq, Repr

/-- What `TransferFrom` uses and the given sources do not define: functions and
constants of the repository declared in other files, and the standard-library
codecs.  They are parameters of the model; pointer results are `none` for nil. -/
structure Externals where
  /-- constant `BUSY_COIN_SYMBOL`, the native coin -/
  BUSY_COIN_SYMBOL : String
  /-- function `CheckCredentials(ctx, key, value)` -/
  CheckCredentials : Stub → String → String → Option Error × Stub
  /-- function `getCommonName(ctx)` -/
  getCommonName : Stub → Except Error String × Stub
  /-- function `getDefaultWalletAddress(ctx, commonName)` -/
  getDefaultWalletAddress : Stub → String → Except Error String × Stub
  /-- function `getBalanceHelper(ctx, address, token)`, whose error result the callers drop -/
  getBalanceHelper : Stub → String → String → Option Int × Stub
  /-- function `getCurrentTxFee(ctx)`, whose error result the callers drop -/
  getCurrentTxFee : Stub → String × Stub
  /-- function `addTotalSupplyUTXO(ctx, token, amount)`; the amount is `none` for nil -/
  addTotalSupplyUTXO : Stub → String → Option Int → Option Error × Stub
  /-- library `strings.ToUpper` -/
  ToUpper : String → String
  /-- library `base64.StdEncoding.EncodeToString` on the bytes of a string -/
  EncodeToString : String → String
  /-- library `json.Unmarshal` into a `BusyTokensInfo`, read for `MetaData.Type` -/
  unmarshalTokenType : String → Except Error String
  /-- library `json.Unmarshal` into a `bool` -/
  unmarshalBool : String → Except Error Bool
  /-- library `json.Marshal` of a `UTXO` -/
  marshalUTXO : UTXO → String
  /-- function `ifTokenExists(ctx, symbol)` -/
  ifTokenExists : Stub → String → Except Error Bool × Stub
  /-- function `addUTXO(ctx, address, amount, token)`; the amount is `none` for nil -/
  addUTXO : Stub → String → Option Int → String → Option Error × Stub
  /-- function `burnTxFee(ctx, address, token)` -/
  burnTxFee : Stub → String → String → Option Error × Stub
  /-- function `transferHelper(ctx, sender, recipient, amount, token, fee)`; the fee
  is `none` for nil -/
  transferHelper : Stub → String → String → Int → String → Option Int → Option Error × Stub
  /-- function `generateTokenStateAddress(symbol)` -/
  generateTokenStateAddress : String → String
  /-- the error result of `getBalanceHelper(ctx, address, token)`, for the callers
  that read it -/
  getBalanceHelperError : Stub → String → String → Option Error
  /-- global `minusOne` -/
  minusOne : Int
  /-- library `regexp.MustCompile(pattern).MatchString(s)` -/
  MatchString : String → String → Bool
  /-- library `time.Now()`, as text -/
  Now : String
  /-- library `strconv.Atoi`, whose error the caller drops -/
  Atoi : String → Int
  /-- library `json.Marshal` of a `BusyTokensInfo` -/
  marshalTokensInfo : BusyTokensInfo → String
  /-- library `json.Unmarshal` into a `BusyTokensInfo` -/
  unmarshalTokensInfo : String → Except Error BusyTokensInfo
  /-- library `json.Unmarshal` into a `TokenIssueFee` -/
  unmarshalTokenIssueFee : String → Except Error TokenIssueFee
  /-- library `json.Marshal` of a `Token` -/
  marshalToken : Token → String
  /-- field `Admin` of the `Token` after `json.Unmarshal(bytes, &token)`, whose error
  the caller drops; the bytes are `none` for nil -/
  unmarshalTokenAdmin : Option String → String
  /-- field `DefaultWallet` of the `User` after `json.Unmarshal(bytes, &user)`, whose
  error the caller drops -/
  unmarshalUserDefaultWallet : String → String
  /-- field `UserID` of the `Wallet` after `json.Unmarshal(bytes, &wallet)`, whose error
  the caller drops -/
  unmarshalWalletUserID : String → String
  /-- stub call `GetQueryResult` with the selector `docType`, `field: value` -/
  GetQueryResult : Stub → String → String → String → Except Error StateQueryIterator × Stub
  /-- stub call `GetTxTimestamp`, whose error the callers drop: the field `Seconds`
  of the time stamp, `none` for the nil pointer of a failed call -/
  GetTxTimestamp : Stub → Option Int
  /-- function `burnTxFeeWithTotalSupply(ctx, address, token)` -/
  burnTxFeeWithTotalSupply : Stub → String → String → Option Error × Stub
  /-- the `LockedTokens` after `json.Unmarshal(bytes, &lockedToken)`, whose error the
  caller drops -/
  unmarshalLockedTokens : String → LockedTokens
  /-- library `json.Marshal` of a `LockedTokens` -/
  marshalLockedTokens : LockedTokens → String
  /-- library `json.Unmarshal` into a `BusyNft` -/
  unmarshalNft : String → Except Error BusyNft
  /-- library `json.Marshal` of a `BusyNft` -/
  marshalNft : BusyNft → String
  /-- library `json.Unmarshal` into a `Token` -/
  unmarshalToken : String → Except Error Token
  /-- library `json.Marshal` of a `bool` -/
  marshalBool : Bool → Except Error String

/-- Object type of the approval records, keyed `(account, operator)`. -/
def approvalPrefix : String := "account~operator"

/-- Constant `tokenAddressPrefix`. -/
def tokenAddressPrefix : String := "0x"

/-- Constant `NFT_EVENT`. -/
def NFT_EVENT : String := "NFT"

/-- Constant `DEFAULT_CREDS` (`busy.go`). -/
def DEFAULT_CREDS : String := "defaultCreds"

/-- Source `base64Encode`. -/
def base64Encode (ext : Externals) (str : String) : String := ext.EncodeToString str

/-- Source `generateTokenAddress`: the symbol is upper-cased first. -/
def generateTokenAddress (ext : Externals) (symbol : String) : String :=
  "B-" ++ tokenAddressPrefix ++ base64Encode ext ("token-meta-" ++ ext.ToUpper symbol)

/-- Builds the error of `generateError(status, code, message)`, a function the
given sources call and do not define. -/
def generateError (status : Nat) (code : String) : Error := .generated status code

/-- Source `_isApprovedForAll`. -/
def _isApprovedForAll (ext : Externals) (ctx : Stub) (account operator : String) :
    Except Error Bool × Stub :=
  match CreateCompositeKey approvalPrefix [account, operator] with
  | .error _ => (.error .failedCompositeKey, ctx)
  | .ok approvalKey =>
    match GetState ctx approvalKey with
    | (.error _, ctx1) => (.error (.failedRead account), ctx1)
    | (.ok none, ctx1) => (.ok false, ctx1)
    | (.ok (some approvalBytes), ctx1) =>
      match ext.unmarshalBool approvalBytes with
      | .error err => (.error err, ctx1)
      | .ok approved => (.ok approved, ctx1)

/-- The call `addTotalSupplyUTXO(ctx, token, amount)`: the function is a
parameter, and the call is recorded. -/
def addTotalSupplyUTXO (ext : Externals) (ctx : Stub) (token : String) (amount : Option Int) :
    Option Error × Stub :=
  match ext.addTotalSupplyUTXO ctx token amount with
  | (err, ctx1) => (err, { ctx1 with calls := ctx1.calls ++ [.addTotalSupplyUTXO token amount] })

/-- The call `addUTXO(ctx, address, amount, token)`: the function is a
parameter, and the call is recorded. -/
def addUTXO (ext : Externals) (ctx : Stub) (address : String) (amount : Option Int)
    (token : String) : Option Error × Stub :=
  match ext.addUTXO ctx address amount token with
  | (err, ctx1) => (err, { ctx1 with calls := ctx1.calls ++ [.addUTXO address amount token] })

/-- The call `burnTxFee(ctx, address, token)`: the function is a parameter, and
the call is recorded. -/
def burnTxFee (ext : Externals) (ctx : Stub) (address token : String) : Option Error × Stub :=
  match ext.burnTxFee ctx address token with
  | (err, ctx1) => (err, { ctx1 with calls := ctx1.calls ++ [.burnTxFee address token] })

/-- The call `burnTxFeeWithTotalSupply(ctx, address, token)`: the function is a
parameter, and the call is recorded. -/
def burnTxFeeWithTotalSupply (ext : Externals) (ctx : Stub) (address token : String) :
    Option Error × Stub :=
  match ext.burnTxFeeWithTotalSupply ctx address token with
  | (err, ctx1) =>
    (err, { ctx1 with calls := ctx1.calls ++ [.burnTxFeeWithTotalSupply address token] })

/-- The call `transferHelper(ctx, sender, recipient, amount, token, fee)`: the
function is a parameter, and the call is recorded. -/
def transferHelper (ext : Externals) (ctx : Stub) (sender recipient : String) (amount : Int)
    (token : String) (fee : Option Int) : Option Error × Stub :=
  match ext.transferHelper ctx sender recipient amount token fee with
  | (err, ctx1) =>
    (err, { ctx1 with
      calls := ctx1.calls ++ [.transferHelper sender recipient amount token fee] })

/-- Source `txFeeHelper`: lowers the total supply by the fee and writes the
burn record of the transaction. -/
def txFeeHelper (ext : Externals) (ctx : Stub) (address token txFee txType : String) :
    Outcome (Option Error) × Stub :=
  match setString txFee with
  | none => (.panicked, ctx)
  | some bigTxFee =>
    match addTotalSupplyUTXO ext ctx token (some (-1 * bigTxFee)) with
    | (some err, ctx1) => (.returned (some err), ctx1)
    | (none, ctx1) =>
      let utxo : UTXO :=
        { DocType := "utxo", Address := address, Amount := bigString (bigTxFee * -1),
          Token := ext.BUSY_COIN_SYMBOL }
      match PutState ctx1
          (.simple ("burnTxFee~" ++ ctx1.txID ++ "~" ++ txType ++ "~" ++ address ++ "~"
            ++ ext.BUSY_COIN_SYMBOL))
          (ext.marshalUTXO utxo) with
      | (some err, ctx2) => (.returned (some err), ctx2)
      | (none, ctx2) => (.returned none, ctx2)

/-- The tail of `TransferFrom` after the fee check: burn the fee, withdraw from
the sender, deposit to the recipient, emit the event, fill the response. -/
def transferFromSettle (ext : Externals) (ctx : Stub) (response : Response)
    (operator sender recipient symbol tokenAddress tokenType : String)
    (bigAmount transferFee : Int) : Outcome (Option Response × Option Error) × Stub :=
  match txFeeHelper ext ctx sender ext.BUSY_COIN_SYMBOL (bigString transferFee) "transfer" with
  | (.panicked, ctx1) => (.panicked, ctx1)
  | (.returned (some _), ctx1) =>
    (.returned (some { response with Message := "Error while burning transaction fee" },
      some (generateError 500 "NTRA012")), ctx1)
  | (.returned none, ctx1) =>
    match removeBalance ctx1 sender [symbol] [bigAmount] with
    | (.panicked, ctx2) => (.panicked, ctx2)
    | (.returned (some _), ctx2) =>
      (.returned (some { response with Message := "Error while removing balance" },
        some (generateError 500 "NTRA013")), ctx2)
    | (.returned none, ctx2) =>
      match addBalance ctx2 sender recipient symbol bigAmount with
      | (.panicked, ctx3) => (.panicked, ctx3)
      | (.returned (_, some _), ctx3) =>
        (.returned (some { response with Message := "Error while adding balance to the recipient" },
          some (generateError 500 "NTRA014")), ctx3)
      | (.returned (bigAmount1, none), ctx3) =>
        let nftEventData : NFTEvent :=
          { UserAddresses := { Address := sender, Token := ext.BUSY_COIN_SYMBOL },
            NFTList := [{ Account := sender, Symbol := symbol, TokenType := tokenType },
                        { Account := recipient, Symbol := symbol, TokenType := tokenType }],
            TransactionFee := bigString transferFee,
            TransactionId := response.TxID }
        match SetEvent ctx3 NFT_EVENT (.nft nftEventData) with
        | (some _, ctx4) =>
          (.returned (some { response with Message := "Error while sending the NFT event" },
            some (generateError 500 "NFTB001")), ctx4)
        | (none, ctx4) =>
          let transferSingleData : TransferSingle :=
            { Operator := operator, From := sender, To := recipient, Symbol := symbol,
              Value := bigString bigAmount1, TokenAddress := tokenAddress }
          (.returned (some { response with
              Data := some (.transferSingle transferSingleData),
              Message := "Request to transfer tokens has been successfully accepted",
              Success := true }, none), ctx4)

/-- The part of `TransferFrom` from the amount check to the fee check. -/
def transferFromChecks (ext : Externals) (ctx : Stub) (response : Response)
    (operator sender recipient symbol amount tokenAddress tokenType : String) :
    Outcome (Option Response × Option Error) × Stub :=
  match setString amount with
  | none => (.panicked, ctx)
  | some bigAmount =>
    if bigAmount = bigZero then
      (.returned (some { response with Message := "Amount cannot be zero" },
        some (generateError 412 "NTRA008")), ctx)
    else
      let approval : Option (Response × Error) × Stub :=
        if operator ≠ sender then
          match _isApprovedForAll ext ctx sender operator with
          | (.error _, ctx1) =>
            (some ({ response with Message := "Failed to get the approval status of operator" },
              generateError 500 "NTRA009"), ctx1)
          | (.ok approved, ctx1) =>
            if !approved then
              (some ({ response with Message := "Caller is neither the owner nor is approved" },
                generateError 403 "NTRA010"), ctx1)
            else (none, ctx1)
        else (none, ctx)
      match approval with
      | (some (response1, err), ctx1) => (.returned (some response1, some err), ctx1)
      | (none, ctx1) =>
        match ext.getBalanceHelper ctx1 sender ext.BUSY_COIN_SYMBOL with
        | (balance, ctx2) =>
          match ext.getCurrentTxFee ctx2 with
          | (txFee, ctx3) =>
            match balance, setString txFee with
            | some balance, some transferFee =>
              if balance < transferFee then
                (.returned (some { response with
                    Message := "You does not have the enough balance to tranfer tokens" },
                  some (generateError 402 "NTRA011")), ctx3)
              else
                transferFromSettle ext ctx3 response operator sender recipient symbol
                  tokenAddress tokenType bigAmount transferFee
            | _, _ => (.panicked, ctx3)

/-- Source `BusyTokens.TransferFrom`: transfers `amount` of `symbol` from
`sender` to `recipient`. -/
def TransferFrom (ext : Externals) (ctx : Stub) (sender recipient symbol amount : String) :
    Outcome (Option Response × Option Error) × Stub :=
  let response : Response := { TxID := ctx.txID, Success := false, Message := "", Data := none }
  if sender = recipient then
    (.returned (none, some (generateError 400 "NTRA001")), ctx)
  else if recipient = "0x" then
    (.returned (none, some (generateError 400 "NTRA002")), ctx)
  else
    match ext.CheckCredentials ctx DEFAULT_CREDS "true" with
    | (some _, ctx1) =>
      (.returned (some { response with Message := "Error occurred while validating credentials" },
        some (generateError 403 "ATU001")), ctx1)
    | (none, ctx1) =>
      let tokenAddress := generateTokenAddress ext symbol
      match GetState ctx1 (.simple tokenAddress) with
      | (.error _, ctx2) =>
        (.returned (some { response with Message := "Error while getting state in blockchain" },
          some (generateError 500 "NTRA003")), ctx2)
      | (.ok none, ctx2) =>
        (.returned (some { response with Message := "Token does not exist" },
          some (generateError 404 "NTRA004")), ctx2)
      | (.ok (some busyTokensInfoAsBytes), ctx2) =>
        match ext.unmarshalTokenType busyTokensInfoAsBytes with
        | .error _ =>
          (.returned (some { response with Message := "Error while Marshalling the data" },
            some (generateError 500 "NTRA005")), ctx2)
        | .ok tokenType =>
          match ext.getCommonName ctx2 with
          | (.error _, ctx3) =>
            (.returned (some { response with Message := "Failed to get Common name" },
              some (generateError 500 "NTRA006")), ctx3)
          | (.ok commonName, ctx3) =>
            match ext.getDefaultWalletAddress ctx3 commonName with
            | (.error _, ctx4) =>
              (.returned (some { response with Message := "Error occurred while fetching wallet" },
                some (generateError 500 "NTRA007")), ctx4)
            | (.ok operator, ctx4) =>
              transferFromChecks ext ctx4 response operator sender recipient symbol amount
                tokenAddress tokenType

/-! ## Minting and burning of game and NFT tokens (`busyTokens.go`) -/

/-- Constant `TOTAL_SUPPLY_KEY_NFT`. -/
def TOTAL_SUPPLY_KEY_NFT : String := "NFT~TOTAL~SUPPLY"

/-- Constant `BALANCE_EVENT` (`busy.go`). -/
def BALANCE_EVENT : String := "BALANCE"

/-- Pattern of the regular expression `exp`. -/
def expPattern : String := "^[\\w]+([-\\s]\x7b1\x7d[\\w]+)*$"

/-- Pattern of the regular expression `oneLetter`. -/
def oneLetterPattern : String := ".*.[a-zA-Z].*$"

/-- Pattern of the regular expression `tokenLength`. -/
def tokenLengthPattern : String := "^.\x7b3,20\x7d$"

/-- Pattern of the regular expression `symbolLength`. -/
def symbolLengthPattern : String := "^.\x7b3,5\x7d$"

/-- The error return of the entry points: `response.Message = message` followed
by `return response, generateError(status, code, response.Message)`. -/
def failWith (response : Response) (message : String) (status : Nat) (code : String)
    (ctx : Stub) : Outcome (Option Response × Option Error) × Stub :=
  (.returned (some { response with Message := message }, some (generateError status code)), ctx)

/-- Models `(*big.Int).String()` on a pointer that may be nil. -/
def ptrString : Option Int → String
  | some n => bigString n
  | none => "<nil>"

/-- The string result of a call returning `(string, error)` whose error the
caller drops; with an error the functions of the chaincode return `""`. -/
def orEmpty : Except Error String → String
  | .ok value => value
  | .error _ => ""

/-- Source `contains`. -/
def contains : List String → String → Bool
  | [], _ => false
  | v :: s, str => if v = str then true else contains s str

/-- The loop of `isDuplicate` with its map `occurred`, held as the list of items seen. -/
def isDuplicateLoop : List String → List String → Bool
  | [], _ => false
  | item :: slice, occurred =>
    if contains occurred item then true else isDuplicateLoop slice (item :: occurred)

/-- Source `isDuplicate`. -/
def isDuplicate (slice : List String) : Bool := isDuplicateLoop slice []

/-- The loop over `metadata.Properties`: whether a value is the empty string. -/
def hasEmptyProperty : Option (List (String × Option String)) → Bool
  | none => false
  | some properties => properties.any (fun kv => kv.2 == some "")

/-- Source `addTotalSupplyTokensUTXO`. -/
def addTotalSupplyTokensUTXO (ext : Externals) (ctx : Stub) (tokenSymbol : String)
    (amount : Option Int) : Option Error × Stub :=
  match addUTXO ext ctx TOTAL_SUPPLY_KEY_NFT amount tokenSymbol with
  | (some err, ctx1) => (some err, ctx1)
  | (none, ctx1) => (none, ctx1)

/-- Source `getTokenIssueFeeForTokenType` (`busy.go`): the bytes are nil also when
the read fails, so the first test catches both cases. -/
def getTokenIssueFeeForTokenType (ext : Externals) (ctx : Stub) (tokenType : String) :
    (String × Option Error) × Stub :=
  match GetState ctx (.simple "TokenIssueFees") with
  | (.error _, ctx1) => (("", some (.formatted "Token Issue Fees does not exist")), ctx1)
  | (.ok none, ctx1) => (("", some (.formatted "Token Issue Fees does not exist")), ctx1)
  | (.ok (some feesAsBytes), ctx1) =>
    match ext.unmarshalTokenIssueFee feesAsBytes with
    | .error _ => (("", some (.formatted "Error while retrieving the sender details")), ctx1)
    | .ok tokenIssueFees =>
      if ext.ToUpper tokenType = "BUSY20" then ((tokenIssueFees.BUSY20, none), ctx1)
      else if ext.ToUpper tokenType = "NFT" then ((tokenIssueFees.NFT, none), ctx1)
      else if ext.ToUpper tokenType = "GAME" then ((tokenIssueFees.GAME, none), ctx1)
      else (("", some (.formatted "invalid token type")), ctx1)

/-- Source `addBalance` called with a nil `bigAmount`: adding to a stored amount
dereferences the nil pointer, and without a stored amount the text of nil is
written. -/
def addBalanceNil (ctx : Stub) (sender recipient symbol : String) :
    Outcome (Option Error) × Stub :=
  match CreateCompositeKey balancePrefix [recipient, symbol, sender] with
  | .error _ => (.returned (some .failedCompositeKey), ctx)
  | .ok balanceKey =>
    match GetState ctx balanceKey with
    | (.error _, ctx1) => (.returned (some (.failedRead recipient)), ctx1)
    | (.ok (some _), ctx1) => (.panicked, ctx1)
    | (.ok none, ctx1) =>
      match PutState ctx1 balanceKey (ptrString none) with
      | (some err, ctx2) => (.returned (some err), ctx2)
      | (none, ctx2) => (.returned none, ctx2)

/-- Source `mintHelper` with `bigAmount` as the pointer it is: `none` is nil.  The
first component of the result is the value of `*bigAmount` on return. -/
def mintHelperPtr (ctx : Stub) (operator account symbol : String) :
    Option Int → Outcome (Option Int × Option Error) × Stub
  | some bigAmount =>
    match mintHelper ctx operator account symbol bigAmount with
    | (.panicked, ctx1) => (.panicked, ctx1)
    | (.returned (bigAmount1, err), ctx1) => (.returned (some bigAmount1, err), ctx1)
  | none =>
    if account = "0x" then (.returned (none, some .mintToZeroAddress), ctx)
    else
      match addBalanceNil ctx operator account symbol with
      | (.panicked, ctx1) => (.panicked, ctx1)
      | (.returned err, ctx1) => (.returned (none, err), ctx1)

/-- The tail of `Mint` after the fee check: burn the fee, credit the account,
write the token record, emit the event, raise the supply. -/
def mintSettle (ext : Externals) (ctx : Stub) (response : Response)
    (operator account symbol totalSupply tokenAddress : String) (metadata : TokenMetaData)
    (mintFee : Int) : Outcome (Option Response × Option Error) × Stub :=
  match txFeeHelper ext ctx account ext.BUSY_COIN_SYMBOL (bigString mintFee) "mint" with
  | (.panicked, ctx1) => (.panicked, ctx1)
  | (.returned (some _), ctx1) =>
    failWith response "Error while burning mint transaction fee" 500 "MIN016" ctx1
  | (.returned none, ctx1) =>
    match mintHelperPtr ctx1 operator account symbol (setString totalSupply) with
    | (.panicked, ctx2) => (.panicked, ctx2)
    | (.returned (_, some _), ctx2) =>
      failWith response "Error while minting the tokens" 500 "MIN017" ctx2
    | (.returned (bigAmount, none), ctx2) =>
      let busyTokensInfo : BusyTokensInfo :=
        { Account := account, TokenAddress := tokenAddress, CreatedAT := ext.Now,
          MetaData := metadata, TotalSupply := ptrString bigAmount, TokenSymbol := symbol }
      match PutState ctx2 (.simple tokenAddress) (ext.marshalTokensInfo busyTokensInfo) with
      | (some _, ctx3) =>
        failWith response "Error while updating state in blockchain" 500 "MIN018" ctx3
      | (none, ctx3) =>
        let nftEventData : NFTEvent :=
          { UserAddresses := { Address := account, Token := ext.BUSY_COIN_SYMBOL },
            NFTList := [{ Account := account, TokenType := metadata.Type_, Symbol := symbol }],
            TransactionFee := bigString mintFee,
            TransactionId := response.TxID }
        match SetEvent ctx3 NFT_EVENT (.nft nftEventData) with
        | (some _, ctx4) =>
          failWith response "Error while sending the NFT event" 500 "NFTB001" ctx4
        | (none, ctx4) =>
          match addTotalSupplyTokensUTXO ext ctx4 symbol bigAmount with
          | (some _, ctx5) =>
            failWith response "Error occurred while updating total supply" 500 "MIN019" ctx5
          | (none, ctx5) =>
            let transferSingleData : TransferSingle :=
              ⟨operator, "0x", account, symbol, ptrString bigAmount, tokenAddress⟩
            (.returned (some { response with
                Data := some (.transferSingle transferSingleData),
                Success := true,
                Message := "Tokens has been successfully minted" }, none), ctx5)

/-- The part of `Mint` from the wallet check to the fee check. -/
def mintFunds (ext : Externals) (ctx : Stub) (response : Response)
    (account symbol totalSupply tokenAddress : String) (metadata : TokenMetaData) :
    Outcome (Option Response × Option Error) × Stub :=
  match GetState ctx (.simple account) with
  | (.error _, ctx1) => failWith response "Error occurred while fetching account" 500 "MIN011" ctx1
  | (.ok none, ctx1) => failWith response "Wallet does not exist" 404 "MIN012" ctx1
  | (.ok (some _), ctx1) =>
    match ext.getCommonName ctx1 with
    | (.error _, ctx2) => failWith response "Failed to get Common name" 500 "MIN013" ctx2
    | (.ok commonName, ctx2) =>
      match ext.getDefaultWalletAddress ctx2 commonName with
      | (.error _, ctx3) =>
        failWith response "Error occurred while fetching wallet" 500 "MIN014" ctx3
      | (.ok operator, ctx3) =>
        match ext.getBalanceHelper ctx3 account ext.BUSY_COIN_SYMBOL with
        | (balance, ctx4) =>
          match getTokenIssueFeeForTokenType ext ctx4 metadata.Type_ with
          | ((mintFeeString, _), ctx5) =>
            match balance, setString mintFeeString with
            | some balance, some mintFee =>
              if balance < mintFee then
                failWith response "User does not have the enough balance to mint new tokens"
                  402 "MIN015" ctx5
              else
                mintSettle ext ctx5 response operator account symbol totalSupply tokenAddress
                  metadata mintFee
            | _, _ => (.panicked, ctx5)

/-- Source `BusyTokens.Mint`: creates the token `symbol` and credits
`totalSupply` of it to `account`. -/
def Mint (ext : Externals) (ctx : Stub) (account symbol totalSupply : String)
    (metadata : TokenMetaData) : Outcome (Option Response × Option Error) × Stub :=
  let response : Response := { TxID := ctx.txID, Success := false, Message := "", Data := none }
  let tokenAddress := generateTokenAddress ext symbol
  match GetState ctx (.simple tokenAddress) with
  | (.error _, ctx1) =>
    failWith response "Error while getting state in blockchain" 500 "MIN001" ctx1
  | (.ok (some _), ctx1) => failWith response "Token already exists" 409 "MIN002" ctx1
  | (.ok none, ctx1) =>
    match ext.CheckCredentials ctx1 DEFAULT_CREDS "true" with
    | (some _, ctx2) =>
      failWith response "Error occurred while validating credentials" 403 "ATU001" ctx2
    | (none, ctx2) =>
      if !ext.MatchString expPattern metadata.Name
          || !ext.MatchString tokenLengthPattern metadata.Name
          || !ext.MatchString oneLetterPattern metadata.Name then
        failWith response "Invalid token name" 412 "MIN003" ctx2
      else if !ext.MatchString expPattern symbol
          || !ext.MatchString symbolLengthPattern symbol
          || !ext.MatchString oneLetterPattern symbol then
        failWith response "Invalid token symbol" 412 "MIN004" ctx2
      else
        match ext.ifTokenExists ctx2 symbol with
        | (.error _, ctx3) =>
          failWith response "Error while fetching token details" 500 "MIN005" ctx3
        | (.ok true, ctx3) =>
          failWith response "Token with the same symbol already exists" 409 "MIN006" ctx3
        | (.ok false, ctx3) =>
          if ext.ToUpper symbol = ext.BUSY_COIN_SYMBOL
              || ext.ToUpper metadata.Name = ext.BUSY_COIN_SYMBOL then
            failWith response "Symbol/TokenName cannot be BUSY!" 412 "MIN007" ctx3
          else if hasEmptyProperty metadata.Properties then
            failWith response "should not be empty in properties" 400 "MIN008" ctx3
          else if metadata.Logo = "" || metadata.Name = "" || metadata.Type_ = "" then
            failWith response "Invalid Metadata" 412 "MIN009" ctx3
          else if !contains ["NFT", "GAME"] metadata.Type_ then
            failWith response "Only NFT and GAME are supported as type in metadata" 412
              "MIN010" ctx3
          else mintFunds ext ctx3 response account symbol totalSupply tokenAddress metadata

/-- Locals of `MintBatch` that its first loop extends. -/
structure MintBatchVars where
  tokenAddresses : List String
  nftList : List NFTEventInfo
  mintFeeBatch : Int
  deriving DecidableEq, Repr

/-- The body of the first loop of `MintBatch` for one symbol: the checks, the
token record, the supply and the fee.  The result is the error return of
`MintBatch`, or the extended locals. -/
def mintBatchToken (ext : Externals) (ctx : Stub) (response : Response)
    (account symbol totalSupply : String) (metadata : TokenMetaData) (vars : MintBatchVars) :
    Outcome (Option Response × Option Error) × Stub ⊕ MintBatchVars × Stub :=
  match ext.ifTokenExists ctx symbol with
  | (.error _, ctx1) =>
    .inl (failWith response "Error while fetching token details" 500 "MIN005" ctx1)
  | (.ok true, ctx1) =>
    .inl (failWith response "Token with same symbol already exists" 409 "MIN006" ctx1)
  | (.ok false, ctx1) =>
    let tokenAddress := generateTokenAddress ext symbol
    match GetState ctx1 (.simple tokenAddress) with
    | (.error _, ctx2) =>
      .inl (failWith response "Error while getting state in blockchain" 500 "MIN001" ctx2)
    | (.ok (some _), ctx2) => .inl (failWith response "Token already exists" 409 "MIN002" ctx2)
    | (.ok none, ctx2) =>
      if metadata.Logo = "" || metadata.Name = "" || metadata.Type_ = "" then
        .inl (failWith response "Invalid Metadata" 412 "MIN009" ctx2)
      else if !contains ["NFT", "GAME"] metadata.Type_ then
        .inl (failWith response "Only NFT and GAME are supported as type in metadata" 412
          "MIN010" ctx2)
      else if ext.ToUpper symbol = ext.BUSY_COIN_SYMBOL
          || ext.ToUpper metadata.Name = ext.BUSY_COIN_SYMBOL then
        .inl (failWith response "Symbol/TokenName cannot be BUSY!" 412 "MIN007" ctx2)
      else if hasEmptyProperty metadata.Properties then
        .inl (failWith response "should not be empty in properties" 400 "MIN008" ctx2)
      else if !ext.MatchString expPattern metadata.Name
          || !ext.MatchString tokenLengthPattern metadata.Name
          || !ext.MatchString oneLetterPattern metadata.Name then
        .inl (failWith response "Invalid token name" 412 "MIN003" ctx2)
      else if !ext.MatchString expPattern symbol
          || !ext.MatchString symbolLengthPattern symbol
          || !ext.MatchString oneLetterPattern symbol then
        .inl (failWith response "Invalid token symbol" 412 "MIN004" ctx2)
      else
        let bigAmount := setString totalSupply
        let busyTokensInfo : BusyTokensInfo :=
          { Account := account, CreatedAT := ext.Now, TokenAddress := tokenAddress,
            MetaData := metadata, TotalSupply := ptrString bigAmount, TokenSymbol := symbol }
        match PutState ctx2 (.simple tokenAddress) (ext.marshalTokensInfo busyTokensInfo) with
        | (some _, ctx3) =>
          .inl (failWith response "Error while updating state in blockchain" 500 "MIN018" ctx3)
        | (none, ctx3) =>
          match addTotalSupplyTokensUTXO ext ctx3 symbol bigAmount with
          | (some _, ctx4) =>
            .inl (failWith response "Error occurred while updating total supply" 500 "MIN019"
              ctx4)
          | (none, ctx4) =>
            match getTokenIssueFeeForTokenType ext ctx4 metadata.Type_ with
            | ((mintFeeString, _), ctx5) =>
              match setString mintFeeString with
              | none => .inl (.panicked, ctx5)
              | some mintFee =>
                .inr ({ tokenAddresses := vars.tokenAddresses ++ [tokenAddress],
                        nftList := vars.nftList ++
                          [{ Account := account, TokenType := metadata.Type_, Symbol := symbol }],
                        mintFeeBatch := vars.mintFeeBatch + mintFee }, ctx5)

/-- The first loop of `MintBatch` (`for idx, symbol := range symbols`).  The three
lists have the same length when the loop is entered; an index out of range is
a panic. -/
def mintBatchLoop (ext : Externals) (response : Response) (account : String) :
    List String → List String → List TokenMetaData → MintBatchVars → Stub →
      Outcome (Option Response × Option Error) × Stub ⊕ MintBatchVars × Stub
  | [], _, _, vars, ctx => .inr (vars, ctx)
  | symbol :: symbols, totalSupply :: totalSupplies, metadata :: metaData, vars, ctx =>
    match mintBatchToken ext ctx response account symbol totalSupply metadata vars with
    | .inl result => .inl result
    | .inr (vars1, ctx1) =>
      mintBatchLoop ext response account symbols totalSupplies metaData vars1 ctx1
  | _ :: _, _, _, _, ctx => .inl (.panicked, ctx)

/-- One step of the loop filling the map `amountToSend` of `MintBatch`: a new
key takes the amount, a known key adds it in place; an amount is `none` for
nil. -/
def addAmountToSend :
    List (String × Option Int) → String → Option Int → Outcome (List (String × Option Int))
  | [], symbol, amount => .returned [(symbol, amount)]
  | (s, total) :: rest, symbol, amount =>
    if s = symbol then
      match total, amount with
      | some t, some a => .returned ((s, some (t + a)) :: rest)
      | _, _ => .panicked
    else
      match addAmountToSend rest symbol amount with
      | .returned rest1 => .returned ((s, total) :: rest1)
      | .panicked => .panicked

/-- The loop filling `amountToSend` (`for i := 0; i < len(totalSupplies); i++`). -/
def amountToSendLoop :
    List String → List String → List (String × Option Int) →
      Outcome (List (String × Option Int))
  | _, [], amountToSend => .returned amountToSend
  | [], _ :: _, _ => .panicked
  | symbol :: symbols, totalSupply :: totalSupplies, amountToSend =>
    match addAmountToSend amountToSend symbol (setString totalSupply) with
    | .returned amountToSend1 => amountToSendLoop symbols totalSupplies amountToSend1
    | .panicked => .panicked

/-- Go map read `amountToSend[id]`: the stored pointer, nil for a missing key. -/
def mapGetPtr : List (String × Option Int) → String → Option Int
  | [], _ => none
  | (s, amount) :: rest, id => if s = id then amount else mapGetPtr rest id

/-- The minting loop of `MintBatch` over the sorted keys of `amountToSend`. -/
def mintBatchCredits (operator account : String) (amountToSend : List (String × Option Int)) :
    List String → Stub → Outcome (Option Error) × Stub
  | [], ctx => (.returned none, ctx)
  | id :: amountToSendKeys, ctx =>
    match mintHelperPtr ctx operator account id (mapGetPtr amountToSend id) with
    | (.panicked, ctx1) => (.panicked, ctx1)
    | (.returned (_, some err), ctx1) => (.returned (some err), ctx1)
    | (.returned (_, none), ctx1) =>
      mintBatchCredits operator account amountToSend amountToSendKeys ctx1

/-- The tail of `MintBatch` after its first loop: credit the account, check and
burn the fee, emit the event, fill the response. -/
def mintBatchSettle (ext : Externals) (ctx : Stub) (response : Response) (account : String)
    (symbols totalSupplies : List String) (vars : MintBatchVars) :
    Outcome (Option Response × Option Error) × Stub :=
  match ext.getCommonName ctx with
  | (.error _, ctx1) => failWith response "Failed to get Common name" 500 "MIN013" ctx1
  | (.ok commonName, ctx1) =>
    match ext.getDefaultWalletAddress ctx1 commonName with
    | (.error _, ctx2) =>
      failWith response "Error occurred while fetching wallet" 500 "MIN014" ctx2
    | (.ok operator, ctx2) =>
      match amountToSendLoop symbols totalSupplies [] with
      | .panicked => (.panicked, ctx2)
      | .returned amountToSend =>
        match mintBatchCredits operator account amountToSend (sortedKeys amountToSend) ctx2 with
        | (.panicked, ctx3) => (.panicked, ctx3)
        | (.returned (some _), ctx3) =>
          failWith response "Error while minting the batch" 500 "MIN021" ctx3
        | (.returned none, ctx3) =>
          match ext.getBalanceHelper ctx3 account ext.BUSY_COIN_SYMBOL with
          | (none, ctx4) => (.panicked, ctx4)
          | (some balance, ctx4) =>
            if balance < vars.mintFeeBatch then
              failWith response "User does not have the enough balance to mint enw tokens"
                402 "MIN015" ctx4
            else
              match txFeeHelper ext ctx4 account ext.BUSY_COIN_SYMBOL
                  (bigString vars.mintFeeBatch) "mintGame" with
              | (.panicked, ctx5) => (.panicked, ctx5)
              | (.returned (some _), ctx5) =>
                failWith response "Error while burning mint Transaction Fee" 500 "MIN016" ctx5
              | (.returned none, ctx5) =>
                let nftEventData : NFTEvent :=
                  { UserAddresses := { Address := account, Token := ext.BUSY_COIN_SYMBOL },
                    NFTList := vars.nftList,
                    TransactionFee := bigString vars.mintFeeBatch,
                    TransactionId := response.TxID }
                match SetEvent ctx5 NFT_EVENT (.nft nftEventData) with
                | (some _, ctx6) =>
                  failWith response "Error while sending the NFT event" 500 "NFTB001" ctx6
                | (none, ctx6) =>
                  let transferBatchData : TransferBatch :=
                    ⟨operator, "0x", account, symbols, totalSupplies, vars.tokenAddresses⟩
                  (.returned (some { response with
                      Data := some (.transferBatch transferBatchData),
                      Message := "Request to mint the tokens has been successfully accepted",
                      Success := true }, none), ctx6)

/-- Source `BusyTokens.MintBatch`: creates one token per symbol and credits the
total supplies to `account`.  The loop over `visited` is the loop of
`isDuplicate`. -/
def MintBatch (ext : Externals) (ctx : Stub) (account : String)
    (symbols totalSupplies : List String) (metaDataBatch : MetaDataBatch) :
    Outcome (Option Response × Option Error) × Stub :=
  let response : Response := { TxID := ctx.txID, Success := false, Message := "", Data := none }
  if symbols.length ≠ totalSupplies.length
      ∨ symbols.length ≠ metaDataBatch.MetaData.length then
    (.returned (none, some (generateError 400 "MIN020")), ctx)
  else if isDuplicate symbols then
    (.returned (none, some (generateError 400 "MIN022")), ctx)
  else
    match ext.CheckCredentials ctx DEFAULT_CREDS "true" with
    | (some _, ctx1) =>
      failWith response "Error occurred while validating credentials" 403 "ATU001" ctx1
    | (none, ctx1) =>
      match GetState ctx1 (.simple account) with
      | (.error _, ctx2) =>
        failWith response "Error occurred while fetching account" 500 "MIN011" ctx2
      | (.ok none, ctx2) => failWith response "Wallet does not exist" 500 "MIN012" ctx2
      | (.ok (some _), ctx2) =>
        match mintBatchLoop ext response account symbols totalSupplies metaDataBatch.MetaData
            ⟨[], [], 0⟩ ctx2 with
        | .inl result => result
        | .inr (vars, ctx3) =>
          mintBatchSettle ext ctx3 response account symbols totalSupplies vars

/-- Locals of `BurnBatch` that its loop extends. -/
structure BurnBatchVars where
  tokenAddresses : List String
  nftList : List NFTEventInfo
  bigAmounts : List Int
  deriving DecidableEq, Repr

/-- The body of the loop of `BurnBatch` for one symbol: the token and owner
checks and the reduction of the supply.  `new(big.Int).Set(bigAmount)` panics
on the nil of a malformed amount. -/
def burnBatchToken (ext : Externals) (ctx : Stub) (response : Response)
    (account defaultWalletAddress symbol amount : String) (vars : BurnBatchVars) :
    Outcome (Option Response × Option Error) × Stub ⊕ BurnBatchVars × Stub :=
  let tokenAddress := generateTokenAddress ext symbol
  match GetState ctx (.simple tokenAddress) with
  | (.error _, ctx1) =>
    .inl (failWith response "Error while getting state in blockchain" 500 "BRNB007" ctx1)
  | (.ok none, ctx1) => .inl (failWith response "Token does not exist" 404 "BRNB008" ctx1)
  | (.ok (some busyTokensInfoAsBytes), ctx1) =>
    match ext.unmarshalTokensInfo busyTokensInfoAsBytes with
    | .error _ => .inl (failWith response "Error while marshalling the data" 500 "BRNB009" ctx1)
    | .ok busyTokensInfo =>
      if defaultWalletAddress ≠ busyTokensInfo.Account then
        .inl (failWith response "Only owner can burn the tokens" 403 "BRNB010" ctx1)
      else
        match setString amount with
        | none => .inl (.panicked, ctx1)
        | some bigAmount =>
          match addTotalSupplyTokensUTXO ext ctx1 symbol (some (ext.minusOne * bigAmount)) with
          | (some _, ctx2) =>
            .inl (failWith response "Error occurred while updating total supply" 500 "BRNB011"
              ctx2)
          | (none, ctx2) =>
            .inr ({ tokenAddresses := vars.tokenAddresses ++ [tokenAddress],
                    nftList := vars.nftList ++
                      [{ Account := account, Symbol := symbol,
                         TokenType := busyTokensInfo.MetaData.Type_ }],
                    bigAmounts := vars.bigAmounts ++ [bigAmount] }, ctx2)

/-- The loop of `BurnBatch` (`for idx, symbol := range symbols`).  The two lists
have the same length when the loop is entered; an index out of range is a
panic. -/
def burnBatchLoop (ext : Externals) (response : Response)
    (account defaultWalletAddress : String) :
    List String → List String → BurnBatchVars → Stub →
      Outcome (Option Response × Option Error) × Stub ⊕ BurnBatchVars × Stub
  | [], _, vars, ctx => .inr (vars, ctx)
  | symbol :: symbols, amount :: amounts, vars, ctx =>
    match burnBatchToken ext ctx response account defaultWalletAddress symbol amount vars with
    | .inl result => .inl result
    | .inr (vars1, ctx1) =>
      burnBatchLoop ext response account defaultWalletAddress symbols amounts vars1 ctx1
  | _ :: _, [], _, ctx => .inl (.panicked, ctx)

/-- The tail of `BurnBatch` after its loop: wallet and fee checks, withdrawal,
fee, event, response. -/
def burnBatchSettle (ext : Externals) (ctx : Stub) (response : Response) (account : String)
    (symbols amounts : List String) (vars : BurnBatchVars) :
    Outcome (Option Response × Option Error) × Stub :=
  match GetState ctx (.simple account) with
  | (.error _, ctx1) =>
    failWith response "Error occurred while fetching wallet" 500 "BRNB012" ctx1
  | (.ok none, ctx1) => failWith response "Wallet does not exist" 404 "BRNB013" ctx1
  | (.ok (some _), ctx1) =>
    match ext.getBalanceHelper ctx1 account ext.BUSY_COIN_SYMBOL with
    | (balance, ctx2) =>
      match ext.getCurrentTxFee ctx2 with
      | (burnFeeString, ctx3) =>
        match balance, setString burnFeeString with
        | some balance, some burnFee =>
          let numberofTokens : Int := symbols.length
          let burnBatchFee := burnFee * numberofTokens
          if balance < burnBatchFee then
            failWith response "User does not have the enough balance to burn tokens" 402
              "BRNB014" ctx3
          else
            match removeBalance ctx3 account symbols vars.bigAmounts with
            | (.panicked, ctx4) => (.panicked, ctx4)
            | (.returned (some _), ctx4) =>
              failWith response "Error while burning the tokens" 500 "BRNB015" ctx4
            | (.returned none, ctx4) =>
              match txFeeHelper ext ctx4 account ext.BUSY_COIN_SYMBOL (bigString burnBatchFee)
                  "mintGame" with
              | (.panicked, ctx5) => (.panicked, ctx5)
              | (.returned (some _), ctx5) =>
                failWith response "Error while burning mint transaction fee" 500 "BRNB016" ctx5
              | (.returned none, ctx5) =>
                let nftEventData : NFTEvent :=
                  { UserAddresses := { Address := account, Token := ext.BUSY_COIN_SYMBOL },
                    NFTList := vars.nftList,
                    TransactionFee := bigString burnBatchFee,
                    TransactionId := response.TxID }
                match SetEvent ctx5 NFT_EVENT (.nft nftEventData) with
                | (some _, ctx6) =>
                  failWith response "Error while sending the NFT event" 500 "NFTB001" ctx6
                | (none, ctx6) =>
                  let burnBatchData : TransferBatch :=
                    ⟨account, account, "0x", symbols, amounts, vars.tokenAddresses⟩
                  (.returned (some { response with
                      Data := some (.transferBatch burnBatchData),
                      Message := "Tokens burn successfully",
                      Success := true }, none), ctx6)
        | _, _ => (.panicked, ctx3)

/-- Source `BusyTokens.BurnBatch`: destroys the listed amounts of the listed
tokens held by `account`. -/
def BurnBatch (ext : Externals) (ctx : Stub) (account : String)
    (symbols amounts : List String) : Outcome (Option Response × Option Error) × Stub :=
  let response : Response := { TxID := ctx.txID, Success := false, Message := "", Data := none }
  if account = "0x" then (.returned (none, some (generateError 400 "BRNB001")), ctx)
  else if symbols.length ≠ amounts.length then
    (.returned (none, some (generateError 412 "BRNB002")), ctx)
  else if isDuplicate symbols then (.returned (none, some (generateError 412 "BRNB003")), ctx)
  else
    match ext.CheckCredentials ctx DEFAULT_CREDS "true" with
    | (some _, ctx1) =>
      failWith response "Error occurred while validating credentials" 403 "ATU001" ctx1
    | (none, ctx1) =>
      match ext.getCommonName ctx1 with
      | (.error _, ctx2) => failWith response "Failed to get Common name" 500 "BRNB004" ctx2
      | (.ok commonName, ctx2) =>
        match ext.getDefaultWalletAddress ctx2 commonName with
        | (.error _, ctx3) =>
          failWith response "Error occurred while fetching wallet" 500 "BRNB005" ctx3
        | (.ok defaultWalletAddress, ctx3) =>
          if defaultWalletAddress ≠ account then
            failWith response "Wallet Id does not match" 409 "BRNB006" ctx3
          else
            match burnBatchLoop ext response account defaultWalletAddress symbols amounts
                ⟨[], [], []⟩ ctx3 with
            | .inl result => result
            | .inr (vars, ctx4) =>
              burnBatchSettle ext ctx4 response account symbols amounts vars

/-! ## Coins and BUSY20 tokens (`busy.go`, `busyVoting.go`) -/

/-- The value of a Go `int` expression: two's complement on 64 bits. -/
def wrapInt64 (n : Int) : Int := (n + 2 ^ 63) % 2 ^ 64 - 2 ^ 63

/-- The conversion `uint64(n)` of a Go `int`. -/
def toUint64 (n : Int) : Nat := (n % 2 ^ 64).toNat

/-- The tail of `Transfer` after the staking check: move the amount, burn the
fee, emit the event.  `bigTransferFee` is `none` for nil; multiplying it in
place panics on nil. -/
def transferSettle (ext : Externals) (ctx : Stub) (response : Response)
    (sender defaultWallet recipiant token : String) (bigAmount : Int)
    (bigTransferFee : Option Int) : Outcome (Option Response × Option Error) × Stub :=
  let bigTransferFee := if sender = "busy_network" then some bigZero else bigTransferFee
  match transferHelper ext ctx defaultWallet recipiant bigAmount token bigTransferFee with
  | (some _, ctx1) =>
    failWith response "You do not have enough amount to transfer" 400 "TRA014" ctx1
  | (none, ctx1) =>
    match bigTransferFee with
    | none => (.panicked, ctx1)
    | some fee =>
      let fee1 := ext.minusOne * fee
      match addTotalSupplyUTXO ext ctx1 ext.BUSY_COIN_SYMBOL (some fee1) with
      | (some _, ctx2) => failWith response "Error while burning transfer fee" 400 "TRA015" ctx2
      | (none, ctx2) =>
        let userAddresses : List UserAddress :=
          [{ Address := defaultWallet, Token := ext.BUSY_COIN_SYMBOL },
           { Address := recipiant, Token := token }]
        let userAddresses :=
          if token ≠ ext.BUSY_COIN_SYMBOL then
            userAddresses ++ [{ Address := defaultWallet, Token := token }]
          else userAddresses
        let balanceData : BalanceEvent :=
          { UserAddresses := userAddresses,
            TransactionFee := bigString (fee1 * ext.minusOne),
            TransactionId := response.TxID }
        match SetEvent ctx2 BALANCE_EVENT (.balance balanceData) with
        | (some _, ctx3) =>
          failWith response "Error while Sending the Balance event" 500 "BAL001" ctx3
        | (none, ctx3) =>
          (.returned (some { response with
              Message := "Transfer has been successfully accepted",
              Success := true }, none), ctx3)

/-- The part of `Transfer` from the sender lookup to the staking check.  The
bytes of the user are nil also when the read fails, so the first test catches
both cases; `data` is nil when `Next` fails, and reading its value panics. -/
def transferParties (ext : Externals) (ctx : Stub) (response : Response)
    (recipiant token : String) (bigAmount : Int) (bigTransferFee : Option Int) :
    Outcome (Option Response × Option Error) × Stub :=
  let token := if token = "" then ext.BUSY_COIN_SYMBOL else token
  match ext.getCommonName ctx with
  | (senderResult, ctx1) =>
    let sender := orEmpty senderResult
    match GetState ctx1 (.simple sender) with
    | (.error _, ctx2) => failWith response "User does not exist" 404 "TRA009" ctx2
    | (.ok none, ctx2) => failWith response "User does not exist" 404 "TRA009" ctx2
    | (.ok (some userAsBytes), ctx2) =>
      let defaultWallet := ext.unmarshalUserDefaultWallet userAsBytes
      if defaultWallet = recipiant then
        failWith response "It is not possible to transfer to your address" 409 "TRA011" ctx2
      else if "staking-".data.isPrefixOf recipiant.data then
        match ext.GetQueryResult ctx2 "stakingAddr" "address" recipiant with
        | (.error _, ctx3) =>
          failWith response "Error occurred while fetching user wallets" 500 "TRA012" ctx3
        | (.ok [], ctx3) => failWith response "Staking address does not exist" 404 "TRA014" ctx3
        | (.ok (data :: _), ctx3) =>
          match ctx3.tick with
          | (true, ctx4) => (.panicked, ctx4)
          | (false, ctx4) =>
            if ext.unmarshalWalletUserID data.2 ≠ sender then
              failWith response
                "It is not possible to make a transfer to the staking addresses" 406 "TRA013"
                ctx4
            else
              transferSettle ext ctx4 response sender defaultWallet recipiant token bigAmount
                bigTransferFee
      else
        transferSettle ext ctx2 response sender defaultWallet recipiant token bigAmount
          bigTransferFee

/-- Source `Busy.Transfer`: transfers `amount` of `token` from the caller's
default wallet to `recipiant`. -/
def Transfer (ext : Externals) (ctx : Stub) (recipiant amount token : String) :
    Outcome (Option Response × Option Error) × Stub :=
  let response : Response := { TxID := ctx.txID, Success := false, Message := "", Data := none }
  if amount = "0" then
    failWith response "Zero amount can not be transferred" 412 "TRA001" ctx
  else
    match ext.getCommonName ctx with
    | (commonNameResult, ctx1) =>
      let commonName := orEmpty commonNameResult
      match ext.CheckCredentials ctx1 DEFAULT_CREDS "true" with
      | (err, ctx2) =>
        if commonName ≠ "busy_network" ∧ err.isSome then
          failWith response "Error occurred while validating credentials" 403 "ATU001" ctx2
        else
          match ext.ifTokenExists ctx2 token with
          | (.error _, ctx3) =>
            failWith response "Error occurred while fetching the details" 500 "TRA002" ctx3
          | (.ok tokenExists, ctx3) =>
            if !tokenExists
                || (ext.ToUpper token = ext.BUSY_COIN_SYMBOL && token ≠ ext.BUSY_COIN_SYMBOL) then
              failWith response "Symbol does not exist" 404 "TRA003" ctx3
            else
              match GetState ctx3 (.simple recipiant) with
              | (.error _, ctx4) =>
                failWith response "Error occurred while fetching wallet" 500 "TRA004" ctx4
              | (.ok none, ctx4) => failWith response "Wallet does not exist" 404 "TRA005" ctx4
              | (.ok (some _), ctx4) =>
                match GetState ctx4 (.simple "transferFees") with
                | (.error _, ctx5) =>
                  failWith response "Error occurred while fetching transfer fee" 500 "TRA006"
                    ctx5
                | (.ok transferFeesAsBytes, ctx5) =>
                  let bigTransferFee := setString (transferFeesAsBytes.getD "")
                  match setString amount with
                  | none => failWith response "Amount is invalid" 412 "TRA007" ctx5
                  | some bigAmount =>
                    if bigAmount < bigZero then
                      failWith response "Transfer amount is invalid" 412 "TRA008" ctx5
                    else
                      transferParties ext ctx5 response recipiant token bigAmount
                        bigTransferFee

/-- The tail of `IssueToken` after the supply record: credit the issuer, charge
and burn the fee, emit the event.  The response carries the token already. -/
def issueTokenSettle (ext : Externals) (ctx : Stub) (response : Response)
    (commonName defaultWalletAddress symbol : String) (bigAmount issueTokenFee : Int) :
    Outcome (Option Response × Option Error) × Stub :=
  let minusOne : Int := -1
  match ext.getDefaultWalletAddress ctx commonName with
  | (issuerResult, ctx1) =>
    let issuerAddress := orEmpty issuerResult
    match addUTXO ext ctx1 issuerAddress (some bigAmount) symbol with
    | (some _, ctx2) =>
      failWith response "Error occurred while generating UTXO for new token" 500 "TOK023" ctx2
    | (none, ctx2) =>
      match addUTXO ext ctx2 defaultWalletAddress (some (issueTokenFee * minusOne))
          ext.BUSY_COIN_SYMBOL with
      | (some _, ctx3) =>
        failWith response "Error occurred while burning fee for issue token" 500 "TOK024" ctx3
      | (none, ctx3) =>
        match addTotalSupplyUTXO ext ctx3 ext.BUSY_COIN_SYMBOL
            (some (minusOne * issueTokenFee)) with
        | (some _, ctx4) =>
          failWith response "Error occurred while burning issue token fee from total supply"
            400 "TOK025" ctx4
        | (none, ctx4) =>
          let balanceData : BalanceEvent :=
            { UserAddresses :=
                [{ Address := defaultWalletAddress, Token := ext.BUSY_COIN_SYMBOL },
                 { Address := defaultWalletAddress, Token := symbol }],
              TransactionFee := bigString issueTokenFee,
              TransactionId := response.TxID }
          match SetEvent ctx4 BALANCE_EVENT (.balance balanceData) with
          | (some _, ctx5) =>
            failWith response "Error while sending the balance event" 500 "BAL001" ctx5
          | (none, ctx5) =>
            (.returned (some { response with
                Message := "Token has been successfully issued",
                Success := true }, none), ctx5)

/-- The part of `IssueToken` from the token lookups to the supply record. -/
def issueTokenRecord (ext : Externals) (ctx : Stub) (response : Response)
    (tokenName symbol commonName defaultWalletAddress : String) (decimals : Nat)
    (metadata : TokenMetaData) (bigAmount issueTokenFee : Int) :
    Outcome (Option Response × Option Error) × Stub :=
  let tokenAddress := generateTokenAddress ext symbol
  match GetState ctx (.simple tokenAddress) with
  | (.error _, ctx1) =>
    failWith response "Error while getting state in blockchain" 500 "TOK014" ctx1
  | (.ok (some _), ctx1) =>
    failWith response "NFT/Game token with same name already exists" 409 "TOK015" ctx1
  | (.ok none, ctx1) =>
    match GetState ctx1 (.simple (ext.generateTokenStateAddress symbol)) with
    | (.error _, ctx2) =>
      failWith response "Error occurred while fetching token details" 500 "TOK016" ctx2
    | (.ok tokenAsBytes, ctx2) =>
      match GetState ctx2 (.simple "latestTokenId") with
      | (.error _, ctx3) =>
        failWith response "Error occurred while fetching latest token id" 500 "TOK017" ctx3
      | (.ok tokenIdAsBytes, ctx3) =>
        let latestTokenID := ext.Atoi (tokenIdAsBytes.getD "")
        match tokenAsBytes with
        | some _ => failWith response "Token with symbol already exists" 409 "TOK022" ctx3
        | none =>
          match ext.GetQueryResult ctx3 "token" "tokenName" tokenName with
          | (.error _, ctx4) =>
            failWith response "Error occurred while fetching query data" 500 "TOK018" ctx4
          | (.ok (_ :: _), ctx4) => failWith response "Token already exists" 409 "TOK019" ctx4
          | (.ok [], ctx4) =>
            match PutState ctx4 (.simple "latestTokenId")
                (bigString (wrapInt64 (latestTokenID + 1))) with
            | (_, ctx5) =>
              let token : Token :=
                { DocType := "token", ID := toUint64 (latestTokenID + 1),
                  TokenName := tokenName, TokenSymbol := symbol, Admin := defaultWalletAddress,
                  TotalSupply := bigString bigAmount, Decimals := decimals,
                  MetaData := metadata,
                  TokenAddress := ext.generateTokenStateAddress symbol }
              match PutState ctx5 (.simple (ext.generateTokenStateAddress symbol))
                  (ext.marshalToken token) with
              | (some _, ctx6) =>
                failWith response "Error occurred while updating token on blockchain" 500
                  "TOK020" ctx6
              | (none, ctx6) =>
                match addTotalSupplyUTXO ext ctx6 symbol (some bigAmount) with
                | (some _, ctx7) =>
                  failWith response "Error while creating total supply UTXO" 500 "TOK021" ctx7
                | (none, ctx7) =>
                  issueTokenSettle ext ctx7 { response with Data := some (.token token) }
                    commonName defaultWalletAddress symbol bigAmount issueTokenFee

/-- The part of `IssueToken` from the caller lookup to the fee check.  Comparing
with a nil balance or a nil fee panics. -/
def issueTokenFunds (ext : Externals) (ctx : Stub) (response : Response)
    (tokenName symbol : String) (decimals : Nat) (metadata : TokenMetaData) (bigAmount : Int) :
    Outcome (Option Response × Option Error) × Stub :=
  match ext.getCommonName ctx with
  | (commonNameResult, ctx1) =>
    let commonName := orEmpty commonNameResult
    match getTokenIssueFeeForTokenType ext ctx1 "BUSY20" with
    | ((tokenFeeString, _), ctx2) =>
      match ext.getDefaultWalletAddress ctx2 commonName with
      | (.error _, ctx3) =>
        failWith response "Error occurred while fetching user's default wallet" 500 "TOK011"
          ctx3
      | (.ok defaultWalletAddress, ctx3) =>
        match ext.getBalanceHelper ctx3 defaultWalletAddress ext.BUSY_COIN_SYMBOL with
        | (balance, ctx4) =>
          match ext.getBalanceHelperError ctx3 defaultWalletAddress ext.BUSY_COIN_SYMBOL with
          | some _ =>
            failWith response "Error occurred while fetching user's balance" 500 "TOK012" ctx4
          | none =>
            match balance, setString tokenFeeString with
            | some balance, some issueTokenFee =>
              if balance < issueTokenFee then
                failWith response "You do not have enough coins to issue token!" 402 "TOK013"
                  ctx4
              else
                issueTokenRecord ext ctx4 response tokenName symbol commonName
                  defaultWalletAddress decimals metadata bigAmount issueTokenFee
            | _, _ => (.panicked, ctx4)

/-- Source `Busy.IssueToken`: creates the BUSY20 token `symbol` with the initial
supply `amount`, credited to the caller's default wallet. -/
def IssueToken (ext : Externals) (ctx : Stub) (tokenName symbol amount : String)
    (decimals : Nat) (metadata : TokenMetaData) :
    Outcome (Option Response × Option Error) × Stub :=
  let response : Response := { TxID := ctx.txID, Success := false, Message := "", Data := none }
  match setString amount with
  | none => failWith response "Error encountered converting amount" 412 "TOK003" ctx
  | some bigAmount =>
    if bigAmount = bigZero then failWith response "Amount can not be zero" 412 "TOK004" ctx
    else
      match ext.CheckCredentials ctx DEFAULT_CREDS "true" with
      | (some _, ctx1) =>
        failWith response "Error occurred while validating credentials" 403 "ATU001" ctx1
      | (none, ctx1) =>
        if decimals > 18 then
          failWith response "Decimals have to be in range of 1-18" 412 "TOK005" ctx1
        else if metadata.Logo = "" || metadata.Type_ = "" then
          failWith response "Invalid Metadata" 423 "TOK006" ctx1
        else if ext.ToUpper symbol = ext.BUSY_COIN_SYMBOL
            || ext.ToUpper tokenName = ext.BUSY_COIN_SYMBOL then
          failWith response "Symbol/TokenName cannot be BUSY!" 412 "TOK007" ctx1
        else if !ext.MatchString expPattern tokenName
            || !ext.MatchString tokenLengthPattern tokenName then
          failWith response "Invalid token name" 412 "TOK008" ctx1
        else if !ext.MatchString expPattern symbol
            || !ext.MatchString symbolLengthPattern symbol then
          failWith response "Invalid token symbol" 412 "TOK009" ctx1
        else if metadata.Type_ ≠ "BUSY20" then
          failWith response "Only BUSY20 is supported" 412 "TOK010" ctx1
        else issueTokenFunds ext ctx1 response tokenName symbol decimals metadata bigAmount

/-- The tail of `Burn` after the owner checks: balance check, debit of the
wallet, fee, reduction of the supply, event.  Comparing with a nil balance or
amount panics, and so do `Set` and `Add` on a nil pointer. -/
def burnSettle (ext : Externals) (ctx : Stub) (response : Response)
    (address amount symbol defaultWalletAddress : String) :
    Outcome (Option Response × Option Error) × Stub :=
  match ext.getBalanceHelper ctx address symbol with
  | (balance, ctx1) =>
    match ext.getBalanceHelperError ctx address symbol with
    | some _ => failWith response "Error occurred while fetching balance" 500 "BURN008" ctx1
    | none =>
      match balance, setString amount with
      | some balance, some bigAmount =>
        if balance < bigAmount then
          failWith response "There is not enough balance in the wallet" 402 "BURN009" ctx1
        else
          let negetiveBigAmount := setString ("-" ++ amount)
          match addUTXO ext ctx1 address negetiveBigAmount symbol with
          | (some _, ctx2) =>
            failWith response "Error occurred while burning" 500 "BURN010" ctx2
          | (none, ctx2) =>
            match burnTxFee ext ctx2 defaultWalletAddress ext.BUSY_COIN_SYMBOL with
            | (some _, ctx3) => failWith response "Error while burning tx fee" 500 "BURN011" ctx3
            | (none, ctx3) =>
              match ext.getCurrentTxFee ctx3 with
              | (txFee, ctx4) =>
                match setString txFee with
                | none => (.panicked, ctx4)
                | some fee =>
                  let bigTxFee := ext.minusOne * fee
                  let supply : Outcome (Option Error) × Stub :=
                    if symbol = ext.BUSY_COIN_SYMBOL then
                      match negetiveBigAmount with
                      | none => (.panicked, ctx4)
                      | some negative =>
                        match addTotalSupplyUTXO ext ctx4 symbol (some (negative + bigTxFee)) with
                        | (err, ctx5) => (.returned err, ctx5)
                    else
                      match addTotalSupplyUTXO ext ctx4 ext.BUSY_COIN_SYMBOL (some bigTxFee) with
                      | (some err, ctx5) => (.returned (some err), ctx5)
                      | (none, ctx5) =>
                        match addTotalSupplyUTXO ext ctx5 symbol negetiveBigAmount with
                        | (err, ctx6) => (.returned err, ctx6)
                  match supply with
                  | (.panicked, ctx5) => (.panicked, ctx5)
                  | (.returned (some _), ctx5) =>
                    failWith response "Error occurred while updating total supply" 500 "BURN012"
                      ctx5
                  | (.returned none, ctx5) =>
                    let userAddresses : List UserAddress :=
                      [{ Address := defaultWalletAddress, Token := symbol }]
                    let userAddresses :=
                      if symbol ≠ ext.BUSY_COIN_SYMBOL then
                        userAddresses ++ [{ Address := address, Token := ext.BUSY_COIN_SYMBOL }]
                      else userAddresses
                    let balanceData : BalanceEvent :=
                      { UserAddresses := userAddresses, TransactionFee := txFee,
                        TransactionId := response.TxID }
                    match SetEvent ctx5 BALANCE_EVENT (.balance balanceData) with
                    | (some _, ctx6) =>
                      failWith response "Error while Sending the balance event" 500 "BAL001" ctx6
                    | (none, ctx6) =>
                      (.returned (some { response with
                          Message := "Burn has been successful",
                          Success := true }, none), ctx6)
      | _, _ => (.panicked, ctx1)

/-- Source `Busy.Burn`: takes `amount` of `symbol` from the wallet `address` and
from the total supply. -/
def Burn (ext : Externals) (ctx : Stub) (address amount symbol : String) :
    Outcome (Option Response × Option Error) × Stub :=
  let response : Response := { TxID := ctx.txID, Success := false, Message := "", Data := none }
  if amount = "0" then
    failWith response "It is not possible to burn zero amount" 400 "BURN001" ctx
  else
    match ext.ifTokenExists ctx symbol with
    | (.error _, ctx1) =>
      failWith response "Error while fetching token details" 500 "BURN002" ctx1
    | (.ok false, ctx1) => failWith response "Symbol does not exist" 404 "BURN003" ctx1
    | (.ok true, ctx1) =>
      match ext.getCommonName ctx1 with
      | (.error _, ctx2) => failWith response "Error fetching common name" 500 "BURN004" ctx2
      | (.ok commonName, ctx2) =>
        match ext.CheckCredentials ctx2 DEFAULT_CREDS "true" with
        | (err, ctx3) =>
          if commonName ≠ "busy_network" ∧ err.isSome then
            failWith response "Error occurred while validating credentials" 403 "ATU001" ctx3
          else
            match ext.getDefaultWalletAddress ctx3 commonName with
            | (.error _, ctx4) =>
              failWith response "Error fetching default wallet" 400 "BURN005" ctx4
            | (.ok defaultWalletAddress, ctx4) =>
              match GetState ctx4 (.simple (ext.generateTokenStateAddress symbol)) with
              | (tokenResult, ctx5) =>
                let tokenAsBytes : Option String :=
                  match tokenResult with
                  | .ok bytes => bytes
                  | .error _ => none
                if ext.unmarshalTokenAdmin tokenAsBytes ≠ address then
                  failWith response "not allowed to burn" 403 "BURN006" ctx5
                else if defaultWalletAddress ≠ address then
                  failWith response "Wallet address is not allowed to burn" 403 "BURN007" ctx5
                else burnSettle ext ctx5 response address amount symbol defaultWalletAddress

/-- Source `burnCoins` (`busyVoting.go`): lowers the total supply of `token` by
`coins` and writes the debit record of the account.  `Set` panics on the nil of
malformed `coins`. -/
def burnCoins (ext : Externals) (ctx : Stub) (address coins token : String) :
    Outcome (Option Error) × Stub :=
  let minusOne : Int := -1
  match setString coins with
  | none => (.panicked, ctx)
  | some bigTxFee =>
    match addTotalSupplyUTXO ext ctx token (some (minusOne * bigTxFee)) with
    | (some err, ctx1) => (.returned (some err), ctx1)
    | (none, ctx1) =>
      let utxo : UTXO :=
        { DocType := "utxo", Address := address, Amount := bigString (bigTxFee * minusOne),
          Token := ext.BUSY_COIN_SYMBOL }
      match PutState ctx1
          (.simple ("voting~" ++ ctx1.txID ++ "~" ++ address ++ "~" ++ ext.BUSY_COIN_SYMBOL))
          (ext.marshalUTXO utxo) with
      | (some err, ctx2) => (.returned (some err), ctx2)
      | (none, ctx2) => (.returned none, ctx2)

/-! ## Vesting (`busy.go`) -/

/-- Models `(*big.Int).Div`: Euclidean division, a panic for the divisor zero. -/
def bigDiv (x y : Int) : Outcome Int := if y = 0 then .panicked else .returned (x / y)

/-- Key of the vesting record of a wallet. -/
def vestingKey (walletAddress : String) : Key := .simple ("vesting~" ++ walletAddress)

/-- The tail that both branches of `AttemptUnlock` repeat: store the record,
burn the fee, emit the event. -/
def attemptUnlockStore (ext : Externals) (ctx : Stub) (response : Response)
    (walletAddress : String) (lockedToken : LockedTokens) :
    Outcome (Option Response × Option Error) × Stub :=
  match PutState ctx (vestingKey walletAddress) (ext.marshalLockedTokens lockedToken) with
  | (some _, ctx1) =>
    failWith response "Error occurred while updating vesting schedule" 500 "AULK008" ctx1
  | (none, ctx1) =>
    match burnTxFeeWithTotalSupply ext ctx1 walletAddress ext.BUSY_COIN_SYMBOL with
    | (some _, ctx2) => failWith response "Error while burning transfer fee" 500 "AULK009" ctx2
    | (none, ctx2) =>
      match ext.getCurrentTxFee ctx2 with
      | (txFee, ctx3) =>
        let balanceData : BalanceEvent :=
          { UserAddresses := [{ Address := walletAddress, Token := ext.BUSY_COIN_SYMBOL }],
            TransactionFee := txFee, TransactionId := response.TxID }
        match SetEvent ctx3 BALANCE_EVENT (.balance balanceData) with
        | (some _, ctx4) =>
          failWith response "Error while sending the balance event" 500 "BAL001" ctx4
        | (none, ctx4) =>
          (.returned (some { response with
              Message := "All tokens have been already unlocked",
              Success := true }, none), ctx4)

/-- The branch of `AttemptUnlock` for a release time that has passed: release
what is left.  `Sub` panics on a nil pointer. -/
def attemptUnlockFull (ext : Externals) (ctx : Stub) (response : Response)
    (walletAddress : String) (lockedToken : LockedTokens)
    (bigTotalAmount bigReleasedAmount : Option Int) :
    Outcome (Option Response × Option Error) × Stub :=
  if lockedToken.TotalAmount = lockedToken.ReleasedAmount then
    failWith response "There are no funds to claim from the vesting" 400 "AULK006" ctx
  else
    match bigTotalAmount, bigReleasedAmount with
    | some total, some released =>
      let amountToReleaseNow := total - released
      let lockedToken1 := { lockedToken with ReleasedAmount := lockedToken.TotalAmount }
      match addUTXO ext ctx walletAddress (some amountToReleaseNow) ext.BUSY_COIN_SYMBOL with
      | (some _, ctx1) => failWith response "Error occurred while claiming" 500 "AULK007" ctx1
      | (none, ctx1) => attemptUnlockStore ext ctx1 response walletAddress lockedToken1
    | _, _ => (.panicked, ctx)

/-- The branch of `AttemptUnlock` between start and release.  The product and
the quotient are computed in place in `bigTotalAmount`, so `releasableAmount`
and `bigTotalAmount` are one integer and the second test compares it with
itself; the result of `addUTXO` is dropped and the test after it reads the
`err` of the earlier `GetState`, which is nil here.  `div` is the division. -/
def attemptUnlockPartial (div : Int → Int → Outcome Int) (ext : Externals) (ctx : Stub)
    (response : Response) (walletAddress : String) (lockedToken : LockedTokens)
    (bigTotalAmount bigReleasedAmount : Option Int) (now : Nat) :
    Outcome (Option Response × Option Error) × Stub :=
  match bigTotalAmount with
  | none => (.panicked, ctx)
  | some total =>
    match div (((now : Int) - lockedToken.StartedAt) * total)
        ((lockedToken.ReleaseAt : Int) - lockedToken.StartedAt) with
    | .panicked => (.panicked, ctx)
    | .returned releasable =>
      if bigString releasable = "0" then
        failWith response "There is nothing to release at this time" 425 "AULK010" ctx
      else if releasable > releasable then
        failWith response "There is nothing to release at this time" 425 "AULK010" ctx
      else
        match bigReleasedAmount with
        | none => (.panicked, ctx)
        | some released =>
          let releasableAmount := releasable - released
          match addUTXO ext ctx walletAddress (some releasableAmount) ext.BUSY_COIN_SYMBOL with
          | (_, ctx1) =>
            let bigReleasedAmount1 := released + releasableAmount
            let lockedToken1 :=
              { lockedToken with ReleasedAmount := bigString bigReleasedAmount1 }
            attemptUnlockStore ext ctx1 response walletAddress lockedToken1

/-- The part of `AttemptUnlock` from the read of the vesting record on.  `now`
is `none` for the nil time stamp, whose field is read after the record. -/
def attemptUnlockRecord (div : Int → Int → Outcome Int) (ext : Externals) (ctx : Stub)
    (response : Response) (walletAddress : String) (now : Option Int) :
    Outcome (Option Response × Option Error) × Stub :=
  match GetState ctx (vestingKey walletAddress) with
  | (.error _, ctx1) =>
    failWith response "Error occurred while getting vesting details" 500 "AULK003" ctx1
  | (.ok none, ctx1) => failWith response "Vesting entry does not exist" 404 "AULK004" ctx1
  | (.ok (some lockedTokenAsBytes), ctx1) =>
    let lockedToken := ext.unmarshalLockedTokens lockedTokenAsBytes
    let bigTotalAmount := setString lockedToken.TotalAmount
    let bigReleasedAmount := setString lockedToken.ReleasedAmount
    match now with
    | none => (.panicked, ctx1)
    | some seconds =>
      if lockedToken.StartedAt > toUint64 seconds then
        failWith response "Vesting has not started yet" 425 "AULK005" ctx1
      else if lockedToken.ReleaseAt ≤ toUint64 seconds then
        attemptUnlockFull ext ctx1 response walletAddress lockedToken bigTotalAmount
          bigReleasedAmount
      else
        attemptUnlockPartial div ext ctx1 response walletAddress lockedToken bigTotalAmount
          bigReleasedAmount (toUint64 seconds)

/-- Source `Busy.AttemptUnlock`, with the division of the partial release as a
parameter.  `bigFee.Cmp(balance)` on two nil pointers compares a pointer with
itself and gives 0, so the call goes on; with one of them nil it panics. -/
def AttemptUnlockWith (div : Int → Int → Outcome Int) (ext : Externals) (ctx : Stub) :
    Outcome (Option Response × Option Error) × Stub :=
  let response : Response := { TxID := ctx.txID, Success := false, Message := "", Data := none }
  match ext.getCommonName ctx with
  | (commonNameResult, ctx1) =>
    let commonName := orEmpty commonNameResult
    let now := ext.GetTxTimestamp ctx1
    match ext.getDefaultWalletAddress ctx1 commonName with
    | (.error _, ctx2) =>
      failWith response "Error occurred while fetching wallet" 500 "AULK001" ctx2
    | (.ok walletAddress, ctx2) =>
      match ext.CheckCredentials ctx2 DEFAULT_CREDS "true" with
      | (some _, ctx3) =>
        failWith response "Error occurred while validating credentials" 403 "ATU001" ctx3
      | (none, ctx3) =>
        match ext.getCurrentTxFee ctx3 with
        | (fee, ctx4) =>
          match ext.getBalanceHelper ctx4 walletAddress ext.BUSY_COIN_SYMBOL with
          | (balance, ctx5) =>
            match setString fee, balance with
            | some bigFee, some balance =>
              if bigFee > balance then
                failWith response "There is not enough balance for tx fee in the wallet" 402
                  "AULK002" ctx5
              else attemptUnlockRecord div ext ctx5 response walletAddress now
            | none, none => attemptUnlockRecord div ext ctx5 response walletAddress now
            | _, _ => (.panicked, ctx5)

/-- Source `Busy.AttemptUnlock`: releases to the caller's wallet what its vesting
record has made available by the time of the transaction. -/
def AttemptUnlock (ext : Externals) (ctx : Stub) :
    Outcome (Option Response × Option Error) × Stub :=
  AttemptUnlockWith bigDiv ext ctx

/-! ## Single NFTs (`busyNFT.go`) -/

/-- Key of the record of an NFT. -/
def nftKey (nftName : String) : Key := .simple ("busy-nft-" ++ nftName)

/-- The tail of `BusyNFT.Transfer` after the owner check: fee check, fee, new
owner, event. -/
def nftTransferSettle (ext : Externals) (ctx : Stub) (response : Response)
    (sender recipient nftName senderDefaultAddress : String) (busyNft : BusyNft) :
    Outcome (Option Response × Option Error) × Stub :=
  match ext.getBalanceHelper ctx senderDefaultAddress ext.BUSY_COIN_SYMBOL with
  | (balance, ctx1) =>
    match ext.getCurrentTxFee ctx1 with
    | (txFee, ctx2) =>
      match balance, setString txFee with
      | some balance, some bigTxFee =>
        if balance < bigTxFee then
          failWith response "User does not have the enough balance to transfer NFT" 402
            "STRA011" ctx2
        else
          match txFeeHelper ext ctx2 senderDefaultAddress ext.BUSY_COIN_SYMBOL
              (bigString bigTxFee) "busynftTransfer" with
          | (.panicked, ctx3) => (.panicked, ctx3)
          | (.returned (some _), ctx3) =>
            failWith response "Error while burning transaction fee" 500 "STRA012" ctx3
          | (.returned none, ctx3) =>
            let busyNft1 := { busyNft with Account := recipient }
            match PutState ctx3 (nftKey nftName) (ext.marshalNft busyNft1) with
            | (some _, ctx4) =>
              failWith response "Error while updating state in blockchain" 500 "STRA013" ctx4
            | (none, ctx4) =>
              let balanceData : BalanceEvent :=
                { UserAddresses := [{ Address := sender, Token := ext.BUSY_COIN_SYMBOL }],
                  TransactionFee := bigString bigTxFee, TransactionId := response.TxID }
              match SetEvent ctx4 BALANCE_EVENT (.balance balanceData) with
              | (some _, ctx5) =>
                failWith response "Error while sending the balance event" 500 "BAL001" ctx5
              | (none, ctx5) =>
                (.returned (some { response with
                    Data := some (.nft busyNft1),
                    Message := "Request to transfer the NFT has been successfully accepted",
                    Success := true }, none), ctx5)
      | _, _ => (.panicked, ctx2)

/-- Source `BusyNFT.Transfer`: hands the NFT `nftName` from `sender` to
`recipient`. -/
def BusyNFT.Transfer (ext : Externals) (ctx : Stub) (sender recipient nftName : String) :
    Outcome (Option Response × Option Error) × Stub :=
  let response : Response := { TxID := ctx.txID, Success := false, Message := "", Data := none }
  match GetState ctx (nftKey nftName) with
  | (.error _, ctx1) =>
    failWith response "Error while getting state in blockchain" 500 "STRA001" ctx1
  | (.ok none, ctx1) => failWith response "NFT does not exists" 404 "STRA002" ctx1
  | (.ok (some busyNftAsBytes), ctx1) =>
    match ext.CheckCredentials ctx1 DEFAULT_CREDS "true" with
    | (some _, ctx2) =>
      failWith response "Error occurred while Validating default credentials" 403 "ATU001" ctx2
    | (none, ctx2) =>
      if sender = recipient then (.returned (none, some (generateError 409 "STRA003")), ctx2)
      else
        match ext.getCommonName ctx2 with
        | (.error _, ctx3) => failWith response "Failed to get Common name" 500 "STRA004" ctx3
        | (.ok commonName, ctx3) =>
          match ext.getDefaultWalletAddress ctx3 commonName with
          | (.error _, ctx4) =>
            failWith response "Error occurred while fetching wallet" 500 "STRA005" ctx4
          | (.ok senderDefaultAddress, ctx4) =>
            if sender ≠ senderDefaultAddress then
              failWith response "Default walletId do not match" 409 "STRA006" ctx4
            else
              match GetState ctx4 (.simple recipient) with
              | (.error _, ctx5) =>
                failWith response "Error occurred while fetching wallet" 500 "STRA007" ctx5
              | (.ok none, ctx5) => failWith response "Wallet does not exist" 404 "STRA008" ctx5
              | (.ok (some _), ctx5) =>
                match ext.unmarshalNft busyNftAsBytes with
                | .error _ =>
                  failWith response "Error while ummarshalling the data" 500 "STRA009" ctx5
                | .ok busyNft =>
                  if busyNft.Account ≠ senderDefaultAddress then
                    failWith response "is not owner" 403 "STRA010" ctx5
                  else
                    nftTransferSettle ext ctx5 response sender recipient nftName
                      senderDefaultAddress busyNft

/-- Source `BusyNFT.GetCurrentOwner`. -/
def BusyNFT.GetCurrentOwner (ext : Externals) (ctx : Stub) (nftName : String) :
    Outcome (Option Response × Option Error) × Stub :=
  let response : Response := { TxID := ctx.txID, Success := false, Message := "", Data := none }
  match GetState ctx (nftKey nftName) with
  | (.error _, ctx1) =>
    failWith response "Error while getting state in blockchain" 500 "COWN001" ctx1
  | (.ok none, ctx1) => failWith response "NFT does not exist" 404 "COWN002" ctx1
  | (.ok (some busyNftAsBytes), ctx1) =>
    match ext.unmarshalNft busyNftAsBytes with
    | .error _ => failWith response "Error while ummarshalling the data" 500 "COWN003" ctx1
    | .ok busyNft =>
      (.returned (some { response with
          Data := some (.text busyNft.Account),
          Message := "Owner Successfully fetched",
          Success := true }, none), ctx1)

/-! ## Metadata of a token (`busyTokens.go`) -/

/-- The last step of `UpdateTokenMetaData`, the same after both branches: emit
the event and report success; the response carries the new record already. -/
def updateTokenMetaDataEvent (ext : Externals) (ctx : Stub) (response : Response)
    (defaultWalletAddress : String) (bigTxFee : Int) :
    Outcome (Option Response × Option Error) × Stub :=
  let balanceData : BalanceEvent :=
    { UserAddresses := [{ Address := defaultWalletAddress, Token := ext.BUSY_COIN_SYMBOL }],
      TransactionFee := bigString bigTxFee, TransactionId := response.TxID }
  match SetEvent ctx BALANCE_EVENT (.balance balanceData) with
  | (some _, ctx1) => failWith response "Error while Sending the Balance event" 500 "BAL001" ctx1
  | (none, ctx1) =>
    (.returned (some { response with
        Message := "The token's metadata has been successfully updated",
        Success := true }, none), ctx1)

/-- The part of `UpdateTokenMetaData` after the fee: decode the record, check
it, store it with the new metadata. -/
def updateTokenMetaDataStore (ext : Externals) (ctx : Stub) (response : Response)
    (tokenType tokenAddress busyTokensInfoAsBytes defaultWalletAddress : String)
    (metadata : TokenMetaData) (bigTxFee : Int) :
    Outcome (Option Response × Option Error) × Stub :=
  if tokenType = "BUSY20" then
    match ext.unmarshalToken busyTokensInfoAsBytes with
    | .error _ => failWith response "Error while Marshalling the data" 500 "UTMD009" ctx
    | .ok busytwentyTokensInfo =>
      if busytwentyTokensInfo.MetaData.Type_ ≠ tokenType
          ∨ busytwentyTokensInfo.MetaData.Type_ ≠ metadata.Type_ then
        failWith response "Token Type cannot be updated" 412 "UTMD010" ctx
      else
        let busytwentyTokensInfo1 := { busytwentyTokensInfo with MetaData := metadata }
        match PutState ctx (.simple tokenAddress) (ext.marshalToken busytwentyTokensInfo1) with
        | (some _, ctx1) =>
          failWith response "Error while updating state in blockchain" 500 "UTMD011" ctx1
        | (none, ctx1) =>
          updateTokenMetaDataEvent ext ctx1
            { response with Data := some (.token busytwentyTokensInfo1) }
            defaultWalletAddress bigTxFee
  else
    match ext.unmarshalTokensInfo busyTokensInfoAsBytes with
    | .error _ => failWith response "Error while Marshalling the data" 500 "UTMD009" ctx
    | .ok busyTokensInfo =>
      if defaultWalletAddress ≠ busyTokensInfo.Account then
        failWith response "The account is not the owner" 403 "UTMD012" ctx
      else if busyTokensInfo.MetaData.Type_ ≠ metadata.Type_
          ∨ busyTokensInfo.MetaData.Type_ ≠ tokenType then
        failWith response "Token Type cannot be updated" 412 "UTMD010" ctx
      else
        let busyTokensInfo1 := { busyTokensInfo with MetaData := metadata }
        match PutState ctx (.simple tokenAddress) (ext.marshalTokensInfo busyTokensInfo1) with
        | (some _, ctx1) =>
          failWith response "Error while updating state in blockchain" 500 "UTMD011" ctx1
        | (none, ctx1) =>
          updateTokenMetaDataEvent ext ctx1
            { response with Data := some (.tokensInfo busyTokensInfo1) }
            defaultWalletAddress bigTxFee

/-- Source `BusyTokens.UpdateTokenMetaData`: replaces the metadata of the token
`symbol` of type `tokenType`. -/
def UpdateTokenMetaData (ext : Externals) (ctx : Stub) (symbol : String)
    (metadata : TokenMetaData) (tokenType : String) :
    Outcome (Option Response × Option Error) × Stub :=
  let response : Response := { TxID := ctx.txID, Success := false, Message := "", Data := none }
  if tokenType ≠ "BUSY20" ∧ tokenType ≠ "NFT" ∧ tokenType ≠ "GAME" then
    failWith response "tokenType not supported" 412 "UTMD001" ctx
  else
    match ext.CheckCredentials ctx DEFAULT_CREDS "true" with
    | (some _, ctx1) =>
      failWith response "Error occurred while validating credentials" 403 "ATU001" ctx1
    | (none, ctx1) =>
      let tokenAddress :=
        if tokenType = "BUSY20" then ext.generateTokenStateAddress symbol
        else generateTokenAddress ext symbol
      match GetState ctx1 (.simple tokenAddress) with
      | (.error _, ctx2) =>
        failWith response "Error while getting state in blockchain" 500 "UTMD002" ctx2
      | (.ok none, ctx2) => failWith response "Token does not exist" 404 "UTMD003" ctx2
      | (.ok (some busyTokensInfoAsBytes), ctx2) =>
        if metadata.Logo = "" then failWith response "Logo cannot be empty" 412 "UTMD004" ctx2
        else
          match ext.getCommonName ctx2 with
          | (.error _, ctx3) => failWith response "failed to get Common name" 500 "UTMD005" ctx3
          | (.ok commonName, ctx3) =>
            match ext.getDefaultWalletAddress ctx3 commonName with
            | (.error _, ctx4) =>
              failWith response "Error occurred while fetching wallet" 500 "UTMD006" ctx4
            | (.ok defaultWalletAddress, ctx4) =>
              match ext.getBalanceHelper ctx4 defaultWalletAddress ext.BUSY_COIN_SYMBOL with
              | (balance, ctx5) =>
                match ext.getCurrentTxFee ctx5 with
                | (txFee, ctx6) =>
                  match balance, setString txFee with
                  | some balance, some bigTxFee =>
                    if balance < bigTxFee then
                      failWith response
                        "User does not have the enough balance to Update Metadata of NFT" 412
                        "UTMD007" ctx6
                    else
                      match txFeeHelper ext ctx6 defaultWalletAddress ext.BUSY_COIN_SYMBOL
                          (bigString bigTxFee) "busynftTransfer" with
                      | (.panicked, ctx7) => (.panicked, ctx7)
                      | (.returned (some _), ctx7) =>
                        failWith response "Error while burning Transaction Fee" 500 "UTMD008"
                          ctx7
                      | (.returned none, ctx7) =>
                        updateTokenMetaDataStore ext ctx7 response tokenType tokenAddress
                          busyTokensInfoAsBytes defaultWalletAddress metadata bigTxFee
                  | _, _ => (.panicked, ctx6)

/-! ## Approvals of operators (`busyTokens.go`) -/

/-- The part of `SetApprovalForAll` after the fee: store the flag under the key
of `(account, operator)`, emit the event, fill the response. -/
def setApprovalStore (ext : Externals) (ctx : Stub) (response : Response)
    (account operator : String) (approved : Bool) (bigTxFee : Int) :
    Outcome (Option Response × Option Error) × Stub :=
  match CreateCompositeKey approvalPrefix [account, operator] with
  | .error _ => failWith response "failed to create the composite key for prefix" 500 "SAPL008" ctx
  | .ok approvalKey =>
    match ext.marshalBool approved with
    | .error _ => failWith response "failed to encode approval of operator" 500 "SAPL009" ctx
    | .ok approvalJSON =>
      match PutState ctx approvalKey approvalJSON with
      | (some _, ctx1) =>
        failWith response "Error while updating state in blockchain" 500 "SAPL010" ctx1
      | (none, ctx1) =>
        let balanceData : BalanceEvent :=
          { UserAddresses := [{ Address := account, Token := ext.BUSY_COIN_SYMBOL }],
            TransactionFee := bigString bigTxFee, TransactionId := response.TxID }
        match SetEvent ctx1 BALANCE_EVENT (.balance balanceData) with
        | (some _, ctx2) =>
          failWith response "Error while Sending the Balance event" 500 "BAL001" ctx2
        | (none, ctx2) =>
          (.returned (some { response with
              Data := some (.approvalForAll ⟨account, operator, approved⟩),
              Message := "Request to set approval has been successfully accepted",
              Success := true }, none), ctx2)

/-- Source `BusyTokens.SetApprovalForAll`: the caller allows or forbids
`operator` to move the caller's tokens. -/
def SetApprovalForAll (ext : Externals) (ctx : Stub) (operator : String) (approved : Bool) :
    Outcome (Option Response × Option Error) × Stub :=
  let response : Response := { TxID := ctx.txID, Success := false, Message := "", Data := none }
  match ext.getCommonName ctx with
  | (.error _, ctx1) => failWith response "failed to get Common name" 500 "SAPL001" ctx1
  | (.ok commonName, ctx1) =>
    match ext.getDefaultWalletAddress ctx1 commonName with
    | (.error _, ctx2) =>
      failWith response "Error occurred while fetching wallet" 500 "SAPL002" ctx2
    | (.ok account, ctx2) =>
      match ext.CheckCredentials ctx2 DEFAULT_CREDS "true" with
      | (some _, ctx3) =>
        failWith response "Error occurred while validating credentials" 403 "ATU001" ctx3
      | (none, ctx3) =>
        if account = operator then (.returned (none, some (generateError 409 "SAPL003")), ctx3)
        else
          match GetState ctx3 (.simple operator) with
          | (.error _, ctx4) =>
            failWith response "Error occurred while fetching operator wallet" 500 "SAPL004" ctx4
          | (.ok none, ctx4) => failWith response "Operator does not exist" 404 "SAPL005" ctx4
          | (.ok (some _), ctx4) =>
            match ext.getBalanceHelper ctx4 account ext.BUSY_COIN_SYMBOL with
            | (balance, ctx5) =>
              match ext.getCurrentTxFee ctx5 with
              | (txFee, ctx6) =>
                match balance, setString txFee with
                | some balance, some bigTxFee =>
                  if balance < bigTxFee then
                    failWith response
                      "You do not have enough balance to set the approval for NFT/GAME tokens"
                      402 "SAPL006" ctx6
                  else
                    match txFeeHelper ext ctx6 account ext.BUSY_COIN_SYMBOL
                        (bigString bigTxFee) "busynftTransfer" with
                    | (.panicked, ctx7) => (.panicked, ctx7)
                    | (.returned (some _), ctx7) =>
                      failWith response "Error while burning Transaction Fee" 500 "SAPL007" ctx7
                    | (.returned none, ctx7) =>
                      setApprovalStore ext ctx7 response account operator approved bigTxFee
                | _, _ => (.panicked, ctx6)

/-! ## Measures on the world state used to state the properties -/

/-- Amount held by a stored text; text that is no decimal integer counts as zero
(a well-formed store holds none under the balance object type). -/
def amountOf (value : String) : Int := (setString value).getD 0

/-- Sum of the amounts of all records whose key satisfies `q`. -/
def total (st : WorldState) (q : Key → Bool) : Int :=
  ((st.filter (fun kv => q kv.1)).map (fun kv => amountOf kv.2)).sum

/-- Sum of the amounts of all records under the `(account, symbol)` prefix. -/
def balance (st : WorldState) (account symbol : String) : Int :=
  total st (underPrefix balancePrefix [account, symbol])

/-- Key of the balance record of `account` for `symbol` credited by `contributor`. -/
def balanceKey (account symbol contributor : String) : Key :=
  .composite balancePrefix [account, symbol, contributor]

/-- Whether the third part of a composite key is `sender`: the test by which
`removeBalance` recognises the sender's self-keyed record. -/
def selfKeyed (sender : String) : Key → Bool
  | .composite _ attributes => attributes.get? 2 == some sender
  | .simple _ => false

/-- Amount stored under a key, zero when the key is absent. -/
def amountAt (st : WorldState) (k : Key) : Int :=
  ((lookup st k).map amountOf).getD 0

/-- Sum of the amounts listed for `symbol` in a call of `removeBalance`. -/
def listedAmount : List String → List Int → String → Int
  | s :: symbols, a :: amounts, symbol =>
    (if s = symbol then a else 0) + listedAmount symbols amounts symbol
  | _, _, _ => 0

/-- Keys of the scanned records that `removeBalance` deletes on reading them:
those whose third part is not the sender. -/
def deletedKeys (sender : String) (it : StateQueryIterator) : List Key :=
  (it.filter (fun kv => !selfKeyed sender kv.1)).map Prod.fst

/-- Sum of the amounts of a list of records. -/
def sumAmounts (it : List (Key × String)) : Int :=
  (it.map (fun kv => amountOf kv.2)).sum

/-- Records under the `(account, symbol)` prefix, in scan order. -/
def recordsOf (st : WorldState) (account symbol : String) : List (Key × String) :=
  st.filter (fun kv => underPrefix balancePrefix [account, symbol] kv.1)

/-- Whether a record fits the data model: under the balance object type the key
has the three parts `(account, tokenId, sender)` and the value is decimal text
of an integer. -/
def wellFormedRecord (kv : Key × String) : Bool :=
  match kv.1 with
  | .composite objectType attributes =>
    if objectType = balancePrefix then attributes.length == 3 && (setString kv.2).isSome
    else true
  | .simple _ => true

/-- A world state is well formed when no key occurs twice and every record fits
the data model. -/
def WellFormed (st : WorldState) : Prop :=
  (st.map Prod.fst).Nodup ∧ ∀ kv ∈ st, wellFormedRecord kv = true

instance (st : WorldState) : Decidable (WellFormed st) :=
  inferInstanceAs (Decidable (_ ∧ _))

/-- No stub call of the remaining invocation fails. -/
def NoFault (ctx : Stub) : Prop := ∀ f ∈ ctx.faults, f = false

instance (ctx : Stub) : Decidable (NoFault ctx) :=
  inferInstanceAs (Decidable (∀ f ∈ ctx.faults, f = false))

/-- What a completed scan guarantees, relative to the state it started from. -/
structure ScanSpec (sender token : String) (vars : ScanState) (ctx : Stub)
    (vars1 : ScanState) (ctx1 : Stub) : Prop where
  wf : WellFormed ctx1.state
  selfKey_set : vars1.selfRecipientKeyNeedsToBeRemoved = true →
    vars1.selfRecipientKey = balanceKey sender token sender
  selfKey_unset : vars1.selfRecipientKeyNeedsToBeRemoved = false →
    vars1.selfRecipientKey = vars.selfRecipientKey
  flag_mono : vars.selfRecipientKeyNeedsToBeRemoved = true →
    vars1.selfRecipientKeyNeedsToBeRemoved = true
  lookup_self : lookup ctx1.state (balanceKey sender token sender) =
    lookup ctx.state (balanceKey sender token sender)
  conserve :
    total ctx1.state (underPrefix balancePrefix [sender, token])
        - (if vars1.selfRecipientKeyNeedsToBeRemoved then
            amountAt ctx.state (balanceKey sender token sender) else 0)
        + vars1.partialBalance =
      total ctx.state (underPrefix balancePrefix [sender, token])
        - (if vars.selfRecipientKeyNeedsToBeRemoved then
            amountAt ctx.state (balanceKey sender token sender) else 0)
        + vars.partialBalance
  frame : ∀ q : Key → Bool,
    (∀ k, underPrefix balancePrefix [sender, token] k = true → q k = false) →
    total ctx1.state q = total ctx.state q
  noFault : NoFault ctx → NoFault ctx1

/-- What the withdrawal of one token guarantees when it returns no error. -/
structure TokenSpec (sender token : String) (needed : Int) (ctx ctx1 : Stub) : Prop where
  wf : WellFormed ctx1.state
  debit : balance ctx1.state sender token = balance ctx.state sender token - needed
  frame : ∀ a t, (a, t) ≠ (sender, token) → balance ctx1.state a t = balance ctx.state a t
  noFault : NoFault ctx → NoFault ctx1

/-- Whether a key holds a balance record. -/
def isBalanceKey : Key → Bool
  | .composite objectType _ => decide (objectType = balancePrefix)
  | .simple _ => false

/-- The balance records of a store, in scan order. -/
def balanceRecords (st : WorldState) : WorldState := st.filter (fun kv => isBalanceKey kv.1)

/-- Relation between two contexts of one invocation: the balance records and
the token records are the same, and a well-formed store stays well formed. -/
structure SameRecords (ext : Externals) (ctx ctx1 : Stub) : Prop where
  balances : balanceRecords ctx1.state = balanceRecords ctx.state
  tokens : ∀ symbol, lookup ctx1.state (.simple (generateTokenAddress ext symbol)) =
    lookup ctx.state (.simple (generateTokenAddress ext symbol))
  wellFormed : WellFormed ctx.state → WellFormed ctx1.state

/-- The same, with the list of recorded calls unchanged as well. -/
structure Untouched (ext : Externals) (ctx ctx1 : Stub)
    extends SameRecords ext ctx ctx1 : Prop where
  calls : ctx1.calls = ctx.calls

/-- Frame condition on the functions that the given sources do not define:
whatever they read or write, they leave the balance records and the token
records of `busyTokens.go` alone and do not edit the list of recorded calls. -/
structure Externals.Framed (ext : Externals) : Prop where
  CheckCredentials : ∀ ctx key value, Untouched ext ctx (ext.CheckCredentials ctx key value).2
  getCommonName : ∀ ctx, Untouched ext ctx (ext.getCommonName ctx).2
  getDefaultWalletAddress :
    ∀ ctx commonName, Untouched ext ctx (ext.getDefaultWalletAddress ctx commonName).2
  getBalanceHelper : ∀ ctx address token, Untouched ext ctx (ext.getBalanceHelper ctx address token).2
  getCurrentTxFee : ∀ ctx, Untouched ext ctx (ext.getCurrentTxFee ctx).2
  addTotalSupplyUTXO :
    ∀ ctx token amount, Untouched ext ctx (ext.addTotalSupplyUTXO ctx token amount).2
  ifTokenExists : ∀ ctx symbol, Untouched ext ctx (ext.ifTokenExists ctx symbol).2
  addUTXO : ∀ ctx address amount token, Untouched ext ctx (ext.addUTXO ctx address amount token).2

/-- Every balance record of the store holds a non-negative amount. -/
def NonNegative (st : WorldState) : Prop :=
  ∀ kv ∈ st, isBalanceKey kv.1 = true → 0 ≤ amountOf kv.2

instance (st : WorldState) : Decidable (NonNegative st) :=
  inferInstanceAs (Decidable (∀ kv ∈ st, isBalanceKey kv.1 = true → 0 ≤ amountOf kv.2))

/-- Key of the approval record of `operator` for `account`. -/
def approvalKey (account operator : String) : Key := .composite approvalPrefix [account, operator]

/-- The approval that the store holds for `(account, operator)`: a record is
stored and decodes to `true`. -/
def storedApproval (ext : Externals) (st : WorldState) (account operator : String) : Bool :=
  match lookup st (approvalKey account operator) with
  | none => false
  | some approvalBytes =>
    match ext.unmarshalBool approvalBytes with
    | .ok approved => approved
    | .error _ => false

/-- Condition on the identity functions that the given sources do not define:
they read and do not write, so the store after the call is the store before. -/
structure Externals.ReadOnly (ext : Externals) : Prop where
  CheckCredentials : ∀ ctx key value, (ext.CheckCredentials ctx key value).2.state = ctx.state
  getCommonName : ∀ ctx, (ext.getCommonName ctx).2.state = ctx.state
  getDefaultWalletAddress :
    ∀ ctx commonName, (ext.getDefaultWalletAddress ctx commonName).2.state = ctx.state

/-- Relation between two contexts of one invocation: the vesting records are
the same and so is the list of recorded calls. -/
structure SameVesting (ctx ctx1 : Stub) : Prop where
  vesting : ∀ walletAddress,
    lookup ctx1.state (vestingKey walletAddress) = lookup ctx.state (vestingKey walletAddress)
  calls : ctx1.calls = ctx.calls

/-- Frame condition for `AttemptUnlock` on the functions that the given sources
do not define: they leave the vesting records alone and do not edit the list
of recorded calls. -/
structure Externals.KeepsVesting (ext : Externals) : Prop where
  getCommonName : ∀ ctx, SameVesting ctx (ext.getCommonName ctx).2
  getDefaultWalletAddress :
    ∀ ctx commonName, SameVesting ctx (ext.getDefaultWalletAddress ctx commonName).2
  CheckCredentials : ∀ ctx key value, SameVesting ctx (ext.CheckCredentials ctx key value).2
  getCurrentTxFee : ∀ ctx, SameVesting ctx (ext.getCurrentTxFee ctx).2
  getBalanceHelper : ∀ ctx address token, SameVesting ctx (ext.getBalanceHelper ctx address token).2
  addUTXO : ∀ ctx address amount token, SameVesting ctx (ext.addUTXO ctx address amount token).2
  burnTxFeeWithTotalSupply :
    ∀ ctx address token, SameVesting ctx (ext.burnTxFeeWithTotalSupply ctx address token).2

/-- The released amount that the specification assigns to a vesting record
with total `total`, start `startedAt` and release time `releaseAt` at the time
`now`: the total from the release time on, before it the floor of
`total * (now - startedAt) / (releaseAt - startedAt)`. -/
def vestedAmount (total : Int) (startedAt releaseAt now : Nat) : Int :=
  if releaseAt ≤ now then total
  else ⌊((total * ((now : Int) - startedAt) : Int) : ℚ) / (((releaseAt - startedAt : Nat)) : ℚ)⌋

/-! ## Sample data for instantiating the theorems -/

/-- A small store, in the key order of the ledger: alice holds 5 GEM and
4 + 3 + 10 GOLD (credited by herself, by bob and by carol); bob holds 1 GOLD. -/
def sampleState : WorldState :=
  [(balanceKey "alice" "GEM" "bob", "5"), (balanceKey "alice" "GOLD" "alice", "4"),
   (balanceKey "alice" "GOLD" "bob", "3"), (balanceKey "alice" "GOLD" "carol", "10"),
   (balanceKey "bob" "GOLD" "alice", "1")]

/-- A transaction context over `sampleState` with no store fault planned. -/
def sampleStub : Stub := ⟨sampleState, [], "tx1", none, []⟩

/-- The same store with a fault planned for the second iterator step of a scan. -/
def faultyStub : Stub := ⟨sampleState, [false, false, true], "tx2", none, []⟩

/-- The sample store read in the opposite scan order. -/
def reversedStub : Stub := ⟨sampleState.reverse, [], "tx1", none, []⟩

/-- Sample collaborators: every check passes, the caller is alice, the
native-coin balance read is 10^18 and the fee 10^15; a token exists when it is
BUSY or has a record, the undefined ledger helpers succeed without touching the
store, and the codecs are stand-ins that keep the total supply of a record. -/
def sampleExternals : Externals where
  BUSY_COIN_SYMBOL := "BUSY"
  CheckCredentials := fun ctx _ _ => (none, ctx)
  getCommonName := fun ctx => (.ok "alice", ctx)
  getDefaultWalletAddress := fun ctx _ => (.ok "alice", ctx)
  getBalanceHelper := fun ctx _ _ => (some 1000000000000000000, ctx)
  getCurrentTxFee := fun ctx => ("1000000000000000", ctx)
  addTotalSupplyUTXO := fun ctx _ _ => (none, ctx)
  ToUpper := fun s => ⟨s.data.map Char.toUpper⟩
  EncodeToString := fun s => s
  unmarshalTokenType := fun _ => .ok "GAME"
  unmarshalBool := fun s =>
    if s = "true" then .ok true else if s = "false" then .ok false else .error .stub
  marshalUTXO := fun u => u.Amount
  ifTokenExists := fun ctx symbol =>
    (.ok (symbol = "BUSY" || (lookup ctx.state (.simple ("token~" ++ symbol))).isSome), ctx)
  addUTXO := fun ctx _ _ _ => (none, ctx)
  burnTxFee := fun ctx _ _ => (none, ctx)
  transferHelper := fun ctx _ _ _ _ _ => (none, ctx)
  generateTokenStateAddress := fun symbol => "token~" ++ symbol
  getBalanceHelperError := fun _ _ _ => none
  minusOne := -1
  MatchString := fun _ _ => true
  Now := "2021-01-01T00:00:00Z"
  Atoi := fun s => (setString s).getD 0
  marshalTokensInfo := fun info => info.TotalSupply
  unmarshalTokensInfo := fun text =>
    .ok { Account := "alice", CreatedAT := "", TokenAddress := "",
          MetaData := ⟨"", "GAME", "", "", none, "", ""⟩, TotalSupply := text, TokenSymbol := "" }
  unmarshalTokenIssueFee := fun text => .ok ⟨text, text, text⟩
  marshalToken := fun token => token.TotalSupply
  unmarshalTokenAdmin := fun _ => "alice"
  unmarshalUserDefaultWallet := fun _ => "alice"
  unmarshalWalletUserID := fun _ => "alice"
  GetQueryResult := fun ctx _ _ _ => (.ok [], ctx)
  GetTxTimestamp := fun _ => some 1700000000
  burnTxFeeWithTotalSupply := fun ctx _ _ => (none, ctx)
  unmarshalLockedTokens := fun text => ⟨"lockedToken", text, text, 0, 0⟩
  marshalLockedTokens := fun lockedToken => lockedToken.ReleasedAmount
  unmarshalNft := fun text => .ok ⟨text, "", ⟨"", "", none⟩⟩
  marshalNft := fun nft => nft.Account
  unmarshalToken := fun text =>
    .ok { DocType := "token", ID := 1, TokenName := "", TokenSymbol := "", Admin := "alice",
          TotalSupply := text, Decimals := 0, MetaData := ⟨"", "BUSY20", "", "", none, "", ""⟩,
          TokenAddress := "" }
  marshalBool := fun approved => .ok (if approved then "true" else "false")

/-- The sample store with the token record of GOLD added. -/
def tokenStub : Stub :=
  ⟨sampleState ++ [(.simple (generateTokenAddress sampleExternals "GOLD"), "gold")], [], "tx3",
    none, []⟩

/-- Sample metadata of a game token. -/
def sampleMetaData : TokenMetaData := ⟨"Silver", "GAME", "", "logo", none, "", ""⟩

/-- Sample metadata of a BUSY20 token. -/
def busy20MetaData : TokenMetaData := ⟨"Silver", "BUSY20", "", "logo", none, "", ""⟩

/-- The sample store with the wallet of alice and an issue fee of 1000. -/
def mintStub : Stub :=
  ⟨sampleState ++ [(.simple "alice", "wallet"), (.simple "TokenIssueFees", "1000")], [], "tx4",
    none, []⟩

/-- The sample store with the wallet of alice and an issue fee of 2 * 10^18,
twice the native-coin balance that `sampleExternals` reads for her. -/
def costlyStub : Stub :=
  ⟨sampleState ++
    [(.simple "alice", "wallet"), (.simple "TokenIssueFees", "2000000000000000000")], [], "tx5",
    none, []⟩

/-- The sample store with the token records of GOLD and GEM and the wallet of
alice. -/
def burnStub : Stub :=
  ⟨sampleState ++
    [(.simple (generateTokenAddress sampleExternals "GOLD"), "gold"),
     (.simple (generateTokenAddress sampleExternals "GEM"), "gem"),
     (.simple "alice", "wallet")], [], "tx7", none, []⟩

/-- A store for the entry points of `busy.go`: the wallets of alice and bob, a
transfer fee of 1000 and an issue fee of 1000. -/
def busyStub : Stub :=
  ⟨[(.simple "alice", "wallet"), (.simple "bob", "wallet"), (.simple "transferFees", "1000"),
    (.simple "TokenIssueFees", "1000")], [], "tx6", none, []⟩

/-- Collaborators for the vesting samples: those of `sampleExternals`, with the
transaction at second `now` and every stored vesting record decoding to
`record`; a record is encoded as its released amount. -/
def vestingExternals (record : LockedTokens) (now : Int) : Externals :=
  { sampleExternals with
    GetTxTimestamp := fun _ => some now
    unmarshalLockedTokens := fun _ => record }

/-- The same collaborators with an `addUTXO` that fails. -/
def refusingExternals (record : LockedTokens) (now : Int) : Externals :=
  { vestingExternals record now with addUTXO := fun ctx _ _ _ => (some .stub, ctx) }

/-- A store with a vesting record for alice. -/
def vestingStub : Stub := ⟨[(vestingKey "alice", "record")], [], "tx8", none, []⟩

/-- A division that never panics: zero for a divisor that is not positive. -/
def safeDiv (x y : Int) : Outcome Int := if y ≤ 0 then .returned 0 else .returned (x / y)

/-- A store with the NFT "ART" owned by alice and the wallet of bob; the sample
codec writes an NFT as its owner. -/
def nftStub : Stub :=
  ⟨[(nftKey "ART", "alice"), (.simple "bob", "wallet")], [], "tx9", none, []⟩

/-- The sample collaborators with bob as the caller. -/
def bobExternals : Externals :=
  { sampleExternals with
    getCommonName := fun ctx => (.ok "bob", ctx)
    getDefaultWalletAddress := fun ctx _ => (.ok "bob", ctx) }

/-- The sample collaborators with `caller` as the common name of the caller;
every common name resolves to the wallet of the same name. -/
def callerExternals (caller : String) : Externals :=
  { sampleExternals with
    getCommonName := fun ctx => (.ok caller, ctx)
    getDefaultWalletAddress := fun ctx commonName => (.ok commonName, ctx) }

/-- A store with the BUSY20 token SLV and the game token GOLD; the sample codecs
decode both with alice as admin and owner. -/
def metaStub : Stub :=
  ⟨[(.simple (sampleExternals.generateTokenStateAddress "SLV"), "1000"),
    (.simple (generateTokenAddress sampleExternals "GOLD"), "gold")], [], "tx10", none, []⟩

/-! ## Decimal text: reading back what `bigString` writes -/

theorem digitValue_digitChar (d : Nat) (h : d < 10) : digitValue (Nat.digitChar d) = some d := by
  interval_cases d <;> rfl

theorem parseDigits_append (xs ys : List Char) (a : Nat) :
    parseDigits (xs ++ ys) a = (parseDigits xs a).bind (parseDigits ys) := by
  induction xs generalizing a with
  | nil => rfl
  | cons c cs ih =>
    simp only [List.cons_append, parseDigits]
    cases digitValue c with
    | none => rfl
    | some d => exact ih _

theorem toDigitsCore_acc (fuel n : Nat) (acc : List Char) :
    Nat.toDigitsCore 10 fuel n acc = Nat.toDigitsCore 10 fuel n [] ++ acc := by
  induction fuel generalizing n acc with
  | zero => simp [Nat.toDigitsCore]
  | succ f ih =>
    simp only [Nat.toDigitsCore]
    split
    · simp
    · rw [ih (n / 10) (_ :: acc), ih (n / 10) [_]]
      simp

theorem toDigitsCore_ne_nil (fuel n : Nat) (h : 0 < fuel) :
    Nat.toDigitsCore 10 fuel n [] ≠ [] := by
  cases fuel with
  | zero => omega
  | succ f =>
    simp only [Nat.toDigitsCore]
    split
    · simp
    · rw [toDigitsCore_acc]; simp

theorem parseDigits_toDigitsCore (fuel n : Nat) (h : n < fuel) :
    parseDigits (Nat.toDigitsCore 10 fuel n []) 0 = some n := by
  induction fuel generalizing n with
  | zero => omega
  | succ f ih =>
    simp only [Nat.toDigitsCore]
    split
    · rename_i h0
      have hn : n % 10 = n := by omega
      simp only [parseDigits, digitValue_digitChar (n % 10) (Nat.mod_lt _ (by decide))]
      simp [hn]
    · rename_i h0
      rw [toDigitsCore_acc, parseDigits_append, ih (n / 10) (by omega)]
      simp only [Option.some_bind, parseDigits, digitValue_digitChar (n % 10) (Nat.mod_lt _ (by decide))]
      congr 1
      omega

theorem parseNat_repr (n : Nat) : parseNat (Nat.repr n).data = some n := by
  have h1 : (Nat.repr n).data = Nat.toDigitsCore 10 (n + 1) n [] := rfl
  rw [h1]
  have h2 := toDigitsCore_ne_nil (n + 1) n (by omega)
  have h3 := parseDigits_toDigitsCore (n + 1) n (by omega)
  cases h : Nat.toDigitsCore 10 (n + 1) n [] with
  | nil => exact absurd h h2
  | cons c cs => rw [h] at h3; exact h3

theorem setString_of_parseNat (cs : List Char) (n : Nat) (h : parseNat cs = some n) :
    setString ⟨cs⟩ = some (n : Int) := by
  cases cs with
  | nil => simp [parseNat] at h
  | cons c cs =>
    have hd : ∃ d, digitValue c = some d := by
      simp only [parseNat, parseDigits] at h
      cases hc : digitValue c with
      | none => rw [hc] at h; simp at h
      | some d => exact ⟨d, rfl⟩
    obtain ⟨d, hd⟩ := hd
    have hm : c ≠ '-' := by rintro rfl; simp [digitValue] at hd
    have hp : c ≠ '+' := by rintro rfl; simp [digitValue] at hd
    unfold setString
    split
    · rename_i heq; simp at heq
    · rename_i heq; simp at heq; exact absurd heq.1 hm
    · rename_i heq; simp at heq; exact absurd heq.1 hp
    · simp [h]

theorem setString_bigString (n : Int) : setString (bigString n) = some n := by
  cases n with
  | ofNat m => exact setString_of_parseNat _ m (parseNat_repr m)
  | negSucc m =>
    have hdata : (bigString (Int.negSucc m)).data = '-' :: (Nat.repr (m + 1)).data := by
      simp [bigString, String.data_append]
    unfold setString
    rw [hdata]
    simp [parseNat_repr, Int.negSucc_eq]

theorem amountOf_bigString (n : Int) : amountOf (bigString n) = n := by
  simp [amountOf, setString_bigString]

theorem amountOf_of_setString {v : String} {n : Int} (h : setString v = some n) :
    amountOf v = n := by
  simp [amountOf, h]

/-! ## The world state as a finite map -/

theorem lookup_eq_none_iff (st : WorldState) (k : Key) :
    lookup st k = none ↔ k ∉ st.map Prod.fst := by
  induction st with
  | nil => simp [lookup]
  | cons kv rest ih =>
    obtain ⟨k', v⟩ := kv
    by_cases h : k' = k
    · simp [lookup, h]
    · simp [lookup, h, ih, Ne.symm h]

theorem lookup_eq_some_iff (st : WorldState) (hnd : (st.map Prod.fst).Nodup) (k : Key)
    (v : String) : lookup st k = some v ↔ (k, v) ∈ st := by
  induction st with
  | nil => simp [lookup]
  | cons kv rest ih =>
    obtain ⟨k', v'⟩ := kv
    simp only [List.map_cons, List.nodup_cons] at hnd
    by_cases h : k' = k
    · subst h
      have hnot : ∀ w, (k', w) ∉ rest := fun w hw =>
        hnd.1 (List.mem_map.mpr ⟨(k', w), hw, rfl⟩)
      simp only [lookup, if_true, Option.some.injEq, List.mem_cons, Prod.mk.injEq, true_and]
      constructor
      · intro hv; exact Or.inl hv.symm
      · rintro (hv | hv)
        · exact hv.symm
        · exact absurd hv (hnot v)
    · simp only [lookup, h, if_false, List.mem_cons, Prod.mk.injEq, ih hnd.2]
      constructor
      · intro hv; exact Or.inr hv
      · rintro (hv | hv)
        · exact absurd hv.1.symm h
        · exact hv

theorem erase_eq_filter (st : WorldState) (k : Key) :
    erase st k = st.filter (fun kv => decide (kv.1 ≠ k)) := by
  induction st with
  | nil => rfl
  | cons kv rest ih =>
    obtain ⟨k', v⟩ := kv
    by_cases h : k' = k
    · simp [erase, h, ih]
    · simp [erase, h, ih]

theorem mem_erase_iff (st : WorldState) (k : Key) (kv : Key × String) :
    kv ∈ erase st k ↔ kv ∈ st ∧ kv.1 ≠ k := by
  simp [erase_eq_filter]

theorem erase_of_not_mem (st : WorldState) (k : Key) (h : k ∉ st.map Prod.fst) :
    erase st k = st := by
  rw [erase_eq_filter, List.filter_eq_self]
  intro kv hkv
  simp only [ne_eq, decide_eq_true_eq]
  rintro rfl
  exact h (List.mem_map.mpr ⟨kv, hkv, rfl⟩)

theorem nodup_keys_erase (st : WorldState) (k : Key) (hnd : (st.map Prod.fst).Nodup) :
    ((erase st k).map Prod.fst).Nodup := by
  rw [erase_eq_filter]
  exact hnd.sublist ((List.filter_sublist st).map Prod.fst)

theorem lookup_erase_ne (st : WorldState) (k k' : Key) (h : k' ≠ k) :
    lookup (erase st k) k' = lookup st k' := by
  induction st with
  | nil => rfl
  | cons kv rest ih =>
    obtain ⟨k0, v⟩ := kv
    by_cases h0 : k0 = k
    · subst h0
      simp [erase, lookup, ih, Ne.symm h]
    · by_cases h1 : k0 = k'
      · subst h1; simp [erase, lookup, h0]
      · simp [erase, lookup, h0, h1, ih]

theorem lookup_erase_self (st : WorldState) (k : Key) : lookup (erase st k) k = none := by
  rw [lookup_eq_none_iff]
  intro h
  obtain ⟨kv, hkv, hk⟩ := List.mem_map.mp h
  exact ((mem_erase_iff st k kv).mp hkv).2 hk

theorem keys_put (st : WorldState) (k : Key) (v : String) :
    (put st k v).map Prod.fst =
      if k ∈ st.map Prod.fst then st.map Prod.fst else st.map Prod.fst ++ [k] := by
  induction st with
  | nil => simp [put]
  | cons kv rest ih =>
    obtain ⟨k0, v0⟩ := kv
    by_cases h0 : k0 = k
    · subst h0; simp [put]
    · simp only [put, h0, if_false, List.map_cons, ih, List.mem_cons, Ne.symm h0, false_or]
      split <;> simp

theorem nodup_keys_put (st : WorldState) (k : Key) (v : String)
    (hnd : (st.map Prod.fst).Nodup) : ((put st k v).map Prod.fst).Nodup := by
  rw [keys_put]
  split
  · exact hnd
  · rename_i h
    exact List.Nodup.append hnd (List.nodup_singleton k) (by simpa using h)

theorem lookup_put_self (st : WorldState) (k : Key) (v : String) :
    lookup (put st k v) k = some v := by
  induction st with
  | nil => simp [put, lookup]
  | cons kv rest ih =>
    obtain ⟨k0, v0⟩ := kv
    by_cases h0 : k0 = k
    · simp [put, lookup, h0]
    · simp [put, lookup, h0, ih]

theorem lookup_put_ne (st : WorldState) (k k' : Key) (v : String) (h : k' ≠ k) :
    lookup (put st k v) k' = lookup st k' := by
  induction st with
  | nil => simp [put, lookup, Ne.symm h]
  | cons kv rest ih =>
    obtain ⟨k0, v0⟩ := kv
    by_cases h0 : k0 = k
    · subst h0; simp [put, lookup, Ne.symm h]
    · by_cases h1 : k0 = k'
      · subst h1; simp [put, lookup, h0]
      · simp [put, lookup, h0, h1, ih]

theorem mem_put (st : WorldState) (k : Key) (v : String) (kv : Key × String)
    (h : kv ∈ put st k v) : kv ∈ st ∨ kv = (k, v) := by
  induction st with
  | nil => simpa [put] using h
  | cons kv0 rest ih =>
    obtain ⟨k0, v0⟩ := kv0
    by_cases h0 : k0 = k
    · subst h0
      simp only [put, if_true, List.mem_cons] at h
      rcases h with h | h
      · exact Or.inr h
      · exact Or.inl (List.mem_cons_of_mem _ h)
    · simp only [put, h0, if_false, List.mem_cons] at h
      rcases h with h | h
      · exact Or.inl (h ▸ List.mem_cons_self _ _)
      · rcases ih h with h' | h'
        · exact Or.inl (List.mem_cons_of_mem _ h')
        · exact Or.inr h'

/-! ## Sums of amounts under writes and deletes -/

theorem total_nil (q : Key → Bool) : total [] q = 0 := rfl

theorem total_cons (kv : Key × String) (st : WorldState) (q : Key → Bool) :
    total (kv :: st) q = (if q kv.1 then amountOf kv.2 else 0) + total st q := by
  unfold total
  by_cases h : q kv.1 = true
  · simp [List.filter_cons, h]
  · simp [List.filter_cons, h]

theorem total_of_forall_false (st : WorldState) (q : Key → Bool)
    (h : ∀ kv ∈ st, q kv.1 = false) : total st q = 0 := by
  induction st with
  | nil => rfl
  | cons kv rest ih =>
    rw [total_cons, h kv (List.mem_cons_self _ _), ih (fun kv hkv => h kv (List.mem_cons_of_mem _ hkv))]
    simp

theorem total_erase_of_not_mem (st : WorldState) (k : Key) (q : Key → Bool)
    (h : k ∉ st.map Prod.fst) : total (erase st k) q = total st q := by
  rw [erase_of_not_mem st k h]

theorem total_erase (st : WorldState) (hnd : (st.map Prod.fst).Nodup) (k : Key)
    (q : Key → Bool) :
    total (erase st k) q = total st q - (if q k then amountAt st k else 0) := by
  induction st with
  | nil => simp [erase, total_nil, amountAt, lookup]
  | cons kv rest ih =>
    obtain ⟨k0, v0⟩ := kv
    simp only [List.map_cons, List.nodup_cons] at hnd
    by_cases h0 : k0 = k
    · subst h0
      have h1 : erase ((k0, v0) :: rest) k0 = rest := by
        simp only [erase, if_true]
        exact erase_of_not_mem rest k0 hnd.1
      rw [h1, total_cons]
      simp only [amountAt, lookup, if_true, Option.map_some', Option.getD_some]
      split <;> ring
    · have h1 : erase ((k0, v0) :: rest) k = (k0, v0) :: erase rest k := by
        simp [erase, h0]
      rw [h1, total_cons, total_cons, ih hnd.2]
      simp only [amountAt, lookup, h0, if_false]
      ring

theorem total_put (st : WorldState) (k : Key) (v : String) (q : Key → Bool) :
    total (put st k v) q =
      total st q - (if q k then amountAt st k else 0) + (if q k then amountOf v else 0) := by
  induction st with
  | nil => simp [put, total_cons, total_nil, amountAt, lookup]
  | cons kv rest ih =>
    obtain ⟨k0, v0⟩ := kv
    by_cases h0 : k0 = k
    · subst h0
      simp only [put, if_true, total_cons, amountAt, lookup, Option.map_some', Option.getD_some]
      split <;> ring
    · simp only [put, h0, if_false, total_cons, ih, amountAt, lookup]
      ring

/-! ## Well-formed stores and the fault plan -/

theorem WellFormed.erase {st : WorldState} (h : WellFormed st) (k : Key) :
    WellFormed (erase st k) :=
  ⟨nodup_keys_erase st k h.1, fun kv hkv => h.2 kv ((mem_erase_iff st k kv).mp hkv).1⟩

theorem WellFormed.put {st : WorldState} (h : WellFormed st) (k : Key) (v : String)
    (hkv : wellFormedRecord (k, v) = true) : WellFormed (put st k v) :=
  ⟨nodup_keys_put st k v h.1, fun kv hmem => by
    rcases mem_put st k v kv hmem with h1 | h1
    · exact h.2 kv h1
    · rw [h1]; exact hkv⟩

theorem wellFormedRecord_balanceKey (account symbol contributor : String) (n : Int) :
    wellFormedRecord (balanceKey account symbol contributor, bigString n) = true := by
  simp [wellFormedRecord, balanceKey, setString_bigString]

theorem tick_spec (ctx : Stub) :
    ctx.tick.2.state = ctx.state ∧ ctx.tick.2.txID = ctx.txID ∧ ctx.tick.2.event = ctx.event ∧
      (NoFault ctx → ctx.tick.1 = false ∧ NoFault ctx.tick.2) := by
  obtain ⟨state, faults, txID, event, calls⟩ := ctx
  cases faults with
  | nil => simp [Stub.tick, NoFault]
  | cons f fs =>
    simp only [Stub.tick, NoFault, List.mem_cons, forall_eq_or_imp, true_and]
    exact fun h => h

theorem underPrefix_balanceKey (a t account symbol contributor : String) :
    underPrefix balancePrefix [a, t] (balanceKey account symbol contributor) =
      decide (a = account ∧ t = symbol) := by
  rw [Bool.eq_iff_iff]
  simp [underPrefix, balanceKey, List.isPrefixOf]

theorem createCompositeKey_balance (account symbol contributor : String) (k : Key)
    (h : CreateCompositeKey balancePrefix [account, symbol, contributor] = .ok k) :
    k = balanceKey account symbol contributor := by
  unfold CreateCompositeKey at h
  split at h
  · cases h; rfl
  · cases h

/-! ## `addBalance` and `setBalance` -/

theorem putState_ok (ctx ctx1 : Stub) (k : Key) (v : String)
    (h : PutState ctx k v = (none, ctx1)) :
    ctx1.state = put ctx.state k v ∧ (NoFault ctx → NoFault ctx1) := by
  unfold PutState at h
  split at h
  · cases h
  · have ht := tick_spec ctx
    cases hc : ctx.tick with
    | mk f c =>
      rw [hc] at h ht
      cases f with
      | true => cases h
      | false =>
        simp only [Prod.mk.injEq, true_and] at h
        subst h
        simp only at ht ⊢
        exact ⟨by rw [ht.1], fun hn => by
          have := (ht.2.2.2 hn).2
          simpa [NoFault] using this⟩

theorem addBalance_ok (ctx ctx1 : Stub) (sender recipient symbol : String) (n m : Int)
    (h : addBalance ctx sender recipient symbol n = (.returned (m, none), ctx1)) :
    ctx1.state = put ctx.state (balanceKey recipient symbol sender)
        (bigString (amountAt ctx.state (balanceKey recipient symbol sender) + n)) ∧
      m = amountAt ctx.state (balanceKey recipient symbol sender) + n ∧
      (NoFault ctx → NoFault ctx1) := by
  unfold addBalance at h
  split at h
  · cases h
  · rename_i bk hk
    have hbk := createCompositeKey_balance _ _ _ _ hk
    subst hbk
    have ht := tick_spec ctx
    unfold GetState at h
    cases hc : ctx.tick with
    | mk f c =>
      rw [hc] at h ht
      simp only at ht
      cases f with
      | true => simp at h
      | false =>
        simp only at h
        rw [ht.1] at h
        cases hl : lookup ctx.state (balanceKey recipient symbol sender) with
        | none =>
          rw [hl] at h
          simp only at h
          split at h
          · cases h
          · rename_i c2 hp
            simp only [Prod.mk.injEq, Outcome.returned.injEq, and_true] at h
            obtain ⟨rfl, rfl⟩ := h
            have hp' := putState_ok _ _ _ _ hp
            rw [ht.1] at hp'
            simp only [amountAt, hl, Option.map_none', Option.getD_none, zero_add]
            exact ⟨hp'.1, trivial, fun hn => hp'.2 (ht.2.2.2 hn).2⟩
        | some v =>
          rw [hl] at h
          simp only at h
          split at h
          · cases h
          · rename_i b hb
            split at h
            · cases h
            · rename_i c2 hp
              simp only [Prod.mk.injEq, Outcome.returned.injEq, and_true] at h
              obtain ⟨rfl, rfl⟩ := h
              have hp' := putState_ok _ _ _ _ hp
              rw [ht.1] at hp'
              simp only [amountAt, hl, Option.map_some', Option.getD_some,
                amountOf_of_setString hb]
              exact ⟨hp'.1, trivial, fun hn => hp'.2 (ht.2.2.2 hn).2⟩

theorem delState_ok (ctx ctx1 : Stub) (k : Key) (h : DelState ctx k = (none, ctx1)) :
    ctx1.state = erase ctx.state k ∧ (NoFault ctx → NoFault ctx1) := by
  unfold DelState at h
  have ht := tick_spec ctx
  cases hc : ctx.tick with
  | mk f c =>
    rw [hc] at h ht
    cases f with
    | true => cases h
    | false =>
      simp only [Prod.mk.injEq, true_and] at h
      subst h
      simp only at ht ⊢
      exact ⟨by rw [ht.1], fun hn => by
        have := (ht.2.2.2 hn).2
        simpa [NoFault] using this⟩

theorem record_of_underPrefix {sender token : String} {k : Key} {v : String}
    (hwf : wellFormedRecord (k, v) = true)
    (hp : underPrefix balancePrefix [sender, token] k = true) :
    ∃ c n, k = balanceKey sender token c ∧ setString v = some n := by
  cases k with
  | simple key => simp [underPrefix] at hp
  | composite ot attrs =>
    simp only [underPrefix, Bool.and_eq_true, decide_eq_true_eq] at hp
    obtain ⟨hot, hpre⟩ := hp
    subst hot
    simp only [wellFormedRecord, if_true, Bool.and_eq_true, beq_iff_eq] at hwf
    obtain ⟨hlen, hsome⟩ := hwf
    obtain ⟨n, hn⟩ := Option.isSome_iff_exists.mp hsome
    match attrs, hlen, hpre with
    | [a, t, c], _, hpre =>
      simp only [List.isPrefixOf, Bool.and_eq_true, beq_iff_eq, Bool.and_true] at hpre
      obtain ⟨rfl, rfl⟩ := hpre
      exact ⟨c, n, rfl, hn⟩

theorem amountAt_of_mem {st : WorldState} (hnd : (st.map Prod.fst).Nodup) {k : Key}
    {v : String} (h : (k, v) ∈ st) : amountAt st k = amountOf v := by
  simp [amountAt, (lookup_eq_some_iff st hnd k v).mpr h]

theorem balanceKey_ne {sender token c : String} (h : c ≠ sender) :
    balanceKey sender token c ≠ balanceKey sender token sender := by
  intro heq
  simp [balanceKey] at heq
  exact h heq

/-! ## The scan of `removeBalance` -/

theorem removeBalanceScan_ok (sender token : String) (needed : Int) :
    ∀ (it : StateQueryIterator) (vars : ScanState) (ctx : Stub) (vars1 : ScanState)
      (ctx1 : Stub),
      removeBalanceScan sender needed it vars ctx = (.returned (.ok vars1), ctx1) →
      WellFormed ctx.state →
      (∀ kv ∈ it, kv ∈ ctx.state ∧ underPrefix balancePrefix [sender, token] kv.1 = true) →
      (it.map Prod.fst).Nodup →
      (vars.selfRecipientKeyNeedsToBeRemoved = true →
        vars.selfRecipientKey = balanceKey sender token sender ∧
          balanceKey sender token sender ∉ it.map Prod.fst) →
      ScanSpec sender token vars ctx vars1 ctx1 := by
  intro it
  induction it with
  | nil =>
    intro vars ctx vars1 ctx1 h hwf _ _ hself
    simp only [removeBalanceScan, Prod.mk.injEq, Outcome.returned.injEq, Except.ok.injEq] at h
    obtain ⟨rfl, rfl⟩ := h
    exact ⟨hwf, fun hf => (hself hf).1, fun _ => rfl, fun hf => hf, rfl, rfl, fun _ _ => rfl,
        fun hn => hn⟩
  | cons kv rest ih =>
    intro vars ctx vars1 ctx1 h hwf hit hnd hself
    obtain ⟨k, v⟩ := kv
    have hkv := hit (k, v) (List.mem_cons_self _ _)
    have hrest : ∀ kv ∈ rest, kv ∈ ctx.state ∧
        underPrefix balancePrefix [sender, token] kv.1 = true :=
      fun kv hm => hit kv (List.mem_cons_of_mem _ hm)
    simp only [List.map_cons, List.nodup_cons] at hnd
    obtain ⟨c, n, hk, hn⟩ := record_of_underPrefix (hwf.2 (k, v) hkv.1) hkv.2
    subst hk
    simp only [removeBalanceScan] at h
    split at h
    · -- the loop body runs
      have ht := tick_spec ctx
      cases hc : ctx.tick with
      | mk f c0 =>
        rw [hc] at h ht
        simp only at ht
        cases f with
        | true => simp at h
        | false =>
          simp only [hn, SplitCompositeKey, balanceKey, List.get?] at h
          by_cases hcs : c = sender
          · subst hcs
            simp only [if_true] at h
            have hflag : vars.selfRecipientKeyNeedsToBeRemoved = false := by
              cases hf : vars.selfRecipientKeyNeedsToBeRemoved with
              | false => rfl
              | true => exact absurd (by simp [balanceKey]) (hself hf).2
            have hwf0 : WellFormed c0.state := by rw [ht.1]; exact hwf
            have hrest0 : ∀ kv ∈ rest, kv ∈ c0.state ∧
                underPrefix balancePrefix [c, token] kv.1 = true := by
              rw [ht.1]; exact hrest
            have := ih _ c0 vars1 ctx1 h hwf0 hrest0 hnd.2
              (fun _ => ⟨rfl, hnd.1⟩)
            have hA : amountAt ctx.state (balanceKey c token c) = n := by
              rw [amountAt_of_mem hwf.1 hkv.1]; exact amountOf_of_setString hn
            refine ⟨this.wf, this.selfKey_set, ?_, fun _ => this.flag_mono rfl, ?_, ?_, ?_, ?_⟩
            · intro hf
              rw [this.flag_mono rfl] at hf
              cases hf
            · rw [this.lookup_self, ht.1]
            · have hc := this.conserve
              simp only [if_true] at hc
              rw [ht.1] at hc
              rw [hflag]
              simp only [Bool.false_eq_true, if_false]
              rw [hc, hA]
              ring
            · intro q hq
              rw [this.frame q hq, ht.1]
            · exact fun hnf => this.noFault (ht.2.2.2 hnf).2
          · simp only [hcs, if_false] at h
            split at h
            · cases h
            · rename_i c2 hd
              have hd2 := delState_ok _ _ _ hd
              rw [ht.1] at hd2
              change c2.state = erase ctx.state (balanceKey sender token c) ∧ _ at hd2
              have hkne : balanceKey sender token c ≠ balanceKey sender token sender :=
                balanceKey_ne hcs
              have hwf2 : WellFormed c2.state := by rw [hd2.1]; exact hwf.erase _
              have hrest2 : ∀ kv ∈ rest, kv ∈ c2.state ∧
                  underPrefix balancePrefix [sender, token] kv.1 = true := by
                intro kv hm
                rw [hd2.1, mem_erase_iff]
                refine ⟨⟨(hrest kv hm).1, ?_⟩, (hrest kv hm).2⟩
                intro heq
                exact hnd.1 (List.mem_map.mpr ⟨kv, hm, heq⟩)
              have := ih _ c2 vars1 ctx1 h hwf2 hrest2 hnd.2
                (fun hf => ⟨(hself hf).1, fun hm => (hself hf).2 (List.mem_cons_of_mem _ hm)⟩)
              have hA : amountAt ctx.state (balanceKey sender token c) = n := by
                rw [amountAt_of_mem hwf.1 hkv.1]; exact amountOf_of_setString hn
              have hAself : amountAt c2.state (balanceKey sender token sender) =
                  amountAt ctx.state (balanceKey sender token sender) := by
                simp only [amountAt, hd2.1, lookup_erase_ne _ _ _ hkne.symm]
              refine ⟨this.wf, this.selfKey_set, this.selfKey_unset, this.flag_mono, ?_, ?_, ?_,
                ?_⟩
              · rw [this.lookup_self, hd2.1, lookup_erase_ne _ _ _ hkne.symm]
              · have hc := this.conserve
                simp only [hAself] at hc
                rw [hc, hd2.1, total_erase _ hwf.1, hkv.2, if_pos rfl, hA]
                ring
              · intro q hq
                rw [this.frame q hq, hd2.1, total_erase _ hwf.1, hq _ hkv.2]
                simp
              · exact fun hnf => this.noFault (hd2.2 (ht.2.2.2 hnf).2)
    · simp only [Prod.mk.injEq, Outcome.returned.injEq, Except.ok.injEq] at h
      obtain ⟨rfl, rfl⟩ := h
      exact ⟨hwf, fun hf => (hself hf).1, fun _ => rfl, fun hf => hf, rfl, rfl, fun _ _ => rfl,
        fun hn => hn⟩

theorem delState_noFault (ctx : Stub) (k : Key) (hnf : NoFault ctx) :
    ∃ ctx1, DelState ctx k = (none, ctx1) := by
  unfold DelState
  have ht := tick_spec ctx
  cases hc : ctx.tick with
  | mk f c =>
    rw [hc] at ht
    have := (ht.2.2.2 hnf).1
    simp only at this
    subst this
    exact ⟨_, rfl⟩

theorem putState_noFault (ctx : Stub) (k : Key) (v : String) (hnf : NoFault ctx)
    (hk : k ≠ .simple "") : ∃ ctx1, PutState ctx k v = (none, ctx1) := by
  unfold PutState
  rw [if_neg hk]
  have ht := tick_spec ctx
  cases hc : ctx.tick with
  | mk f c =>
    rw [hc] at ht
    have := (ht.2.2.2 hnf).1
    simp only at this
    subst this
    exact ⟨_, rfl⟩

theorem deletedKeys_cons_self {sender : String} {k : Key} (v : String)
    (rest : StateQueryIterator) (h : selfKeyed sender k = true) :
    deletedKeys sender ((k, v) :: rest) = deletedKeys sender rest := by
  simp [deletedKeys, List.filter_cons, h]

theorem deletedKeys_cons_other {sender : String} {k : Key} (v : String)
    (rest : StateQueryIterator) (h : selfKeyed sender k = false) :
    deletedKeys sender ((k, v) :: rest) = k :: deletedKeys sender rest := by
  simp [deletedKeys, List.filter_cons, h]

/-- A scan that leaves the loop short of the needed amount has read every
record: its partial balance is the full sum and every record not keyed by the
sender has been deleted. -/
theorem removeBalanceScan_short (sender : String) (needed : Int) :
    ∀ (it : StateQueryIterator) (vars : ScanState) (ctx : Stub) (vars1 : ScanState)
      (ctx1 : Stub),
      removeBalanceScan sender needed it vars ctx = (.returned (.ok vars1), ctx1) →
      vars1.partialBalance < needed →
      vars1.partialBalance = vars.partialBalance + sumAmounts it ∧
        ctx1.state = ctx.state.filter (fun kv => decide (kv.1 ∉ deletedKeys sender it)) := by
  intro it
  induction it with
  | nil =>
    intro vars ctx vars1 ctx1 h _
    simp only [removeBalanceScan, Prod.mk.injEq, Outcome.returned.injEq, Except.ok.injEq] at h
    obtain ⟨rfl, rfl⟩ := h
    simp [sumAmounts, deletedKeys]
  | cons kv rest ih =>
    intro vars ctx vars1 ctx1 h hlt
    obtain ⟨k, v⟩ := kv
    simp only [removeBalanceScan] at h
    split at h
    · have ht := tick_spec ctx
      cases hc : ctx.tick with
      | mk f c0 =>
        rw [hc] at h ht
        simp only at ht
        cases f with
        | true => simp at h
        | false =>
          simp only at h
          split at h
          · cases h
          · rename_i n hn
            split at h
            · cases h
            · rename_i ot parts hsplit
              split at h
              · cases h
              · rename_i part hpart
                have hkey : k = .composite ot parts := by
                  cases k with
                  | simple key => simp [SplitCompositeKey] at hsplit
                  | composite ot1 parts1 =>
                    simp only [SplitCompositeKey, Except.ok.injEq, Prod.mk.injEq] at hsplit
                    rw [hsplit.1, hsplit.2]
                have hamt : amountOf v = n := amountOf_of_setString hn
                have hpart1 : parts[2]? = some part := by simpa using hpart
                split at h
                · rename_i hps
                  have hsk : selfKeyed sender k = true := by
                    simp [hkey, selfKeyed, hpart1, hps]
                  obtain ⟨h1, h2⟩ := ih _ c0 vars1 ctx1 h hlt
                  refine ⟨?_, ?_⟩
                  · rw [h1]; simp only [sumAmounts, List.map_cons, List.sum_cons, hamt]; ring
                  · rw [h2, ht.1, deletedKeys_cons_self v rest hsk]
                · rename_i hps
                  have hsk : selfKeyed sender k = false := by
                    simp [hkey, selfKeyed, hpart1, hps]
                  split at h
                  · cases h
                  · rename_i c2 hd
                    have hd2 := delState_ok _ _ _ hd
                    rw [ht.1] at hd2
                    obtain ⟨h1, h2⟩ := ih _ c2 vars1 ctx1 h hlt
                    refine ⟨?_, ?_⟩
                    · rw [h1]; simp only [sumAmounts, List.map_cons, List.sum_cons, hamt]; ring
                    · rw [h2, hd2.1, erase_eq_filter, List.filter_filter]
                      rw [deletedKeys_cons_other v rest hsk]
                      apply List.filter_congr
                      intro x _
                      rw [Bool.eq_iff_iff]
                      simp only [List.mem_cons, not_or, Bool.and_eq_true, decide_eq_true_eq, ne_eq]
                      tauto
    · simp only [Prod.mk.injEq, Outcome.returned.injEq, Except.ok.injEq] at h
      obtain ⟨rfl, rfl⟩ := h
      rename_i hge
      exact absurd hlt hge

theorem setBalance_ok (ctx ctx1 : Stub) (sender recipient symbol : String) (n : Int)
    (h : setBalance ctx sender recipient symbol n = (.returned none, ctx1)) :
    ctx1.state = put ctx.state (balanceKey recipient symbol sender) (bigString n) ∧
      (NoFault ctx → NoFault ctx1) := by
  unfold setBalance at h
  split at h
  · cases h
  · rename_i bk hk
    have hbk := createCompositeKey_balance _ _ _ _ hk
    subst hbk
    split at h
    · cases h
    · rename_i c1 hp
      simp only [Prod.mk.injEq, true_and] at h
      subst h
      exact putState_ok _ _ _ _ hp

theorem getStateByPartialCompositeKey_ok (ctx ctx1 : Stub) (objectType : String)
    (attributes : List String) (it : StateQueryIterator)
    (h : GetStateByPartialCompositeKey ctx objectType attributes = (.ok it, ctx1)) :
    ctx1.state = ctx.state ∧
      it = ctx.state.filter (fun kv => underPrefix objectType attributes kv.1) ∧
      (NoFault ctx → NoFault ctx1) := by
  unfold GetStateByPartialCompositeKey at h
  split at h
  · cases h
  · have ht := tick_spec ctx
    cases hc : ctx.tick with
    | mk f c =>
      rw [hc] at h ht
      simp only at ht
      cases f with
      | true => simp at h
      | false =>
        simp only [Prod.mk.injEq, Except.ok.injEq] at h
        obtain ⟨rfl, rfl⟩ := h
        exact ⟨ht.1, by rw [ht.1], fun hn => (ht.2.2.2 hn).2⟩

theorem underPrefix_disjoint {a t sender token : String} (hne : (a, t) ≠ (sender, token))
    (k : Key) (hk : underPrefix balancePrefix [sender, token] k = true) :
    underPrefix balancePrefix [a, t] k = false := by
  cases k with
  | simple key => rfl
  | composite ot attrs =>
    simp only [underPrefix, Bool.and_eq_true, decide_eq_true_eq] at hk
    obtain ⟨rfl, hpre⟩ := hk
    match attrs, hpre with
    | [], hpre => simp [List.isPrefixOf] at hpre
    | [_], hpre => simp [List.isPrefixOf] at hpre
    | a1 :: t1 :: rest, hpre =>
      simp only [List.isPrefixOf, Bool.and_eq_true, beq_iff_eq, Bool.and_true] at hpre
      obtain ⟨rfl, rfl⟩ := hpre
      simp only [underPrefix, decide_True, Bool.true_and, List.isPrefixOf, Bool.and_true]
      by_contra hc
      simp only [Bool.not_eq_false, Bool.and_eq_true, beq_iff_eq] at hc
      exact hne (by rw [hc.1, hc.2])

theorem scan_records (st : WorldState) (hwf : WellFormed st) (q : Key → Bool) :
    (∀ kv ∈ st.filter (fun kv => q kv.1), kv ∈ st ∧ q kv.1 = true) ∧
      ((st.filter (fun kv => q kv.1)).map Prod.fst).Nodup :=
  ⟨fun kv h => by simpa using List.mem_filter.mp h,
    hwf.1.sublist ((List.filter_sublist st).map Prod.fst)⟩

/-! ## One token of `removeBalance` -/

theorem underPrefix_self (sender token : String) :
    underPrefix balancePrefix [sender, token] (balanceKey sender token sender) = true := by
  rw [underPrefix_balanceKey]; simp

theorem removeBalanceToken_ok (ctx ctx1 : Stub) (sender token : String) (needed : Int)
    (hwf : WellFormed ctx.state)
    (h : removeBalanceToken ctx sender token needed = (.returned none, ctx1)) :
    TokenSpec sender token needed ctx ctx1 := by
  unfold removeBalanceToken at h
  split at h
  · cases h
  · rename_i it c1 hopen
    obtain ⟨hst1, hit, hnf1⟩ := getStateByPartialCompositeKey_ok _ _ _ _ _ hopen
    split at h
    · cases h
    · cases h
    · rename_i vars c2 hscan
      have hrec := scan_records ctx.state hwf (underPrefix balancePrefix [sender, token])
      rw [← hit] at hrec
      have hwf1 : WellFormed c1.state := by rw [hst1]; exact hwf
      have hspec := removeBalanceScan_ok sender token needed it _ c1 vars c2 hscan hwf1
        (by rw [hst1]; exact hrec.1) hrec.2 (by intro hf; cases hf)
      have hcons := hspec.conserve
      simp only [Bool.false_eq_true, if_false, sub_zero, bigZero, add_zero, hst1] at hcons
      have hlk := hspec.lookup_self
      rw [hst1] at hlk
      have hAt : amountAt c2.state (balanceKey sender token sender) =
          amountAt ctx.state (balanceKey sender token sender) := by
        simp only [amountAt, hlk]
      have hframe : ∀ a t, (a, t) ≠ (sender, token) →
          total c2.state (underPrefix balancePrefix [a, t]) =
            total ctx.state (underPrefix balancePrefix [a, t]) := by
        intro a t hne
        rw [hspec.frame _ (underPrefix_disjoint hne), hst1]
      split at h
      · cases h
      · split at h
        · rename_i hgt
          split at h
          · -- the self-keyed record was read: it is overwritten with the change
            rename_i hflag
            obtain ⟨hst3, hnf3⟩ := setBalance_ok _ _ _ _ _ _ h
            simp only [hflag, if_true] at hcons
            refine ⟨?_, ?_, ?_, fun hn => hnf3 (hspec.noFault (hnf1 hn))⟩
            · rw [hst3]; exact hspec.wf.put _ _ (wellFormedRecord_balanceKey _ _ _ _)
            · simp only [balance]
              rw [hst3, total_put, underPrefix_self, if_pos rfl, if_pos rfl, amountOf_bigString,
                hAt]
              linarith
            · intro a t hne
              simp only [balance]
              rw [hst3, total_put, underPrefix_disjoint hne _ (underPrefix_self sender token),
                hframe a t hne]
              simp
          · -- the change is credited to the self-keyed record
            rename_i hflag
            dsimp only at h
            split at h
            · cases h
            · rename_i m err c3 hadd
              simp only [Prod.mk.injEq, Outcome.returned.injEq] at h
              obtain ⟨rfl, rfl⟩ := h
              obtain ⟨hst3, _, hnf3⟩ := addBalance_ok _ _ _ _ _ _ _ hadd
              have hflag1 : vars.selfRecipientKeyNeedsToBeRemoved = false := by simpa using hflag
              simp only [hflag1, Bool.false_eq_true, if_false, sub_zero] at hcons
              refine ⟨?_, ?_, ?_, fun hn => hnf3 (hspec.noFault (hnf1 hn))⟩
              · rw [hst3]; exact hspec.wf.put _ _ (wellFormedRecord_balanceKey _ _ _ _)
              · simp only [balance]
                rw [hst3, total_put, underPrefix_self, if_pos rfl, if_pos rfl,
                  amountOf_bigString]
                linarith
              · intro a t hne
                simp only [balance]
                rw [hst3, total_put, underPrefix_disjoint hne _ (underPrefix_self sender token),
                  hframe a t hne]
                simp
        · -- exactly the needed amount was read: the self-keyed record goes
          rename_i hnlt hngt
          have heq : vars.partialBalance = needed := by
            have h1 := not_lt.mp hnlt
            have h2 := not_lt.mp hngt
            exact le_antisymm h2 h1
          split at h
          · cases h
          · rename_i c3 hdel
            simp only [Prod.mk.injEq, true_and] at h
            subst h
            obtain ⟨hst3, hnf3⟩ := delState_ok _ _ _ hdel
            refine ⟨?_, ?_, ?_, fun hn => hnf3 (hspec.noFault (hnf1 hn))⟩
            · rw [hst3]; exact hspec.wf.erase _
            · simp only [balance]
              rw [hst3, total_erase _ hspec.wf.1]
              cases hflag : vars.selfRecipientKeyNeedsToBeRemoved with
              | true =>
                rw [hspec.selfKey_set hflag, underPrefix_self, if_pos rfl, hAt]
                simp only [hflag, if_true] at hcons
                linarith
              | false =>
                rw [hspec.selfKey_unset hflag]
                simp only [hflag, Bool.false_eq_true, if_false, sub_zero] at hcons
                simp only [underPrefix, Bool.false_eq_true, if_false, sub_zero]
                linarith
            · intro a t hne
              simp only [balance]
              rw [hst3, total_erase _ hspec.wf.1, hframe a t hne]
              cases hflag : vars.selfRecipientKeyNeedsToBeRemoved with
              | true =>
                rw [hspec.selfKey_set hflag,
                  underPrefix_disjoint hne _ (underPrefix_self sender token)]
                simp
              | false =>
                rw [hspec.selfKey_unset hflag]
                simp [underPrefix]

/-! ## The map `necessaryFunds` and the token loop -/

theorem mapGet_eq_none_iff (m : List (String × Int)) (t : String) :
    mapGet m t = none ↔ t ∉ m.map Prod.fst := by
  induction m with
  | nil => simp [mapGet]
  | cons e rest ih =>
    obtain ⟨s, total⟩ := e
    by_cases h : s = t
    · simp [mapGet, h]
    · simp [mapGet, h, ih, Ne.symm h]

theorem mapGet_addNecessaryFunds (m : List (String × Int)) (s : String) (a : Int)
    (t : String) :
    mapGet (addNecessaryFunds m s a) t =
      if t = s then some ((mapGet m s).getD 0 + a) else mapGet m t := by
  induction m with
  | nil =>
    by_cases h : t = s
    · simp [addNecessaryFunds, mapGet, h]
    · simp [addNecessaryFunds, mapGet, h, Ne.symm h]
  | cons e rest ih =>
    obtain ⟨s0, total0⟩ := e
    by_cases h0 : s0 = s
    · subst h0
      by_cases h : t = s0
      · simp [addNecessaryFunds, mapGet, h]
      · simp [addNecessaryFunds, mapGet, h, Ne.symm h]
    · by_cases h : t = s
      · subst h
        simp [addNecessaryFunds, mapGet, h0, ih]
      · by_cases h1 : s0 = t
        · simp [addNecessaryFunds, mapGet, h0, h, h1]
        · simp [addNecessaryFunds, mapGet, h0, h, h1, ih]

theorem keys_addNecessaryFunds (m : List (String × Int)) (s : String) (a : Int) :
    (addNecessaryFunds m s a).map Prod.fst =
      if s ∈ m.map Prod.fst then m.map Prod.fst else m.map Prod.fst ++ [s] := by
  induction m with
  | nil => simp [addNecessaryFunds]
  | cons e rest ih =>
    obtain ⟨s0, total0⟩ := e
    by_cases h0 : s0 = s
    · subst h0; simp [addNecessaryFunds]
    · simp only [addNecessaryFunds, h0, if_false, List.map_cons, ih, List.mem_cons,
        Ne.symm h0, false_or]
      split <;> simp

theorem nodup_keys_addNecessaryFunds (m : List (String × Int)) (s : String) (a : Int)
    (hnd : (m.map Prod.fst).Nodup) : ((addNecessaryFunds m s a).map Prod.fst).Nodup := by
  rw [keys_addNecessaryFunds]
  split
  · exact hnd
  · rename_i h
    exact List.Nodup.append hnd (List.nodup_singleton s) (by simpa using h)

theorem necessaryFundsLoop_ok :
    ∀ (symbols : List String) (amounts : List Int) (m m1 : List (String × Int)),
      necessaryFundsLoop symbols amounts m = .returned m1 →
      (m.map Prod.fst).Nodup →
      (m1.map Prod.fst).Nodup ∧
        ∀ t, (mapGet m1 t).getD 0 = (mapGet m t).getD 0 + listedAmount symbols amounts t := by
  intro symbols amounts
  induction amounts generalizing symbols with
  | nil =>
    intro m m1 h hnd
    have : m1 = m := by
      cases symbols <;> simp [necessaryFundsLoop] at h <;> exact h.symm
    subst this
    refine ⟨hnd, fun t => ?_⟩
    cases symbols <;> simp [listedAmount]
  | cons a amounts ih =>
    intro m m1 h hnd
    cases symbols with
    | nil => simp [necessaryFundsLoop] at h
    | cons s symbols =>
      simp only [necessaryFundsLoop] at h
      obtain ⟨h1, h2⟩ := ih symbols _ m1 h (nodup_keys_addNecessaryFunds m s a hnd)
      refine ⟨h1, fun t => ?_⟩
      rw [h2 t, mapGet_addNecessaryFunds]
      by_cases hts : t = s
      · subst hts
        simp only [if_true, Option.getD_some, listedAmount]
        ring
      · simp only [hts, if_false, listedAmount, Ne.symm hts, zero_add]

theorem sortedKeys_perm (m : List (String × Int)) : (sortedKeys m).Perm (m.map Prod.fst) :=
  List.perm_insertionSort _ _

theorem removeBalanceTokens_ok (sender : String) (m : List (String × Int)) :
    ∀ (keys : List String) (ctx ctx1 : Stub),
      removeBalanceTokens sender m keys ctx = (.returned none, ctx1) →
      WellFormed ctx.state → keys.Nodup →
      WellFormed ctx1.state ∧
        (∀ a t, balance ctx1.state a t =
          balance ctx.state a t - (if a = sender ∧ t ∈ keys then (mapGet m t).getD 0 else 0)) ∧
        (NoFault ctx → NoFault ctx1) := by
  intro keys
  induction keys with
  | nil =>
    intro ctx ctx1 h hwf _
    simp only [removeBalanceTokens, Prod.mk.injEq, true_and] at h
    subst h
    exact ⟨hwf, fun a t => by simp, fun hn => hn⟩
  | cons t0 rest ih =>
    intro ctx ctx1 h hwf hnd
    simp only [List.nodup_cons] at hnd
    simp only [removeBalanceTokens] at h
    split at h
    · cases h
    · rename_i needed hget
      split at h
      · rename_i c1 htok
        have hspec := removeBalanceToken_ok _ _ _ _ _ hwf htok
        obtain ⟨hwf1, hbal, hnf⟩ := ih c1 ctx1 h hspec.wf hnd.2
        refine ⟨hwf1, fun a t => ?_, fun hn => hnf (hspec.noFault hn)⟩
        rw [hbal a t]
        by_cases hat : (a, t) = (sender, t0)
        · simp only [Prod.mk.injEq] at hat
          obtain ⟨rfl, rfl⟩ := hat
          rw [hspec.debit]
          simp [hnd.1, hget]
        · rw [hspec.frame a t hat]
          by_cases has : a = sender
          · subst has
            have : t ≠ t0 := fun heq => hat (by rw [heq])
            simp [this]
          · simp [has]
      · cases h
      · cases h

/-! ## Runs without store faults -/

theorem tick_noFault (ctx : Stub) (hnf : NoFault ctx) :
    ∃ c, ctx.tick = (false, c) ∧ c.state = ctx.state ∧ NoFault c := by
  have ht := tick_spec ctx
  cases hc : ctx.tick with
  | mk f c =>
    rw [hc] at ht
    simp only at ht
    obtain ⟨hf, hn⟩ := ht.2.2.2 hnf
    subst hf
    exact ⟨c, rfl, ht.1, hn⟩

theorem removeBalanceScan_total (sender token : String) (needed : Int) :
    ∀ (it : StateQueryIterator) (vars : ScanState) (ctx : Stub),
      NoFault ctx →
      (∀ kv ∈ it, wellFormedRecord kv = true ∧
        underPrefix balancePrefix [sender, token] kv.1 = true) →
      ∃ vars1 ctx1,
        removeBalanceScan sender needed it vars ctx = (.returned (.ok vars1), ctx1) := by
  intro it
  induction it with
  | nil => intro vars ctx _ _; exact ⟨vars, ctx, rfl⟩
  | cons kv rest ih =>
    intro vars ctx hnf hit
    obtain ⟨k, v⟩ := kv
    have hkv := hit (k, v) (List.mem_cons_self _ _)
    have hrest := fun kv hm => hit kv (List.mem_cons_of_mem _ hm)
    obtain ⟨c, n, hk, hn⟩ := record_of_underPrefix hkv.1 hkv.2
    subst hk
    obtain ⟨c0, htick, _, hnf0⟩ := tick_noFault ctx hnf
    simp only [removeBalanceScan]
    split
    · simp only [htick, hn, SplitCompositeKey, balanceKey, List.get?]
      by_cases hcs : c = sender
      · simp only [hcs, if_true]
        exact ih _ c0 hnf0 hrest
      · simp only [hcs, if_false]
        obtain ⟨c2, hdel⟩ := delState_noFault c0 (.composite balancePrefix [sender, token, c]) hnf0
        have hnf2 := (delState_ok _ _ _ hdel).2 hnf0
        rw [hdel]
        exact ih _ c2 hnf2 hrest
    · exact ⟨vars, ctx, rfl⟩

theorem removeBalanceScan_le (sender : String) (needed : Int) :
    ∀ (it : StateQueryIterator) (vars : ScanState) (ctx : Stub) (vars1 : ScanState)
      (ctx1 : Stub),
      removeBalanceScan sender needed it vars ctx = (.returned (.ok vars1), ctx1) →
      (∀ kv ∈ it, 0 ≤ amountOf kv.2) →
      vars1.partialBalance ≤ vars.partialBalance + sumAmounts it := by
  intro it
  induction it with
  | nil =>
    intro vars ctx vars1 ctx1 h _
    simp only [removeBalanceScan, Prod.mk.injEq, Outcome.returned.injEq, Except.ok.injEq] at h
    obtain ⟨rfl, rfl⟩ := h
    simp [sumAmounts]
  | cons kv rest ih =>
    intro vars ctx vars1 ctx1 h hnn
    obtain ⟨k, v⟩ := kv
    have hrest := fun kv hm => hnn kv (List.mem_cons_of_mem _ hm)
    have hsum : sumAmounts ((k, v) :: rest) = amountOf v + sumAmounts rest := by
      simp [sumAmounts]
    have hsumnn : 0 ≤ sumAmounts rest := by
      unfold sumAmounts
      apply List.sum_nonneg
      intro x hx
      obtain ⟨kv, hkv, rfl⟩ := List.mem_map.mp hx
      exact hrest kv hkv
    have hv := hnn (k, v) (List.mem_cons_self _ _)
    simp only [removeBalanceScan] at h
    split at h
    · cases hc : ctx.tick with
      | mk f c0 =>
        rw [hc] at h
        cases f with
        | true => simp at h
        | false =>
          simp only at h
          split at h
          · cases h
          · rename_i n hn
            have hamt : amountOf v = n := amountOf_of_setString hn
            split at h
            · cases h
            · split at h
              · cases h
              · split at h
                · have := ih _ c0 vars1 ctx1 h hrest
                  simp only at this
                  rw [hsum, hamt]; linarith
                · split at h
                  · cases h
                  · rename_i c2 _
                    have := ih _ c2 vars1 ctx1 h hrest
                    simp only at this
                    rw [hsum, hamt]; linarith
    · simp only [Prod.mk.injEq, Outcome.returned.injEq, Except.ok.injEq] at h
      obtain ⟨rfl, rfl⟩ := h
      rw [hsum]
      simp only at hv
      linarith

theorem validAttribute_balancePrefix : validAttribute balancePrefix = true := by decide

theorem createCompositeKey_valid (account symbol contributor : String)
    (ha : validAttribute account = true) (hs : validAttribute symbol = true)
    (hc : validAttribute contributor = true) :
    CreateCompositeKey balancePrefix [account, symbol, contributor] =
      .ok (balanceKey account symbol contributor) := by
  simp [CreateCompositeKey, validAttribute_balancePrefix, ha, hs, hc, balanceKey]

theorem balanceKey_ne_empty (account symbol contributor : String) :
    balanceKey account symbol contributor ≠ .simple "" := by
  simp [balanceKey]

theorem setBalance_total (ctx : Stub) (sender recipient symbol : String) (n : Int)
    (hnf : NoFault ctx) (hs : validAttribute sender = true)
    (hr : validAttribute recipient = true) (ht : validAttribute symbol = true) :
    ∃ ctx1, setBalance ctx sender recipient symbol n = (.returned none, ctx1) := by
  unfold setBalance
  rw [createCompositeKey_valid _ _ _ hr ht hs]
  obtain ⟨c1, hp⟩ := putState_noFault ctx (balanceKey recipient symbol sender) (bigString n) hnf
    (balanceKey_ne_empty _ _ _)
  simp only [hp]
  exact ⟨c1, rfl⟩

theorem addBalance_total (ctx : Stub) (sender recipient symbol : String) (n : Int)
    (hwf : WellFormed ctx.state) (hnf : NoFault ctx) (hs : validAttribute sender = true)
    (hr : validAttribute recipient = true) (ht : validAttribute symbol = true) :
    ∃ m ctx1, addBalance ctx sender recipient symbol n = (.returned (m, none), ctx1) := by
  unfold addBalance
  rw [createCompositeKey_valid _ _ _ hr ht hs]
  obtain ⟨c0, htick, hst0, hnf0⟩ := tick_noFault ctx hnf
  simp only [GetState, htick]
  cases hl : lookup c0.state (balanceKey recipient symbol sender) with
  | none =>
    obtain ⟨c1, hp⟩ := putState_noFault c0 (balanceKey recipient symbol sender) (bigString n)
      hnf0 (balanceKey_ne_empty _ _ _)
    simp only [hp]
    exact ⟨_, _, rfl⟩
  | some v =>
    have hmem : (balanceKey recipient symbol sender, v) ∈ ctx.state := by
      rw [hst0] at hl
      exact (lookup_eq_some_iff _ hwf.1 _ _).mp hl
    obtain ⟨_, b, _, hb⟩ := @record_of_underPrefix recipient symbol _ _
      (hwf.2 _ hmem) (by rw [underPrefix_balanceKey]; simp)
    simp only [hb]
    obtain ⟨c1, hp⟩ := putState_noFault c0 (balanceKey recipient symbol sender)
      (bigString (b + n)) hnf0 (balanceKey_ne_empty _ _ _)
    simp only [hp]
    exact ⟨_, _, rfl⟩

/-! ## Single-symbol calls and the insufficient-funds exit -/

theorem removeBalance_single (ctx : Stub) (sender symbol : String) (n : Int) :
    removeBalance ctx sender [symbol] [n] = removeBalanceToken ctx sender symbol n := by
  simp only [removeBalance, necessaryFundsLoop, addNecessaryFunds, sortedKeys, List.map_cons,
    List.map_nil, List.insertionSort, List.orderedInsert, removeBalanceTokens, mapGet, if_true]
  rcases h : removeBalanceToken ctx sender symbol n with ⟨r, c⟩
  cases r with
  | panicked => rfl
  | returned e => cases e <;> rfl

theorem getStateByPartialCompositeKey_total (ctx : Stub) (account symbol : String)
    (hnf : NoFault ctx) (ha : validAttribute account = true)
    (hs : validAttribute symbol = true) :
    ∃ c1, GetStateByPartialCompositeKey ctx balancePrefix [account, symbol] =
        (.ok (recordsOf ctx.state account symbol), c1) ∧
      c1.state = ctx.state ∧ NoFault c1 := by
  obtain ⟨c0, htick, hst0, hnf0⟩ := tick_noFault ctx hnf
  refine ⟨c0, ?_, hst0, hnf0⟩
  simp [GetStateByPartialCompositeKey, CreateCompositeKey, validAttribute_balancePrefix, ha, hs,
    htick, hst0, recordsOf]

theorem sumAmounts_recordsOf (st : WorldState) (account symbol : String) :
    sumAmounts (recordsOf st account symbol) = balance st account symbol := rfl

theorem filter_deletedKeys (st : WorldState) (sender symbol : String) :
    st.filter (fun kv => decide (kv.1 ∉ deletedKeys sender (recordsOf st sender symbol))) =
      st.filter (fun kv =>
        !underPrefix balancePrefix [sender, symbol] kv.1 || selfKeyed sender kv.1) := by
  apply List.filter_congr
  intro kv hkv
  rw [Bool.eq_iff_iff]
  simp only [deletedKeys, recordsOf, List.mem_map, List.mem_filter, Bool.not_eq_true',
    decide_eq_true_eq, Bool.or_eq_true, not_exists, not_and, and_imp]
  constructor
  · intro h
    by_cases hp : underPrefix balancePrefix [sender, symbol] kv.1 = true
    · right
      by_contra hs
      exact h kv hkv hp (by simpa using hs) rfl
    · left; simpa using hp
  · intro h r _ hpr hsr heq
    rw [heq] at hpr hsr
    rcases h with h | h
    · rw [hpr] at h; cases h
    · rw [hsr] at h; cases h

theorem putState_error (ctx ctx1 : Stub) (k : Key) (v : String) (e : Error)
    (h : PutState ctx k v = (some e, ctx1)) : e = .stub := by
  unfold PutState at h
  split at h
  · simp only [Prod.mk.injEq, Option.some.injEq] at h
    exact h.1.symm
  · cases hc : ctx.tick with
    | mk f c =>
      rw [hc] at h
      cases f with
      | true =>
        simp only [Prod.mk.injEq, Option.some.injEq] at h
        exact h.1.symm
      | false => simp at h

theorem setBalance_error (ctx ctx1 : Stub) (sender recipient symbol : String) (n : Int)
    (e : Error) (h : setBalance ctx sender recipient symbol n = (.returned (some e), ctx1)) :
    e.isInsufficientFunds = false := by
  unfold setBalance at h
  split at h
  · simp only [Prod.mk.injEq, Outcome.returned.injEq, Option.some.injEq] at h
    rw [← h.1]; rfl
  · split at h
    · rename_i err c1 hp
      simp only [Prod.mk.injEq, Outcome.returned.injEq, Option.some.injEq] at h
      rw [← h.1, putState_error _ _ _ _ _ hp]; rfl
    · simp at h

theorem addBalance_error (ctx ctx1 : Stub) (sender recipient symbol : String) (n m : Int)
    (e : Error) (h : addBalance ctx sender recipient symbol n = (.returned (m, some e), ctx1)) :
    e.isInsufficientFunds = false := by
  unfold addBalance at h
  split at h
  · simp only [Prod.mk.injEq, Outcome.returned.injEq, Option.some.injEq] at h
    rw [← h.1.2]; rfl
  · split at h
    · simp only [Prod.mk.injEq, Outcome.returned.injEq, Option.some.injEq] at h
      rw [← h.1.2]; rfl
    · split at h
      · rename_i err c2 hp
        simp only [Prod.mk.injEq, Outcome.returned.injEq, Option.some.injEq] at h
        rw [← h.1.2, putState_error _ _ _ _ _ hp]; rfl
      · simp at h
    · split at h
      · cases h
      · split at h
        · rename_i err c2 hp
          simp only [Prod.mk.injEq, Outcome.returned.injEq, Option.some.injEq] at h
          rw [← h.1.2, putState_error _ _ _ _ _ hp]; rfl
        · simp at h

theorem removeBalanceScan_error (sender : String) (needed : Int) :
    ∀ (it : StateQueryIterator) (vars : ScanState) (ctx : Stub) (e : Error) (ctx1 : Stub),
      removeBalanceScan sender needed it vars ctx = (.returned (.error e), ctx1) →
      e.isInsufficientFunds = false := by
  intro it
  induction it with
  | nil => intro vars ctx e ctx1 h; simp [removeBalanceScan] at h
  | cons kv rest ih =>
    intro vars ctx e ctx1 h
    obtain ⟨k, v⟩ := kv
    simp only [removeBalanceScan] at h
    split at h
    · cases hc : ctx.tick with
      | mk f c0 =>
        rw [hc] at h
        cases f with
        | true =>
          simp only [Prod.mk.injEq, Outcome.returned.injEq, Except.error.injEq] at h
          rw [← h.1]; rfl
        | false =>
          simp only at h
          split at h
          · cases h
          · split at h
            · rename_i err hsplit
              simp only [Prod.mk.injEq, Outcome.returned.injEq, Except.error.injEq] at h
              rw [← h.1]
              cases k with
              | simple key =>
                simp only [SplitCompositeKey, Except.error.injEq] at hsplit
                rw [← hsplit]; rfl
              | composite ot parts => simp [SplitCompositeKey] at hsplit
            · split at h
              · cases h
              · split at h
                · exact ih _ _ _ _ h
                · split at h
                  · simp only [Prod.mk.injEq, Outcome.returned.injEq, Except.error.injEq] at h
                    rw [← h.1]; rfl
                  · exact ih _ _ _ _ h
    · simp at h

/-- The insufficient-funds exit of one token: the scan has read every record
of the prefix and deleted those not keyed by the sender, and nothing was written. -/
theorem removeBalanceToken_insufficient (ctx ctx1 : Stub) (sender token : String)
    (needed : Int) (e : Error)
    (h : removeBalanceToken ctx sender token needed = (.returned (some e), ctx1))
    (he : e.isInsufficientFunds = true) :
    e = .insufficientFunds token needed (balance ctx.state sender token) ∧
      balance ctx.state sender token < needed ∧
      ctx1.state = ctx.state.filter (fun kv =>
        !underPrefix balancePrefix [sender, token] kv.1 || selfKeyed sender kv.1) := by
  unfold removeBalanceToken at h
  split at h
  · simp only [Prod.mk.injEq, Outcome.returned.injEq, Option.some.injEq] at h
    rw [← h.1] at he; cases he
  · rename_i it c1 hopen
    obtain ⟨hst1, hit, _⟩ := getStateByPartialCompositeKey_ok _ _ _ _ _ hopen
    split at h
    · cases h
    · rename_i err c2 hscan
      simp only [Prod.mk.injEq, Outcome.returned.injEq, Option.some.injEq] at h
      rw [← h.1, removeBalanceScan_error _ _ _ _ _ _ _ hscan] at he
      cases he
    · rename_i vars c2 hscan
      split at h
      · rename_i hlt
        simp only [Prod.mk.injEq, Outcome.returned.injEq, Option.some.injEq] at h
        obtain ⟨rfl, rfl⟩ := h
        obtain ⟨h1, h2⟩ := removeBalanceScan_short _ _ _ _ _ _ _ hscan hlt
        have hit1 : it = recordsOf ctx.state sender token := hit
        simp only [bigZero, zero_add, hit1, sumAmounts_recordsOf] at h1
        rw [hit1, hst1, filter_deletedKeys] at h2
        rw [h1] at hlt
        exact ⟨by rw [h1], hlt, h2⟩
      · split at h
        · split at h
          · rw [setBalance_error _ _ _ _ _ _ _ h] at he; cases he
          · dsimp only at h
            split at h
            · cases h
            · rename_i m err c3 hadd
              simp only [Prod.mk.injEq, Outcome.returned.injEq] at h
              obtain ⟨rfl, rfl⟩ := h
              rw [addBalance_error _ _ _ _ _ _ _ _ hadd] at he; cases he
        · split at h
          · simp only [Prod.mk.injEq, Outcome.returned.injEq, Option.some.injEq] at h
            rw [← h.1] at he; cases he
          · simp at h

theorem recordsOf_spec (st : WorldState) (hwf : WellFormed st) (account symbol : String) :
    (∀ kv ∈ recordsOf st account symbol, kv ∈ st ∧
        underPrefix balancePrefix [account, symbol] kv.1 = true) ∧
      ((recordsOf st account symbol).map Prod.fst).Nodup ∧
      (∀ kv ∈ recordsOf st account symbol, wellFormedRecord kv = true ∧
        underPrefix balancePrefix [account, symbol] kv.1 = true) := by
  have h := scan_records st hwf (underPrefix balancePrefix [account, symbol])
  exact ⟨h.1, h.2, fun kv hkv => ⟨hwf.2 kv (h.1 kv hkv).1, (h.1 kv hkv).2⟩⟩

/-- Without store faults the scan of a well-formed store completes. -/
theorem removeBalanceToken_scan (ctx : Stub) (sender token : String) (needed : Int)
    (hwf : WellFormed ctx.state) (hnf : NoFault ctx) (hs : validAttribute sender = true)
    (ht : validAttribute token = true) :
    ∃ c1 vars c2,
      GetStateByPartialCompositeKey ctx balancePrefix [sender, token] =
        (.ok (recordsOf ctx.state sender token), c1) ∧
      removeBalanceScan sender needed (recordsOf ctx.state sender token)
        ⟨bigZero, false, .simple ""⟩ c1 = (.returned (.ok vars), c2) ∧
      WellFormed c2.state ∧ NoFault c2 := by
  obtain ⟨c1, hopen, hst1, hnf1⟩ := getStateByPartialCompositeKey_total ctx sender token hnf hs ht
  obtain ⟨hrec1, hrec2, hrec3⟩ := recordsOf_spec ctx.state hwf sender token
  obtain ⟨vars, c2, hscan⟩ := removeBalanceScan_total sender token needed _
    ⟨bigZero, false, .simple ""⟩ c1 hnf1 hrec3
  have hspec := removeBalanceScan_ok sender token needed _ _ c1 vars c2 hscan
    (by rw [hst1]; exact hwf) (by rw [hst1]; exact hrec1) hrec2 (by intro hf; cases hf)
  exact ⟨c1, vars, c2, hopen, hscan, hspec.wf, hspec.noFault hnf1⟩

theorem removeBalanceToken_total (ctx : Stub) (sender token : String) (needed : Int)
    (hwf : WellFormed ctx.state) (hnf : NoFault ctx) (hs : validAttribute sender = true)
    (ht : validAttribute token = true) (hle : needed ≤ balance ctx.state sender token) :
    ∃ ctx1, removeBalanceToken ctx sender token needed = (.returned none, ctx1) := by
  obtain ⟨c1, vars, c2, hopen, hscan, hwf2, hnf2⟩ :=
    removeBalanceToken_scan ctx sender token needed hwf hnf hs ht
  unfold removeBalanceToken
  simp only [hopen, hscan]
  have hge : ¬ vars.partialBalance < needed := by
    intro hlt
    obtain ⟨h1, _⟩ := removeBalanceScan_short _ _ _ _ _ _ _ hscan hlt
    simp only [bigZero, zero_add, sumAmounts_recordsOf] at h1
    omega
  rw [if_neg hge]
  split
  · split
    · exact setBalance_total c2 sender sender token _ hnf2 hs hs ht
    · obtain ⟨m, c3, hadd⟩ := addBalance_total c2 sender sender token
        (vars.partialBalance - needed) hwf2 hnf2 hs hs ht
      simp only [hadd]
      exact ⟨c3, rfl⟩
  · obtain ⟨c3, hdel⟩ := delState_noFault c2 vars.selfRecipientKey hnf2
    simp only [hdel]
    exact ⟨c3, rfl⟩

theorem removeBalanceToken_rejects (ctx : Stub) (sender token : String) (needed : Int)
    (hwf : WellFormed ctx.state) (hnf : NoFault ctx) (hs : validAttribute sender = true)
    (ht : validAttribute token = true)
    (hnn : ∀ kv ∈ recordsOf ctx.state sender token, 0 ≤ amountOf kv.2)
    (hlt : balance ctx.state sender token < needed) :
    ∃ ctx1, removeBalanceToken ctx sender token needed =
      (.returned (some (.insufficientFunds token needed (balance ctx.state sender token))),
        ctx1) := by
  obtain ⟨c1, vars, c2, hopen, hscan, _, _⟩ :=
    removeBalanceToken_scan ctx sender token needed hwf hnf hs ht
  have hle := removeBalanceScan_le _ _ _ _ _ _ _ hscan hnn
  simp only [bigZero, zero_add, sumAmounts_recordsOf] at hle
  have hlt1 : vars.partialBalance < needed := lt_of_le_of_lt hle hlt
  obtain ⟨h1, _⟩ := removeBalanceScan_short _ _ _ _ _ _ _ hscan hlt1
  simp only [bigZero, zero_add, sumAmounts_recordsOf] at h1
  unfold removeBalanceToken
  simp only [hopen, hscan]
  rw [if_pos hlt1, h1]
  exact ⟨c2, rfl⟩

/-! ## `balanceOfHelper` -/

theorem bigString_zero : bigString bigZero = "0" := by decide

theorem balanceOfHelperLoop_ok :
    ∀ (it : StateQueryIterator) (b : Int) (ctx : Stub) (text : String) (ctx1 : Stub),
      balanceOfHelperLoop it b ctx = (.returned (text, none), ctx1) →
      text = bigString (b + sumAmounts it) ∧ ctx1.state = ctx.state := by
  intro it
  induction it with
  | nil =>
    intro b ctx text ctx1 h
    simp only [balanceOfHelperLoop, Prod.mk.injEq, Outcome.returned.injEq, and_true] at h
    obtain ⟨rfl, rfl⟩ := h
    simp [sumAmounts]
  | cons kv rest ih =>
    intro b ctx text ctx1 h
    simp only [balanceOfHelperLoop] at h
    have ht := tick_spec ctx
    cases hc : ctx.tick with
    | mk f c0 =>
      rw [hc] at h ht
      cases f with
      | true => simp at h
      | false =>
        simp only at h ht
        split at h
        · cases h
        · rename_i n hn
          obtain ⟨h1, h2⟩ := ih _ _ _ _ h
          refine ⟨?_, by rw [h2, ht.1]⟩
          rw [h1]
          simp only [sumAmounts, List.map_cons, List.sum_cons, amountOf_of_setString hn]
          congr 1
          ring

theorem balanceOfHelperLoop_error :
    ∀ (it : StateQueryIterator) (b : Int) (ctx : Stub) (text : String) (e : Error)
      (ctx1 : Stub),
      balanceOfHelperLoop it b ctx = (.returned (text, some e), ctx1) →
      text = "0" ∧ e = .failedNext := by
  intro it
  induction it with
  | nil => intro b ctx text e ctx1 h; simp [balanceOfHelperLoop] at h
  | cons kv rest ih =>
    intro b ctx text e ctx1 h
    simp only [balanceOfHelperLoop] at h
    cases hc : ctx.tick with
    | mk f c0 =>
      rw [hc] at h
      cases f with
      | true =>
        simp only [Prod.mk.injEq, Outcome.returned.injEq, Option.some.injEq] at h
        exact ⟨by rw [← h.1.1, bigString_zero], h.1.2.symm⟩
      | false =>
        simp only at h
        split at h
        · cases h
        · exact ih _ _ _ _ _ h

theorem balanceOfHelperLoop_total :
    ∀ (it : StateQueryIterator) (b : Int) (ctx : Stub), NoFault ctx →
      (∀ kv ∈ it, (setString kv.2).isSome = true) →
      ∃ ctx1, balanceOfHelperLoop it b ctx =
        (.returned (bigString (b + sumAmounts it), none), ctx1) := by
  intro it
  induction it with
  | nil => intro b ctx _ _; exact ⟨ctx, by simp [balanceOfHelperLoop, sumAmounts]⟩
  | cons kv rest ih =>
    intro b ctx hnf hit
    obtain ⟨c0, htick, _, hnf0⟩ := tick_noFault ctx hnf
    obtain ⟨n, hn⟩ := Option.isSome_iff_exists.mp (hit kv (List.mem_cons_self _ _))
    obtain ⟨ctx1, h1⟩ := ih (b + n) c0 hnf0 (fun kv hm => hit kv (List.mem_cons_of_mem _ hm))
    refine ⟨ctx1, ?_⟩
    simp only [balanceOfHelperLoop, htick, hn, h1, sumAmounts, List.map_cons, List.sum_cons,
      amountOf_of_setString hn, add_assoc]

theorem tick_cons (ctx : Stub) (f : Bool) (fs : List Bool) (h : ctx.faults = f :: fs) :
    ctx.tick = (f, { ctx with faults := fs }) := by
  simp [Stub.tick, h]

/-- A fault at the step after `j` good steps stops the loop with the text "0". -/
theorem balanceOfHelperLoop_fault :
    ∀ (it : StateQueryIterator) (b : Int) (ctx : Stub) (j : Nat) (rest : List Bool),
      ctx.faults = List.replicate j false ++ true :: rest →
      j < it.length →
      (∀ kv ∈ it, (setString kv.2).isSome = true) →
      ∃ ctx1, balanceOfHelperLoop it b ctx = (.returned ("0", some .failedNext), ctx1) := by
  intro it
  induction it with
  | nil => intro b ctx j rest _ hj _; simp at hj
  | cons kv its ih =>
    intro b ctx j rest hf hj hit
    cases j with
    | zero =>
      simp only [List.replicate, List.nil_append] at hf
      simp only [balanceOfHelperLoop, tick_cons ctx _ _ hf, bigString_zero]
      exact ⟨_, rfl⟩
    | succ j =>
      simp only [List.replicate, List.cons_append] at hf
      obtain ⟨n, hn⟩ := Option.isSome_iff_exists.mp (hit kv (List.mem_cons_self _ _))
      simp only [balanceOfHelperLoop, tick_cons ctx _ _ hf, hn]
      exact ih _ _ j rest rfl (by simpa using hj)
        (fun kv hm => hit kv (List.mem_cons_of_mem _ hm))

theorem parses_recordsOf (st : WorldState) (hwf : WellFormed st) (account symbol : String) :
    ∀ kv ∈ recordsOf st account symbol, (setString kv.2).isSome = true := by
  intro kv hkv
  obtain ⟨_, _, h3⟩ := recordsOf_spec st hwf account symbol
  obtain ⟨_, n, _, hn⟩ := record_of_underPrefix (h3 kv hkv).1 (h3 kv hkv).2
  simp [hn]

theorem addBalance_balance (ctx ctx1 : Stub) (sender recipient symbol : String) (n m : Int)
    (h : addBalance ctx sender recipient symbol n = (.returned (m, none), ctx1)) (a t : String) :
    balance ctx1.state a t =
      balance ctx.state a t + (if a = recipient ∧ t = symbol then n else 0) := by
  obtain ⟨hst, _, _⟩ := addBalance_ok _ _ _ _ _ _ _ h
  simp only [balance]
  rw [hst, total_put, underPrefix_balanceKey, amountOf_bigString]
  by_cases hc : a = recipient ∧ t = symbol
  · simp only [hc, and_self, decide_True, if_true]; ring
  · simp only [hc, decide_False, Bool.false_eq_true, if_false]; ring

theorem total_filter (st : WorldState) (f : Key × String → Bool) (q : Key → Bool)
    (h : ∀ kv ∈ st, q kv.1 = true → f kv = true) : total (st.filter f) q = total st q := by
  unfold total
  rw [List.filter_filter]
  congr 2
  apply List.filter_congr
  intro kv hkv
  by_cases hq : q kv.1 = true
  · simp [hq, h kv hkv hq]
  · simp [hq]

theorem listedAmount_mem (symbols : List String) (amounts : List Int) (t : String)
    (h : listedAmount symbols amounts t ≠ 0) : t ∈ symbols := by
  induction symbols generalizing amounts with
  | nil => simp [listedAmount] at h
  | cons s symbols ih =>
    cases amounts with
    | nil => simp [listedAmount] at h
    | cons a amounts =>
      by_cases hs : s = t
      · simp [hs]
      · simp only [listedAmount, hs, if_false, zero_add] at h
        exact List.mem_cons_of_mem _ (ih amounts h)

theorem balance_filter_other (st : WorldState) (sender token a t : String)
    (hne : (a, t) ≠ (sender, token)) :
    balance (st.filter (fun kv =>
      !underPrefix balancePrefix [sender, token] kv.1 || selfKeyed sender kv.1)) a t =
      balance st a t := by
  unfold balance
  apply total_filter
  intro kv _ hq
  have : underPrefix balancePrefix [sender, token] kv.1 = false := by
    by_contra hp
    have hp1 : underPrefix balancePrefix [sender, token] kv.1 = true := by simpa using hp
    rw [underPrefix_disjoint hne _ hp1] at hq
    cases hq
  simp [this]

theorem necessaryFundsLoop_keys :
    ∀ (symbols : List String) (amounts : List Int) (m m1 : List (String × Int)),
      necessaryFundsLoop symbols amounts m = .returned m1 →
      ∀ t ∈ m1.map Prod.fst, t ∈ m.map Prod.fst ∨ t ∈ symbols := by
  intro symbols amounts
  induction amounts generalizing symbols with
  | nil =>
    intro m m1 h t ht
    have : m1 = m := by
      cases symbols <;> simp [necessaryFundsLoop] at h <;> exact h.symm
    subst this
    exact Or.inl ht
  | cons a amounts ih =>
    intro m m1 h t ht
    cases symbols with
    | nil => simp [necessaryFundsLoop] at h
    | cons s symbols =>
      simp only [necessaryFundsLoop] at h
      rcases ih symbols _ m1 h t ht with h1 | h1
      · rw [keys_addNecessaryFunds] at h1
        split at h1
        · exact Or.inl h1
        · rcases List.mem_append.mp h1 with h2 | h2
          · exact Or.inl h2
          · simp only [List.mem_singleton] at h2
            exact Or.inr (h2 ▸ List.mem_cons_self _ _)
      · exact Or.inr (List.mem_cons_of_mem _ h1)

theorem removeBalanceTokens_insufficient (sender : String) (m : List (String × Int)) :
    ∀ (keys : List String) (ctx ctx1 : Stub) (e : Error),
      removeBalanceTokens sender m keys ctx = (.returned (some e), ctx1) →
      e.isInsufficientFunds = true → WellFormed ctx.state →
      ∀ a t, (a ≠ sender ∨ t ∉ keys) → balance ctx1.state a t = balance ctx.state a t := by
  intro keys
  induction keys with
  | nil => intro ctx ctx1 e h; simp [removeBalanceTokens] at h
  | cons t0 rest ih =>
    intro ctx ctx1 e h he hwf a t hat
    have hne : (a, t) ≠ (sender, t0) := by
      intro heq
      simp only [Prod.mk.injEq] at heq
      rcases hat with h1 | h1
      · exact h1 heq.1
      · exact h1 (heq.2 ▸ List.mem_cons_self _ _)
    simp only [removeBalanceTokens] at h
    split at h
    · cases h
    · rename_i needed hget
      split at h
      · rename_i c1 htok
        have hspec := removeBalanceToken_ok _ _ _ _ _ hwf htok
        rw [ih c1 ctx1 e h he hspec.wf a t
          (hat.imp id (fun h1 hm => h1 (List.mem_cons_of_mem _ hm))), hspec.frame a t hne]
      · rename_i err c1 htok
        simp only [Prod.mk.injEq, Outcome.returned.injEq, Option.some.injEq] at h
        obtain ⟨rfl, rfl⟩ := h
        obtain ⟨_, _, hst⟩ := removeBalanceToken_insufficient _ _ _ _ _ _ htok he
        rw [hst, balance_filter_other _ _ _ _ _ hne]
      · cases h

/-- A withdrawal that succeeds over non-negative records was covered by the balance. -/
theorem removeBalanceToken_ok_le (ctx ctx1 : Stub) (sender token : String) (needed : Int)
    (h : removeBalanceToken ctx sender token needed = (.returned none, ctx1))
    (hnn : ∀ kv ∈ recordsOf ctx.state sender token, 0 ≤ amountOf kv.2) :
    needed ≤ balance ctx.state sender token := by
  unfold removeBalanceToken at h
  split at h
  · cases h
  · rename_i it c1 hopen
    obtain ⟨_, hit, _⟩ := getStateByPartialCompositeKey_ok _ _ _ _ _ hopen
    have hit1 : it = recordsOf ctx.state sender token := hit
    split at h
    · cases h
    · cases h
    · rename_i vars c2 hscan
      have hle := removeBalanceScan_le _ _ _ _ _ _ _ hscan (by rw [hit1]; exact hnn)
      simp only [bigZero, zero_add, hit1, sumAmounts_recordsOf] at hle
      split at h
      · cases h
      · rename_i hge
        have := not_lt.mp hge
        omega

/-! ## Properties of the balance ledger -/

/-- C1: on a well-formed store, whenever `removeBalance` returns without error
the sender's balance of every symbol (the sum of the records under the
`(sender, symbol)` prefix) equals its value before the call minus the sum of
the amounts listed for that symbol; symbols may repeat in the list. -/
theorem removeBalance_debits_listed (ctx ctx1 : Stub) (sender : String)
    (symbols : List String) (amounts : List Int) (hwf : WellFormed ctx.state)
    (h : removeBalance ctx sender symbols amounts = (.returned none, ctx1)) :
    ∀ symbol, balance ctx1.state sender symbol =
      balance ctx.state sender symbol - listedAmount symbols amounts symbol := by
  intro symbol
  unfold removeBalance at h
  split at h
  · cases h
  · rename_i m hm
    obtain ⟨hnd, hget⟩ := necessaryFundsLoop_ok symbols amounts [] m hm (by simp)
    have hperm := sortedKeys_perm m
    obtain ⟨_, hbal, _⟩ := removeBalanceTokens_ok sender m (sortedKeys m) ctx ctx1 h hwf
      (hperm.nodup_iff.mpr hnd)
    rw [hbal sender symbol]
    have hl := hget symbol
    simp only [mapGet, Option.getD_none, zero_add] at hl
    by_cases hmem : symbol ∈ sortedKeys m
    · simp [hmem, hl]
    · have hnone : mapGet m symbol = none :=
        (mapGet_eq_none_iff m symbol).mpr (fun hin => hmem (hperm.mem_iff.mpr hin))
      rw [hnone] at hl
      simp only [Option.getD_none] at hl
      simp [hmem, ← hl]

/-- Instance of C1 on the sample store: withdrawing GOLD 2, GEM 5 and GOLD 3
from alice lowers her GOLD balance from 17 to 12 and her GEM balance from 5 to 0. -/
theorem removeBalance_debits_listed_witness :
    WellFormed sampleStub.state ∧
      (removeBalance sampleStub "alice" ["GOLD", "GEM", "GOLD"] [2, 5, 3]).1 = .returned none ∧
      balance (removeBalance sampleStub "alice" ["GOLD", "GEM", "GOLD"] [2, 5, 3]).2.state
        "alice" "GOLD" = 17 - 5 ∧
      balance (removeBalance sampleStub "alice" ["GOLD", "GEM", "GOLD"] [2, 5, 3]).2.state
        "alice" "GEM" = 5 - 5 :=
  ⟨by decide, by decide,
    removeBalance_debits_listed sampleStub _ "alice" ["GOLD", "GEM", "GOLD"] [2, 5, 3]
      (by decide) (Prod.ext (by decide) rfl) "GOLD",
    removeBalance_debits_listed sampleStub _ "alice" ["GOLD", "GEM", "GOLD"] [2, 5, 3]
      (by decide) (Prod.ext (by decide) rfl) "GEM"⟩

/-- C2: on a well-formed store, a successful `removeBalance(sender, [symbol], [n])`
followed by a successful `addBalance(sender, recipient, symbol, n)` keeps the sum
of the balances for `symbol` over every set of accounts holding both parties,
moves `n` from the sender's balance to the recipient's when they differ, and
leaves the balance of every other `(account, symbol)` pair as it was. -/
theorem transfer_conserves (ctx ctx1 ctx2 : Stub) (sender recipient symbol : String)
    (n m : Int) (hwf : WellFormed ctx.state)
    (hrem : removeBalance ctx sender [symbol] [n] = (.returned none, ctx1))
    (hadd : addBalance ctx1 sender recipient symbol n = (.returned (m, none), ctx2)) :
    (∀ accounts : Finset String, sender ∈ accounts → recipient ∈ accounts →
      accounts.sum (fun a => balance ctx2.state a symbol) =
        accounts.sum (fun a => balance ctx.state a symbol)) ∧
    (sender ≠ recipient →
      balance ctx2.state sender symbol = balance ctx.state sender symbol - n ∧
      balance ctx2.state recipient symbol = balance ctx.state recipient symbol + n) ∧
    (∀ a t, (a, t) ≠ (sender, symbol) → (a, t) ≠ (recipient, symbol) →
      balance ctx2.state a t = balance ctx.state a t) := by
  rw [removeBalance_single] at hrem
  have hspec := removeBalanceToken_ok _ _ _ _ _ hwf hrem
  have hbal := addBalance_balance _ _ _ _ _ _ _ hadd
  have hall : ∀ a, balance ctx2.state a symbol =
      balance ctx.state a symbol - (if a = sender then n else 0)
        + (if a = recipient then n else 0) := by
    intro a
    rw [hbal a symbol]
    by_cases has : a = sender
    · subst has; rw [hspec.debit]; simp
    · rw [hspec.frame a symbol (by simpa using fun h => absurd h has)]; simp [has]
  refine ⟨?_, ?_, ?_⟩
  · intro accounts hs hr
    simp only [hall, Finset.sum_add_distrib, Finset.sum_sub_distrib,
      Finset.sum_ite_eq', hs, hr, if_true]
    ring
  · intro hne
    refine ⟨?_, ?_⟩
    · rw [hall sender]; simp [hne]
    · rw [hall recipient]; simp [Ne.symm hne]
  · intro a t h1 h2
    rw [hbal a t, hspec.frame a t h1]
    have : ¬ (a = recipient ∧ t = symbol) := fun h => h2 (by rw [h.1, h.2])
    simp [this]

/-- Instance of C2 on the sample store: alice sends 5 GOLD to bob. -/
theorem transfer_conserves_witness :
    balance (addBalance (removeBalance sampleStub "alice" ["GOLD"] [5]).2
        "alice" "bob" "GOLD" 5).2.state "alice" "GOLD" = 17 - 5 ∧
      balance (addBalance (removeBalance sampleStub "alice" ["GOLD"] [5]).2
        "alice" "bob" "GOLD" 5).2.state "bob" "GOLD" = 1 + 5 :=
  (transfer_conserves sampleStub _ _ "alice" "bob" "GOLD" 5 6 (by decide)
    (Prod.ext (by decide) rfl) (Prod.ext (by decide) rfl)).2.1 (by decide)

/-- C3: `removeBalance(sender, [symbol], [n])` returns the insufficient-funds
error only if the sender's balance for `symbol` is less than `n`, on every store
and under every fault plan.  Conversely, when all records under the
`(sender, symbol)` prefix hold non-negative amounts and the balance is less than
`n`, the call never succeeds, and on a well-formed store, with valid key
attributes and no store fault, it returns the insufficient-funds error. -/
theorem removeBalance_insufficient_funds (ctx : Stub) (sender symbol : String) (n : Int) :
    ((∃ e, (removeBalance ctx sender [symbol] [n]).1 = .returned (some e) ∧
        e.isInsufficientFunds = true) →
      balance ctx.state sender symbol < n) ∧
    ((∀ kv ∈ recordsOf ctx.state sender symbol, 0 ≤ amountOf kv.2) →
      balance ctx.state sender symbol < n →
      (removeBalance ctx sender [symbol] [n]).1 ≠ .returned none ∧
      (WellFormed ctx.state → NoFault ctx →
        validAttribute sender = true → validAttribute symbol = true →
        (removeBalance ctx sender [symbol] [n]).1 =
          .returned (some (.insufficientFunds symbol n (balance ctx.state sender symbol))))) := by
  rw [removeBalance_single]
  refine ⟨?_, ?_⟩
  · rintro ⟨e, h, he⟩
    exact (removeBalanceToken_insufficient ctx _ sender symbol n e (Prod.ext h rfl) he).2.1
  · intro hnn hlt
    refine ⟨?_, ?_⟩
    · intro h
      have := removeBalanceToken_ok_le ctx _ sender symbol n (Prod.ext h rfl) hnn
      omega
    · intro hwf hnf hs ht
      obtain ⟨ctx1, h⟩ := removeBalanceToken_rejects ctx sender symbol n hwf hnf hs ht hnn hlt
      rw [h]

/-- Instance of C3 on the sample store: alice holds 17 GOLD, so asking for 18
is rejected for insufficient funds. -/
theorem removeBalance_insufficient_funds_witness :
    (removeBalance sampleStub "alice" ["GOLD"] [18]).1 =
      .returned (some (.insufficientFunds "GOLD" 18 17)) :=
  ((removeBalance_insufficient_funds sampleStub "alice" "GOLD" 18).2 (by decide) (by decide)).2
    (by decide) (by decide) (by decide) (by decide)

/-- C4, as the code has it: when `removeBalance` returns the insufficient-funds
error on a well-formed store, every record outside the sender's prefixes for the
listed symbols is untouched, so the balance of every other account, and of the
sender for every symbol not listed, is unchanged.  For a call with one symbol
nothing has been written, the balance was below the amount, and the store is
the old one without the records of the `(sender, symbol)` prefix that are not
keyed by the sender: these have been deleted before the rejection. -/
theorem removeBalance_insufficient_effect (ctx ctx1 : Stub) (sender : String)
    (symbols : List String) (amounts : List Int) (e : Error) (hwf : WellFormed ctx.state)
    (h : removeBalance ctx sender symbols amounts = (.returned (some e), ctx1))
    (he : e.isInsufficientFunds = true) :
    (∀ a t, (a ≠ sender ∨ t ∉ symbols) → balance ctx1.state a t = balance ctx.state a t) ∧
    (∀ symbol n, symbols = [symbol] → amounts = [n] →
      balance ctx.state sender symbol < n ∧
      ctx1.state = ctx.state.filter (fun kv =>
        !underPrefix balancePrefix [sender, symbol] kv.1 || selfKeyed sender kv.1)) := by
  refine ⟨?_, ?_⟩
  · intro a t hat
    unfold removeBalance at h
    split at h
    · cases h
    · rename_i m hm
      have hkeys := necessaryFundsLoop_keys symbols amounts [] m hm
      refine removeBalanceTokens_insufficient sender m (sortedKeys m) ctx ctx1 e h he hwf a t
        (hat.imp id (fun h1 hmem => h1 ?_))
      rcases hkeys t ((sortedKeys_perm m).mem_iff.mp hmem) with h2 | h2
      · simp at h2
      · exact h2
  · rintro symbol n rfl rfl
    rw [removeBalance_single] at h
    exact (removeBalanceToken_insufficient _ _ _ _ _ _ h he).2

/-- Instance of the amended C4 on the sample store: the rejected request for 18
GOLD leaves bob's balance alone. -/
theorem removeBalance_insufficient_effect_witness :
    balance (removeBalance sampleStub "alice" ["GOLD"] [18]).2.state "bob" "GOLD" =
      balance sampleStub.state "bob" "GOLD" :=
  (removeBalance_insufficient_effect sampleStub _ "alice" ["GOLD"] [18]
    (.insufficientFunds "GOLD" 18 17) (by decide) (Prod.ext (by decide) rfl) rfl).1
    "bob" "GOLD" (Or.inl (by decide))

/-- C4 fails as stated: alice holds 17 GOLD; the request for 18 returns the
insufficient-funds error after the records credited by bob and carol have been
deleted, so the store differs from the one before the call and alice's GOLD
balance reads 4. -/
theorem removeBalance_insufficient_deletes :
    (removeBalance sampleStub "alice" ["GOLD"] [18]).1 =
        .returned (some (.insufficientFunds "GOLD" 18 17)) ∧
      (removeBalance sampleStub "alice" ["GOLD"] [18]).2.state ≠ sampleStub.state ∧
      balance sampleStub.state "alice" "GOLD" = 17 ∧
      balance (removeBalance sampleStub "alice" ["GOLD"] [18]).2.state "alice" "GOLD" = 4 := by
  decide

/-- C5: when `addBalance(sender, recipient, symbol, n)` returns without error,
the recipient's balance for `symbol` is its previous balance plus `n`, the
record keyed `(recipient, symbol, sender)` holds the text of its previous amount
plus `n` (an existing amount is accumulated), and no other record changes. -/
theorem addBalance_credits (ctx ctx1 : Stub) (sender recipient symbol : String) (n m : Int)
    (h : addBalance ctx sender recipient symbol n = (.returned (m, none), ctx1)) :
    balance ctx1.state recipient symbol = balance ctx.state recipient symbol + n ∧
    lookup ctx1.state (balanceKey recipient symbol sender) =
      some (bigString (amountAt ctx.state (balanceKey recipient symbol sender) + n)) ∧
    (∀ k, k ≠ balanceKey recipient symbol sender →
      lookup ctx1.state k = lookup ctx.state k) := by
  obtain ⟨hst, _, _⟩ := addBalance_ok _ _ _ _ _ _ _ h
  refine ⟨?_, ?_, ?_⟩
  · rw [addBalance_balance _ _ _ _ _ _ _ h]; simp
  · rw [hst, lookup_put_self]
  · intro k hk
    rw [hst, lookup_put_ne _ _ _ _ hk]

/-- Instance of C5 on the sample store: bob already holds 1 GOLD credited by
alice; crediting 5 more leaves the text 6 under the same key. -/
theorem addBalance_credits_witness :
    lookup (addBalance sampleStub "alice" "bob" "GOLD" 5).2.state
      (balanceKey "bob" "GOLD" "alice") = some "6" :=
  (addBalance_credits sampleStub _ "alice" "bob" "GOLD" 5 6 (Prod.ext (by decide) rfl)).2.1

/-- C6: on a well-formed store, without store faults and with valid key
attributes, for every amount `n` not exceeding the balance of `A` for `symbol`,
`removeBalance(A, [symbol], [n])` succeeds, the following
`addBalance(A, A, symbol, n)` succeeds, and the balance of `A` for `symbol` is
then exactly what it was before the two calls. -/
theorem self_credit_restores (ctx : Stub) (A symbol : String) (n : Int)
    (hwf : WellFormed ctx.state) (hnf : NoFault ctx)
    (hA : validAttribute A = true) (hs : validAttribute symbol = true)
    (hle : n ≤ balance ctx.state A symbol) :
    ∃ ctx1 ctx2 m,
      removeBalance ctx A [symbol] [n] = (.returned none, ctx1) ∧
      addBalance ctx1 A A symbol n = (.returned (m, none), ctx2) ∧
      balance ctx2.state A symbol = balance ctx.state A symbol := by
  obtain ⟨ctx1, hrem⟩ := removeBalanceToken_total ctx A symbol n hwf hnf hA hs hle
  have hspec := removeBalanceToken_ok _ _ _ _ _ hwf hrem
  obtain ⟨m, ctx2, hadd⟩ := addBalance_total ctx1 A A symbol n hspec.wf (hspec.noFault hnf)
    hA hA hs
  refine ⟨ctx1, ctx2, m, by rw [removeBalance_single, hrem], hadd, ?_⟩
  rw [addBalance_balance _ _ _ _ _ _ _ hadd, hspec.debit]
  simp

/-- Instance of C6 on the sample store: alice withdraws 5 GOLD and credits them
back to herself. -/
theorem self_credit_restores_witness :
    ∃ ctx1 ctx2 m,
      removeBalance sampleStub "alice" ["GOLD"] [5] = (.returned none, ctx1) ∧
      addBalance ctx1 "alice" "alice" "GOLD" 5 = (.returned (m, none), ctx2) ∧
      balance ctx2.state "alice" "GOLD" = balance sampleStub.state "alice" "GOLD" :=
  self_credit_restores sampleStub "alice" "GOLD" 5 (by decide) (by decide) (by decide)
    (by decide) (by decide)

/-- C7, as the code has it: `TransferFrom` with the sender as recipient returns
the error `NTRA001` ("Transfer to self") with no response, whatever the symbol,
the amount, the caller and the store, and leaves the transaction context, hence
every balance, exactly as it was. -/
theorem TransferFrom_self_rejected (ext : Externals) (ctx : Stub)
    (A symbol amount : String) :
    TransferFrom ext ctx A A symbol amount =
      (.returned (none, some (generateError 400 "NTRA001")), ctx) := by
  simp [TransferFrom]

/-- C7 fails as stated: alice holds 17 GOLD, the token GOLD exists, she is the
caller and the native-coin balance read for her (10^18) covers the fee (10^15);
the same transfer to bob succeeds, yet `TransferFrom(alice, alice, GOLD, "5")`
returns the error `NTRA001` instead of success. -/
theorem TransferFrom_self_not_success :
    5 ≤ balance tokenStub.state "alice" "GOLD" ∧
      (lookup tokenStub.state
        (.simple (generateTokenAddress sampleExternals "GOLD"))).isSome = true ∧
      (sampleExternals.getDefaultWalletAddress tokenStub "alice").1 = .ok "alice" ∧
      (sampleExternals.getBalanceHelper tokenStub "alice" "BUSY").1 =
        some 1000000000000000000 ∧
      (sampleExternals.getCurrentTxFee tokenStub).1 = "1000000000000000" ∧
      (TransferFrom sampleExternals tokenStub "alice" "bob" "GOLD" "5").1 =
        .returned (some ⟨"tx3", true,
          "Request to transfer tokens has been successfully accepted",
          some (.transferSingle ⟨"alice", "alice", "bob", "GOLD", "6",
            "B-0xtoken-meta-GOLD"⟩)⟩, none) ∧
      (TransferFrom sampleExternals tokenStub "alice" "alice" "GOLD" "5").1 =
        .returned (none, some (.generated 400 "NTRA001")) :=
  ⟨by decide, by decide, rfl, rfl, rfl, by decide, by decide⟩

/-- The sum on stores that fit the data model: every error-free return of
`balanceOfHelper` carries the base-10 text
of the exact sum of the amounts of all records under the `(account, symbol)`
prefix and leaves the store alone; for an account other than "0x" on a
well-formed store, with valid key attributes and no store fault, the call does
return that text without error; and the text is "0" when the prefix holds no
record. -/
theorem balanceOfHelper_sum (ctx : Stub) (account symbol : String) :
    (∀ text ctx1, balanceOfHelper ctx account symbol = (.returned (text, none), ctx1) →
      text = bigString (balance ctx.state account symbol) ∧ ctx1.state = ctx.state) ∧
    (account ≠ "0x" → WellFormed ctx.state → NoFault ctx →
      validAttribute account = true → validAttribute symbol = true →
      ∃ ctx1, balanceOfHelper ctx account symbol =
        (.returned (bigString (balance ctx.state account symbol), none), ctx1)) ∧
    (recordsOf ctx.state account symbol = [] →
      bigString (balance ctx.state account symbol) = "0") := by
  refine ⟨?_, ?_, ?_⟩
  · intro text ctx1 h
    unfold balanceOfHelper at h
    split at h
    · simp at h
    · split at h
      · simp at h
      · rename_i it c1 hopen
        obtain ⟨hst1, hit, _⟩ := getStateByPartialCompositeKey_ok _ _ _ _ _ hopen
        obtain ⟨h1, h2⟩ := balanceOfHelperLoop_ok _ _ _ _ _ h
        have hit1 : it = recordsOf ctx.state account symbol := hit
        rw [hit1, sumAmounts_recordsOf] at h1
        simp only [bigZero, zero_add] at h1
        exact ⟨h1, by rw [h2, hst1]⟩
  · intro ha hwf hnf hva hvs
    obtain ⟨c1, hopen, hst1, hnf1⟩ :=
      getStateByPartialCompositeKey_total ctx account symbol hnf hva hvs
    obtain ⟨ctx1, hloop⟩ := balanceOfHelperLoop_total (recordsOf ctx.state account symbol)
      bigZero c1 hnf1 (parses_recordsOf ctx.state hwf account symbol)
    refine ⟨ctx1, ?_⟩
    unfold balanceOfHelper
    rw [if_neg ha]
    simp only [hopen]
    rw [hloop, sumAmounts_recordsOf]
    simp [bigZero]
  · intro hempty
    have : balance ctx.state account symbol = 0 := by
      rw [← sumAmounts_recordsOf, hempty]; rfl
    rw [this]
    decide

/-- Instance on the sample store: alice's GOLD balance reads "17". -/
theorem balanceOfHelper_sum_witness :
    ∃ ctx1, balanceOfHelper sampleStub "alice" "GOLD" = (.returned ("17", none), ctx1) :=
  (balanceOfHelper_sum sampleStub "alice" "GOLD").2.1 (by decide) (by decide) (by decide)
    (by decide) (by decide)

/-- C9: `balanceOfHelper` called with the zero address "0x" returns the text
"0" together with the zero-address error, for every symbol and every
transaction context, without touching the context. -/
theorem balanceOfHelper_zero_address (ctx : Stub) (symbol : String) :
    balanceOfHelper ctx "0x" symbol = (.returned ("0", some .zeroAddressQuery), ctx) := by
  simp [balanceOfHelper, bigString_zero]

/-- C10: every return of `balanceOfHelper` with an error carries the text "0",
never a partial sum; and on a well-formed store, for an account other than "0x"
and valid key attributes, a fault at the opening of the scan (`i = 0`) or at the
`i`-th iterator step after `i - 1` good ones makes the call return the text "0"
with an error. -/
theorem balanceOfHelper_fault (ctx : Stub) (account symbol : String) :
    (∀ text e ctx1, balanceOfHelper ctx account symbol = (.returned (text, some e), ctx1) →
      text = "0") ∧
    (account ≠ "0x" → WellFormed ctx.state →
      validAttribute account = true → validAttribute symbol = true →
      ∀ (i : Nat) (rest : List Bool),
        ctx.faults = List.replicate i false ++ true :: rest →
        i ≤ (recordsOf ctx.state account symbol).length →
        ∃ ctx1, balanceOfHelper ctx account symbol =
          (.returned ("0", some (if i = 0 then .failedGetState else .failedNext)), ctx1)) := by
  refine ⟨?_, ?_⟩
  · intro text e ctx1 h
    unfold balanceOfHelper at h
    split at h
    · simp only [Prod.mk.injEq, Outcome.returned.injEq, Option.some.injEq] at h
      rw [← h.1.1, bigString_zero]
    · split at h
      · simp only [Prod.mk.injEq, Outcome.returned.injEq, Option.some.injEq] at h
        rw [← h.1.1, bigString_zero]
      · exact (balanceOfHelperLoop_error _ _ _ _ _ _ h).1
  · intro ha hwf hva hvs i rest hf hi
    unfold balanceOfHelper
    rw [if_neg ha]
    have hkey : CreateCompositeKey balancePrefix [account, symbol] =
        .ok (.composite balancePrefix [account, symbol]) := by
      simp [CreateCompositeKey, validAttribute_balancePrefix, hva, hvs]
    cases i with
    | zero =>
      simp only [List.replicate, List.nil_append] at hf
      simp only [GetStateByPartialCompositeKey, hkey, tick_cons ctx _ _ hf, bigString_zero,
        if_true]
      exact ⟨_, rfl⟩
    | succ j =>
      simp only [List.replicate, List.cons_append] at hf
      simp only [GetStateByPartialCompositeKey, hkey, tick_cons ctx _ _ hf,
        Nat.add_one_ne_zero, if_false]
      exact balanceOfHelperLoop_fault _ bigZero _ j rest rfl (by exact hi)
        (parses_recordsOf ctx.state hwf account symbol)

/-- Instance of C10 on the sample store: with a fault planned for the second
iterator step, alice's GOLD balance reads "0" with an error although the first
record read holds 4. -/
theorem balanceOfHelper_fault_witness :
    ∃ ctx1, balanceOfHelper faultyStub "alice" "GOLD" =
      (.returned ("0", some .failedNext), ctx1) :=
  (balanceOfHelper_fault faultyStub "alice" "GOLD").2 (by decide) (by decide) (by decide)
    (by decide) 2 [] rfl (by decide)

/-! ## Order of the scan -/

theorem tick_nil (ctx : Stub) (h : ctx.faults = []) : ctx.tick = (false, ctx) := by
  simp [Stub.tick, h]

/-- A loop that returns without error has read only decimal text and has met
no fault in the steps it took. -/
theorem balanceOfHelperLoop_ok_inv :
    ∀ (it : StateQueryIterator) (b : Int) (ctx : Stub) (text : String) (ctx1 : Stub),
      balanceOfHelperLoop it b ctx = (.returned (text, none), ctx1) →
      (∀ kv ∈ it, (setString kv.2).isSome = true) ∧
        (∀ f ∈ ctx.faults.take it.length, f = false) := by
  intro it
  induction it with
  | nil => intro b ctx text ctx1 _; simp
  | cons kv rest ih =>
    intro b ctx text ctx1 h
    simp only [balanceOfHelperLoop] at h
    cases hf : ctx.faults with
    | nil =>
      rw [tick_nil ctx hf] at h
      simp only at h
      split at h
      · cases h
      · rename_i n hn
        obtain ⟨h1, _⟩ := ih _ _ _ _ h
        refine ⟨?_, by simp⟩
        intro x hx
        rcases List.mem_cons.mp hx with rfl | hx
        · simp [hn]
        · exact h1 x hx
    | cons f fs =>
      rw [tick_cons ctx f fs hf] at h
      cases f with
      | true => simp at h
      | false =>
        simp only at h
        split at h
        · cases h
        · rename_i n hn
          obtain ⟨h1, h2⟩ := ih _ _ _ _ h
          refine ⟨?_, ?_⟩
          · intro x hx
            rcases List.mem_cons.mp hx with rfl | hx
            · simp [hn]
            · exact h1 x hx
          · intro g hg
            simp only [List.length_cons, List.take_succ_cons, List.mem_cons] at hg
            rcases hg with rfl | hg
            · rfl
            · exact h2 g hg

/-- Decimal text throughout and no fault in as many steps as there are records
make the loop return the text of the full sum. -/
theorem balanceOfHelperLoop_complete :
    ∀ (it : StateQueryIterator) (b : Int) (ctx : Stub),
      (∀ kv ∈ it, (setString kv.2).isSome = true) →
      (∀ f ∈ ctx.faults.take it.length, f = false) →
      ∃ ctx1, balanceOfHelperLoop it b ctx =
        (.returned (bigString (b + sumAmounts it), none), ctx1) := by
  intro it
  induction it with
  | nil => intro b ctx _ _; exact ⟨ctx, by simp [balanceOfHelperLoop, sumAmounts]⟩
  | cons kv rest ih =>
    intro b ctx hit hfl
    obtain ⟨n, hn⟩ := Option.isSome_iff_exists.mp (hit kv (List.mem_cons_self _ _))
    have hrest := fun kv hm => hit kv (List.mem_cons_of_mem _ hm)
    have hsum : b + sumAmounts (kv :: rest) = b + n + sumAmounts rest := by
      simp only [sumAmounts, List.map_cons, List.sum_cons, amountOf_of_setString hn]
      ring
    cases hf : ctx.faults with
    | nil =>
      obtain ⟨ctx1, h1⟩ := ih (b + n) ctx hrest (by simp [hf])
      exact ⟨ctx1, by simp only [balanceOfHelperLoop, tick_nil ctx hf, hn, h1, hsum]⟩
    | cons f fs =>
      have hff : f = false := hfl f (by simp [hf])
      subst hff
      obtain ⟨ctx1, h1⟩ := ih (b + n) { ctx with faults := fs } hrest (by
        intro g hg
        exact hfl g (by simp [hf, hg]))
      exact ⟨ctx1, by simp only [balanceOfHelperLoop, tick_cons ctx _ _ hf, hn, h1, hsum]⟩

theorem sumAmounts_perm {it1 it2 : List (Key × String)} (h : it1.Perm it2) :
    sumAmounts it1 = sumAmounts it2 :=
  (h.map _).sum_eq

theorem balance_perm {st1 st2 : WorldState} (h : st1.Perm st2) (account symbol : String) :
    balance st1 account symbol = balance st2 account symbol :=
  sumAmounts_perm (h.filter _)

/-- The loop of `balanceOfHelper` returns the same text for every order of the
same records under the same fault plan. -/
theorem balanceOfHelperLoop_perm (it1 it2 : StateQueryIterator) (b : Int) (ctx1 ctx2 : Stub)
    (hperm : it1.Perm it2) (hf : ctx1.faults = ctx2.faults) (text : String) (c1 : Stub)
    (h : balanceOfHelperLoop it1 b ctx1 = (.returned (text, none), c1)) :
    ∃ c2, balanceOfHelperLoop it2 b ctx2 = (.returned (text, none), c2) := by
  obtain ⟨hp, hfl⟩ := balanceOfHelperLoop_ok_inv _ _ _ _ _ h
  obtain ⟨htext, _⟩ := balanceOfHelperLoop_ok _ _ _ _ _ h
  obtain ⟨c2, h2⟩ := balanceOfHelperLoop_complete it2 b ctx2
    (fun kv hkv => hp kv (hperm.mem_iff.mpr hkv))
    (by rw [← hf, ← hperm.length_eq]; exact hfl)
  exact ⟨c2, by rw [h2, htext, sumAmounts_perm hperm]⟩

theorem getStateByPartialCompositeKey_congr (ctx1 ctx2 k1 : Stub) (objectType : String)
    (attributes : List String) (it1 : StateQueryIterator)
    (hf : ctx1.faults = ctx2.faults)
    (h : GetStateByPartialCompositeKey ctx1 objectType attributes = (.ok it1, k1)) :
    ∃ k2, GetStateByPartialCompositeKey ctx2 objectType attributes =
        (.ok (ctx2.state.filter (fun kv => underPrefix objectType attributes kv.1)), k2) ∧
      k1.faults = k2.faults ∧
      it1 = ctx1.state.filter (fun kv => underPrefix objectType attributes kv.1) := by
  unfold GetStateByPartialCompositeKey at h ⊢
  split at h
  · cases h
  · cases hfl : ctx1.faults with
    | nil =>
      rw [tick_nil ctx1 hfl] at h
      rw [tick_nil ctx2 (hf ▸ hfl)]
      simp only [Prod.mk.injEq, Except.ok.injEq] at h
      obtain ⟨rfl, rfl⟩ := h
      exact ⟨ctx2, rfl, hf, rfl⟩
    | cons f fs =>
      rw [tick_cons ctx1 f fs hfl] at h
      rw [tick_cons ctx2 f fs (hf ▸ hfl)]
      cases f with
      | true => simp at h
      | false =>
        simp only [Prod.mk.injEq, Except.ok.injEq] at h
        obtain ⟨rfl, rfl⟩ := h
        exact ⟨_, rfl, rfl, rfl⟩

theorem balanceOfHelper_returns (ctx : Stub) (account symbol : String) (h0x : account ≠ "0x")
    (hwf : WellFormed ctx.state) (hnf : NoFault ctx) (ha : validAttribute account = true)
    (hs : validAttribute symbol = true) :
    ∃ ctx1, balanceOfHelper ctx account symbol =
      (.returned (bigString (balance ctx.state account symbol), none), ctx1) := by
  obtain ⟨k1, hopen, _, hnfk⟩ := getStateByPartialCompositeKey_total ctx account symbol hnf ha hs
  obtain ⟨c1, hloop⟩ := balanceOfHelperLoop_total (recordsOf ctx.state account symbol) bigZero k1
    hnfk (parses_recordsOf ctx.state hwf account symbol)
  refine ⟨c1, ?_⟩
  unfold balanceOfHelper
  rw [if_neg h0x]
  simp only [hopen]
  rw [hloop, sumAmounts_recordsOf]
  simp [bigZero]

/-- C11: two transaction contexts that hold the same records in different scan
orders, under the same fault plan, have the same balance for every
`(account, symbol)`; whenever `balanceOfHelper` returns a text without error in
one order it returns the same text without error in the other; and on a
well-formed store without faults it does return, in both orders, the text of
that one balance. -/
theorem balanceOfHelper_order_independent (ctx1 ctx2 : Stub) (account symbol : String)
    (hperm : ctx1.state.Perm ctx2.state) (hf : ctx1.faults = ctx2.faults) :
    balance ctx1.state account symbol = balance ctx2.state account symbol ∧
    (∀ text c1, balanceOfHelper ctx1 account symbol = (.returned (text, none), c1) →
      ∃ c2, balanceOfHelper ctx2 account symbol = (.returned (text, none), c2)) ∧
    (account ≠ "0x" → WellFormed ctx1.state → NoFault ctx1 →
      validAttribute account = true → validAttribute symbol = true →
      ∃ c1 c2,
        balanceOfHelper ctx1 account symbol =
          (.returned (bigString (balance ctx1.state account symbol), none), c1) ∧
        balanceOfHelper ctx2 account symbol =
          (.returned (bigString (balance ctx1.state account symbol), none), c2)) := by
  have hsame : ∀ text c1, balanceOfHelper ctx1 account symbol = (.returned (text, none), c1) →
      ∃ c2, balanceOfHelper ctx2 account symbol = (.returned (text, none), c2) := by
    intro text c1 h
    unfold balanceOfHelper at h ⊢
    split at h
    · simp at h
    · rename_i ha
      rw [if_neg ha]
      split at h
      · simp at h
      · rename_i it1 k1 hopen
        obtain ⟨k2, hopen2, hfk, hit1⟩ :=
          getStateByPartialCompositeKey_congr ctx1 ctx2 k1 _ _ it1 hf hopen
        simp only [hopen2]
        rw [hit1] at h
        exact balanceOfHelperLoop_perm _ _ _ _ _ (hperm.filter _) hfk text c1 h
  refine ⟨balance_perm hperm account symbol, hsame, ?_⟩
  intro h0x hwf hnf ha hs
  obtain ⟨c1, h1⟩ := balanceOfHelper_returns ctx1 account symbol h0x hwf hnf ha hs
  obtain ⟨c2, h2⟩ := hsame _ _ h1
  exact ⟨c1, c2, h1, h2⟩

/-- Instance of C11 on the sample store: read in the opposite order, alice's
GOLD balance is the same text "17". -/
theorem balanceOfHelper_order_independent_witness :
    ∃ c2, balanceOfHelper reversedStub "alice" "GOLD" = (.returned ("17", none), c2) :=
  (balanceOfHelper_order_independent sampleStub reversedStub "alice" "GOLD"
    (List.reverse_perm _).symm rfl).2.1 "17" _ (Prod.ext (by decide) rfl)

/-! ## Text written and read back -/

theorem mem_of_lookup {st : WorldState} {k : Key} {v : String} (h : lookup st k = some v) :
    (k, v) ∈ st := by
  induction st with
  | nil => simp [lookup] at h
  | cons kv rest ih =>
    obtain ⟨k0, v0⟩ := kv
    by_cases h0 : k0 = k
    · subst h0
      simp only [lookup, if_true, Option.some.injEq] at h
      subst h
      exact List.mem_cons_self _ _
    · simp only [lookup, h0, if_false] at h
      exact List.mem_cons_of_mem _ (ih h)

theorem lookup_of_empty_prefix {st : WorldState} {account symbol : String}
    (hempty : recordsOf st account symbol = []) (contributor : String) :
    lookup st (balanceKey account symbol contributor) = none := by
  cases hl : lookup st (balanceKey account symbol contributor) with
  | none => rfl
  | some v =>
    have hmem : (balanceKey account symbol contributor, v) ∈ recordsOf st account symbol := by
      unfold recordsOf
      rw [List.mem_filter]
      exact ⟨mem_of_lookup hl, by rw [underPrefix_balanceKey]; simp⟩
    rw [hempty] at hmem
    cases hmem

/-- C12: starting from a store with no record under the `(recipient, symbol)`
prefix, without store faults and with valid key attributes, for every integer
`n` the call `addBalance(sender, recipient, symbol, n)` succeeds and stores the
canonical base-10 text of `n`, that text reads back as `n`, and a following
`balanceOfHelper(recipient, symbol)` returns exactly the same text. -/
theorem addBalance_text_roundtrip (ctx : Stub) (sender recipient symbol : String) (n : Int)
    (hempty : recordsOf ctx.state recipient symbol = []) (hnf : NoFault ctx)
    (hs : validAttribute sender = true) (hr : validAttribute recipient = true)
    (ht : validAttribute symbol = true) (h0x : recipient ≠ "0x") :
    ∃ c1 c2, addBalance ctx sender recipient symbol n = (.returned (n, none), c1) ∧
      lookup c1.state (balanceKey recipient symbol sender) = some (bigString n) ∧
      setString (bigString n) = some n ∧
      balanceOfHelper c1 recipient symbol = (.returned (bigString n, none), c2) := by
  have hnone := lookup_of_empty_prefix hempty sender
  obtain ⟨c0, htick, hst0, hnf0⟩ := tick_noFault ctx hnf
  obtain ⟨c1, hp⟩ := putState_noFault c0 (balanceKey recipient symbol sender) (bigString n)
    hnf0 (balanceKey_ne_empty _ _ _)
  have hadd : addBalance ctx sender recipient symbol n = (.returned (n, none), c1) := by
    unfold addBalance
    rw [createCompositeKey_valid _ _ _ hr ht hs]
    simp only [GetState, htick, hst0, hnone, hp]
  obtain ⟨hst1, _, hnf1⟩ := addBalance_ok _ _ _ _ _ _ _ hadd
  have hat : amountAt ctx.state (balanceKey recipient symbol sender) = 0 := by
    simp [amountAt, hnone]
  rw [hat, zero_add] at hst1
  have hbal : balance c1.state recipient symbol = n := by
    rw [addBalance_balance _ _ _ _ _ _ _ hadd, ← sumAmounts_recordsOf, hempty]
    simp [sumAmounts]
  obtain ⟨k1, hopen, _, hnfk⟩ :=
    getStateByPartialCompositeKey_total c1 recipient symbol (hnf1 hnf) hr ht
  have hparse : ∀ kv ∈ recordsOf c1.state recipient symbol, (setString kv.2).isSome = true := by
    intro kv hkv
    unfold recordsOf at hkv
    rw [List.mem_filter, hst1] at hkv
    rcases mem_put _ _ _ _ hkv.1 with h1 | h1
    · have : kv ∈ recordsOf ctx.state recipient symbol := by
        unfold recordsOf
        rw [List.mem_filter]
        exact ⟨h1, hkv.2⟩
      rw [hempty] at this
      cases this
    · rw [h1]
      simp [setString_bigString]
  obtain ⟨c2, hloop⟩ := balanceOfHelperLoop_total (recordsOf c1.state recipient symbol)
    bigZero k1 hnfk hparse
  refine ⟨c1, c2, hadd, by rw [hst1, lookup_put_self], setString_bigString n, ?_⟩
  unfold balanceOfHelper
  rw [if_neg h0x]
  simp only [hopen]
  rw [hloop, sumAmounts_recordsOf, hbal]
  simp [bigZero]

/-- Instance of C12 on the sample store: carol holds no GOLD; crediting her
255000000000000000000000000 stores that very text and the balance query
returns it. -/
theorem addBalance_text_roundtrip_witness :
    bigString 255000000000000000000000000 = "255000000000000000000000000" ∧
    ∃ c1 c2,
      addBalance sampleStub "alice" "carol" "GOLD" 255000000000000000000000000 =
        (.returned (255000000000000000000000000, none), c1) ∧
      lookup c1.state (balanceKey "carol" "GOLD" "alice") =
        some (bigString 255000000000000000000000000) ∧
      setString (bigString 255000000000000000000000000) = some 255000000000000000000000000 ∧
      balanceOfHelper c1 "carol" "GOLD" =
        (.returned (bigString 255000000000000000000000000, none), c2) :=
  ⟨by decide, addBalance_text_roundtrip sampleStub "alice" "carol" "GOLD"
    255000000000000000000000000 (by decide) (by decide) (by decide) (by decide) (by decide)
    (by decide)⟩

/-! ## Validation of amounts at the entry points -/

/-- C13 does not hold of the code: `TransferFrom` rejects only the amount zero.
On the sample store, where alice holds 17 GOLD and bob 1 GOLD, the call
`TransferFrom(alice, bob, GOLD, "-5")` succeeds, writes records, lowers the
balance of the recipient bob from 1 to -4 and raises that of the sender alice
from 17 to 22; with the malformed amount "abc" the call panics on the nil
amount instead of returning a validation error. -/
theorem TransferFrom_negative_amount_succeeds :
    (TransferFrom sampleExternals tokenStub "alice" "bob" "GOLD" "-5").1 =
        .returned (some ⟨"tx3", true,
          "Request to transfer tokens has been successfully accepted",
          some (.transferSingle ⟨"alice", "alice", "bob", "GOLD", "-4",
            "B-0xtoken-meta-GOLD"⟩)⟩, none) ∧
      (TransferFrom sampleExternals tokenStub "alice" "bob" "GOLD" "-5").2.state ≠
        tokenStub.state ∧
      balance tokenStub.state "bob" "GOLD" = 1 ∧
      balance (TransferFrom sampleExternals tokenStub "alice" "bob" "GOLD" "-5").2.state
        "bob" "GOLD" = -4 ∧
      balance tokenStub.state "alice" "GOLD" = 17 ∧
      balance (TransferFrom sampleExternals tokenStub "alice" "bob" "GOLD" "-5").2.state
        "alice" "GOLD" = 22 ∧
      (TransferFrom sampleExternals tokenStub "alice" "bob" "GOLD" "abc").1 = .panicked := by
  decide

/-- C14 does not hold of the code: `Transfer` recognises the amount zero by the
text "0" alone.  On the sample store "0" is rejected with TRA001, "abc" with
TRA007 and "-3" with TRA008, yet for "00", "+0" and "-0" the call goes on to
`transferHelper` with the amount 0, burns the fee and reports success. -/
theorem Transfer_zero_amount_accepted :
    (Transfer sampleExternals busyStub "bob" "0" "BUSY") =
        failWith ⟨"tx6", false, "", none⟩ "Zero amount can not be transferred" 412 "TRA001"
          busyStub ∧
      (Transfer sampleExternals busyStub "bob" "abc" "BUSY") =
        failWith ⟨"tx6", false, "", none⟩ "Amount is invalid" 412 "TRA007" busyStub ∧
      (Transfer sampleExternals busyStub "bob" "-3" "BUSY") =
        failWith ⟨"tx6", false, "", none⟩ "Transfer amount is invalid" 412 "TRA008" busyStub ∧
      setString "00" = some 0 ∧
      (Transfer sampleExternals busyStub "bob" "00" "BUSY").1 =
        .returned (some ⟨"tx6", true, "Transfer has been successfully accepted", none⟩, none) ∧
      (Transfer sampleExternals busyStub "bob" "00" "BUSY").2.calls =
        [.transferHelper "alice" "bob" 0 "BUSY" (some 1000),
         .addTotalSupplyUTXO "BUSY" (some (-1000))] ∧
      (Transfer sampleExternals busyStub "bob" "+0" "BUSY").2.calls =
        [.transferHelper "alice" "bob" 0 "BUSY" (some 1000),
         .addTotalSupplyUTXO "BUSY" (some (-1000))] ∧
      (Transfer sampleExternals busyStub "bob" "-0" "BUSY").2.calls =
        [.transferHelper "alice" "bob" 0 "BUSY" (some 1000),
         .addTotalSupplyUTXO "BUSY" (some (-1000))] := by
  decide

/-- C15 does not hold of the code: `IssueToken` rejects an amount that does not
parse (TOK003) and the amount zero (TOK004) and nothing else.  On the sample
store the call with the amount "-7" succeeds: the token record is written with
the total supply "-7", and the supply of SLV and the wallet of the issuer both
receive -7. -/
theorem IssueToken_negative_supply_issued :
    (IssueToken sampleExternals busyStub "Silver" "SLV" "abc" 2 busy20MetaData) =
        failWith ⟨"tx6", false, "", none⟩ "Error encountered converting amount" 412 "TOK003"
          busyStub ∧
      (IssueToken sampleExternals busyStub "Silver" "SLV" "0" 2 busy20MetaData) =
        failWith ⟨"tx6", false, "", none⟩ "Amount can not be zero" 412 "TOK004" busyStub ∧
      (IssueToken sampleExternals busyStub "Silver" "SLV" "-7" 2 busy20MetaData).1 =
        .returned (some ⟨"tx6", true, "Token has been successfully issued",
          some (.token ⟨"token", 1, "Silver", "SLV", "alice", "-7", 2, busy20MetaData,
            "token~SLV"⟩)⟩, none) ∧
      lookup (IssueToken sampleExternals busyStub "Silver" "SLV" "-7" 2 busy20MetaData).2.state
          (.simple (sampleExternals.generateTokenStateAddress "SLV")) =
        some (sampleExternals.marshalToken ⟨"token", 1, "Silver", "SLV", "alice", "-7", 2,
          busy20MetaData, "token~SLV"⟩) ∧
      (IssueToken sampleExternals busyStub "Silver" "SLV" "-7" 2 busy20MetaData).2.calls =
        [.addTotalSupplyUTXO "SLV" (some (-7)), .addUTXO "alice" (some (-7)) "SLV",
         .addUTXO "alice" (some (-1000)) "BUSY", .addTotalSupplyUTXO "BUSY" (some (-1000))] := by
  decide

/-! ## Order of checks and writes -/

/-- C16 does not hold of the code: `MintBatch` compares the balance with the
fee after its loops.  On the sample store with an issue fee of 2 * 10^18 and a
native-coin balance of 10^18 the call fails with MIN015, and by then it has
written the token record of SLV, raised the supply of SLV by 40 and credited 40
SLV to alice; `Mint` on the same input fails with MIN015 and leaves the
context as it was. -/
theorem MintBatch_writes_before_fee_check :
    (MintBatch sampleExternals costlyStub "alice" ["SLV"] ["40"] ⟨[sampleMetaData]⟩).1 =
        .returned (some ⟨"tx5", false,
          "User does not have the enough balance to mint enw tokens", none⟩,
          some (generateError 402 "MIN015")) ∧
      lookup costlyStub.state (.simple (generateTokenAddress sampleExternals "SLV")) = none ∧
      (lookup (MintBatch sampleExternals costlyStub "alice" ["SLV"] ["40"]
          ⟨[sampleMetaData]⟩).2.state
        (.simple (generateTokenAddress sampleExternals "SLV"))).isSome = true ∧
      (MintBatch sampleExternals costlyStub "alice" ["SLV"] ["40"] ⟨[sampleMetaData]⟩).2.calls =
        [.addUTXO TOTAL_SUPPLY_KEY_NFT (some 40) "SLV"] ∧
      lookup costlyStub.state (balanceKey "alice" "SLV" "alice") = none ∧
      lookup (MintBatch sampleExternals costlyStub "alice" ["SLV"] ["40"]
          ⟨[sampleMetaData]⟩).2.state (balanceKey "alice" "SLV" "alice") = some "40" ∧
      Mint sampleExternals costlyStub "alice" "SLV" "40" sampleMetaData =
        failWith ⟨"tx5", false, "", none⟩
          "User does not have the enough balance to mint new tokens" 402 "MIN015"
          costlyStub := by
  decide

/-- C17 does not hold of the code: `Burn` compares the balance with the amount
alone.  With a native-coin balance of 10^18 and a fee of 10^15 the burn of the
whole balance succeeds once `burnTxFee`, which the given sources do not
define, returns no error: the wallet is debited by 10^18, the fee is charged
on top, and the supply goes down by 10^18 + 10^15, more than the wallet
held. -/
theorem Burn_ignores_fee_in_balance_check :
    (sampleExternals.getBalanceHelper busyStub "alice" "BUSY").1 = some 1000000000000000000 ∧
      (sampleExternals.getCurrentTxFee busyStub).1 = "1000000000000000" ∧
      (Burn sampleExternals busyStub "alice" "1000000000000000000" "BUSY").1 =
        .returned (some ⟨"tx6", true, "Burn has been successful", none⟩, none) ∧
      (Burn sampleExternals busyStub "alice" "1000000000000000000" "BUSY").2.calls =
        [.addUTXO "alice" (some (-1000000000000000000)) "BUSY", .burnTxFee "alice" "BUSY",
         .addTotalSupplyUTXO "BUSY" (some (-1001000000000000000))] ∧
      (Burn sampleExternals busyStub "alice" "1000000000000000001" "BUSY").1 =
        .returned (some ⟨"tx6", false, "There is not enough balance in the wallet", none⟩,
          some (generateError 402 "BURN009")) := by
  decide

/-- C20 does not hold of the code: `burnCoins` lowers the supply of the token it
is given and debits the account in the native coin.  For the token GOLD, and
whatever the encoding of the record, the supply of GOLD goes down by 10 while
the record written is a debit of 10 BUSY under the key of BUSY; no record of
GOLD is written for the account. -/
theorem burnCoins_debits_native_coin (marshal : UTXO → String) :
    (burnCoins { sampleExternals with marshalUTXO := marshal } sampleStub "alice" "10"
        "GOLD").1 = .returned none ∧
      (burnCoins { sampleExternals with marshalUTXO := marshal } sampleStub "alice" "10"
        "GOLD").2.calls = [.addTotalSupplyUTXO "GOLD" (some (-10))] ∧
      (burnCoins { sampleExternals with marshalUTXO := marshal } sampleStub "alice" "10"
        "GOLD").2.state =
        sampleStub.state ++
          [(.simple "voting~tx1~alice~BUSY", marshal ⟨"utxo", "alice", "-10", "BUSY"⟩)] := by
  refine ⟨rfl, rfl, rfl⟩

/-! ## What the steps of an entry point leave alone -/

theorem isBalanceKey_of_underPrefix {attributes : List String} {k : Key}
    (h : underPrefix balancePrefix attributes k = true) : isBalanceKey k = true := by
  cases k with
  | simple key => simp [underPrefix] at h
  | composite objectType parts =>
    simp only [underPrefix, Bool.and_eq_true, decide_eq_true_eq] at h
    simp [isBalanceKey, h.1]

theorem balance_balanceRecords (st : WorldState) (a t : String) :
    balance (balanceRecords st) a t = balance st a t :=
  total_filter st _ _ (fun _ _ h => isBalanceKey_of_underPrefix h)

theorem balance_congr {st st1 : WorldState} (h : balanceRecords st1 = balanceRecords st)
    (a t : String) : balance st1 a t = balance st a t := by
  rw [← balance_balanceRecords st1, h, balance_balanceRecords]

theorem lookup_balanceRecords (st : WorldState) (k : Key) (hk : isBalanceKey k = true) :
    lookup (balanceRecords st) k = lookup st k := by
  induction st with
  | nil => rfl
  | cons kv rest ih =>
    obtain ⟨k0, v0⟩ := kv
    unfold balanceRecords at ih ⊢
    by_cases h0 : k0 = k
    · subst h0
      simp [List.filter_cons, hk, lookup]
    · by_cases hb : isBalanceKey k0 = true
      · simp [List.filter_cons, hb, lookup, h0, ih]
      · simp [List.filter_cons, hb, lookup, h0, ih]

theorem lookup_congr {st st1 : WorldState} (h : balanceRecords st1 = balanceRecords st)
    (account symbol contributor : String) :
    lookup st1 (balanceKey account symbol contributor) =
      lookup st (balanceKey account symbol contributor) := by
  have hk : isBalanceKey (balanceKey account symbol contributor) = true := by
    simp [isBalanceKey, balanceKey]
  rw [← lookup_balanceRecords st1 _ hk, h, lookup_balanceRecords st _ hk]

theorem recordsOf_congr {st st1 : WorldState} (h : balanceRecords st1 = balanceRecords st)
    (a t : String) : recordsOf st1 a t = recordsOf st a t := by
  have key : ∀ s : WorldState, recordsOf s a t = recordsOf (balanceRecords s) a t := by
    intro s
    unfold recordsOf balanceRecords
    rw [List.filter_filter]
    apply List.filter_congr
    intro kv _
    cases hu : underPrefix balancePrefix [a, t] kv.1 with
    | false => simp
    | true => simp [isBalanceKey_of_underPrefix hu]
  rw [key st1, h, ← key st]

theorem balanceRecords_put_other (st : WorldState) (k : Key) (v : String)
    (hk : isBalanceKey k = false) : balanceRecords (put st k v) = balanceRecords st := by
  induction st with
  | nil => simp [put, balanceRecords, hk]
  | cons kv rest ih =>
    obtain ⟨k0, v0⟩ := kv
    unfold balanceRecords at ih ⊢
    by_cases h0 : k0 = k
    · subst h0
      simp [put, List.filter_cons, hk]
    · simp only [put, h0, if_false, List.filter_cons, ih]

theorem wellFormed_put_simple {st : WorldState} (h : WellFormed st) (key v : String) :
    WellFormed (put st (.simple key) v) :=
  h.put _ _ (by simp [wellFormedRecord])

theorem tick_calls (ctx : Stub) : ctx.tick.2.calls = ctx.calls := by
  unfold Stub.tick
  split <;> rfl

theorem untouched_refl (ext : Externals) (ctx : Stub) : Untouched ext ctx ctx :=
  ⟨⟨rfl, fun _ => rfl, fun h => h⟩, rfl⟩

theorem sameRecords_trans {ext : Externals} {c0 c1 c2 : Stub} (h1 : SameRecords ext c0 c1)
    (h2 : SameRecords ext c1 c2) : SameRecords ext c0 c2 :=
  ⟨h2.balances.trans h1.balances, fun s => (h2.tokens s).trans (h1.tokens s),
    fun h => h2.wellFormed (h1.wellFormed h)⟩

theorem untouched_trans {ext : Externals} {c0 c1 c2 : Stub} (h1 : Untouched ext c0 c1)
    (h2 : Untouched ext c1 c2) : Untouched ext c0 c2 :=
  ⟨sameRecords_trans h1.toSameRecords h2.toSameRecords, h2.calls.trans h1.calls⟩

theorem untouched_of_state {ext : Externals} {ctx ctx1 : Stub} (hs : ctx1.state = ctx.state)
    (hc : ctx1.calls = ctx.calls) : Untouched ext ctx ctx1 :=
  ⟨⟨by rw [hs], fun _ => by rw [hs], fun h => by rw [hs]; exact h⟩, hc⟩

theorem untouched_tick (ext : Externals) (ctx : Stub) : Untouched ext ctx ctx.tick.2 :=
  untouched_of_state (tick_spec ctx).1 (tick_calls ctx)

theorem untouched_GetState (ext : Externals) (ctx : Stub) (k : Key) :
    Untouched ext ctx (GetState ctx k).2 := by
  have h : (GetState ctx k).2 = ctx.tick.2 := by
    unfold GetState
    split <;> simp_all
  rw [h]
  exact untouched_tick ext ctx

theorem untouched_SetEvent (ext : Externals) (ctx : Stub) (name : String)
    (payload : EventPayload) : Untouched ext ctx (SetEvent ctx name payload).2 := by
  unfold SetEvent
  split
  · exact untouched_refl ext ctx
  · exact untouched_of_state rfl rfl

theorem untouched_getTokenIssueFee (ext : Externals) (ctx : Stub) (tokenType : String) :
    Untouched ext ctx (getTokenIssueFeeForTokenType ext ctx tokenType).2 := by
  have h : (getTokenIssueFeeForTokenType ext ctx tokenType).2 =
      (GetState ctx (.simple "TokenIssueFees")).2 := by
    unfold getTokenIssueFeeForTokenType
    split
    · simp_all
    · simp_all
    · rename_i bytes c1 hg
      simp only [hg]
      split
      · rfl
      · split_ifs <;> rfl
  rw [h]
  exact untouched_GetState ext ctx _

theorem putState_calls (ctx ctx1 : Stub) (k : Key) (v : String) (err : Option Error)
    (h : PutState ctx k v = (err, ctx1)) : ctx1.calls = ctx.calls := by
  unfold PutState at h
  split at h
  · simp only [Prod.mk.injEq] at h
    rw [← h.2]
  · have ht := tick_calls ctx
    split at h <;> rename_i c hc <;> rw [hc] at ht <;> simp only [Prod.mk.injEq] at h <;>
      rw [← h.2] <;> exact ht

theorem addUTXO_ok (ext : Externals) (hext : ext.Framed) (ctx ctx1 : Stub)
    (address token : String) (amount : Option Int) (err : Option Error)
    (h : addUTXO ext ctx address amount token = (err, ctx1)) :
    SameRecords ext ctx ctx1 ∧ ctx1.calls = ctx.calls ++ [.addUTXO address amount token] := by
  have hu := hext.addUTXO ctx address amount token
  unfold addUTXO at h
  simp only [Prod.mk.injEq] at h
  rw [← h.2]
  exact ⟨⟨hu.balances, hu.tokens, hu.wellFormed⟩, by simp [hu.calls]⟩

theorem addTotalSupplyUTXO_ok (ext : Externals) (hext : ext.Framed) (ctx ctx1 : Stub)
    (token : String) (amount : Option Int) (err : Option Error)
    (h : addTotalSupplyUTXO ext ctx token amount = (err, ctx1)) :
    SameRecords ext ctx ctx1 ∧
      ctx1.calls = ctx.calls ++ [.addTotalSupplyUTXO token amount] := by
  have hu := hext.addTotalSupplyUTXO ctx token amount
  unfold addTotalSupplyUTXO at h
  simp only [Prod.mk.injEq] at h
  rw [← h.2]
  exact ⟨⟨hu.balances, hu.tokens, hu.wellFormed⟩, by simp [hu.calls]⟩

theorem addTotalSupplyTokensUTXO_ok (ext : Externals) (hext : ext.Framed) (ctx ctx1 : Stub)
    (tokenSymbol : String) (amount : Option Int) (err : Option Error)
    (h : addTotalSupplyTokensUTXO ext ctx tokenSymbol amount = (err, ctx1)) :
    SameRecords ext ctx ctx1 ∧
      ctx1.calls = ctx.calls ++ [.addUTXO TOTAL_SUPPLY_KEY_NFT amount tokenSymbol] := by
  unfold addTotalSupplyTokensUTXO at h
  split at h <;> rename_i e c hc <;> simp only [Prod.mk.injEq] at h <;> rw [← h.2] <;>
    exact addUTXO_ok ext hext _ _ _ _ _ _ hc

theorem txFeeHelper_ok (ext : Externals) (hext : ext.Framed) (ctx ctx1 : Stub)
    (address token txType : String) (fee : Int)
    (h : txFeeHelper ext ctx address token (bigString fee) txType = (.returned none, ctx1)) :
    balanceRecords ctx1.state = balanceRecords ctx.state ∧
      (WellFormed ctx.state → WellFormed ctx1.state) ∧
      ctx1.calls = ctx.calls ++ [.addTotalSupplyUTXO token (some (-1 * fee))] := by
  unfold txFeeHelper at h
  rw [setString_bigString] at h
  simp only at h
  split at h
  · cases h
  · rename_i c1 hc
    obtain ⟨hs, hcalls⟩ := addTotalSupplyUTXO_ok ext hext _ _ _ _ _ hc
    split at h
    · cases h
    · rename_i c2 hp
      simp only [Prod.mk.injEq, true_and] at h
      subst h
      obtain ⟨hst, _⟩ := putState_ok _ _ _ _ hp
      refine ⟨?_, ?_, ?_⟩
      · rw [hst, balanceRecords_put_other _ (.simple _) _ rfl, hs.balances]
      · intro hwf
        rw [hst]
        exact wellFormed_put_simple (hs.wellFormed hwf) _ _
      · rw [putState_calls _ _ _ _ _ hp, hcalls]

theorem getState_calls (ctx : Stub) (k : Key) : (GetState ctx k).2.calls = ctx.calls := by
  have h : (GetState ctx k).2 = ctx.tick.2 := by
    unfold GetState
    split <;> simp_all
  rw [h, tick_calls]

theorem delState_calls (ctx : Stub) (k : Key) : (DelState ctx k).2.calls = ctx.calls := by
  have ht := tick_calls ctx
  unfold DelState
  split <;> rename_i c hc <;> rw [hc] at ht <;> exact ht

theorem scanOpen_calls (ctx : Stub) (objectType : String) (attributes : List String) :
    (GetStateByPartialCompositeKey ctx objectType attributes).2.calls = ctx.calls := by
  have ht := tick_calls ctx
  unfold GetStateByPartialCompositeKey
  split
  · rfl
  · split <;> rename_i c hc <;> rw [hc] at ht <;> exact ht

theorem addBalance_calls (ctx : Stub) (sender recipient symbol : String) (n : Int) :
    (addBalance ctx sender recipient symbol n).2.calls = ctx.calls := by
  unfold addBalance
  split
  · rfl
  · rename_i bk _
    have hg := getState_calls ctx bk
    split <;> rename_i c1 hc1 <;> rw [hc1] at hg <;> simp only at hg
    · exact hg
    · split <;> rename_i c2 hc2 <;>
        exact (putState_calls _ _ _ _ _ hc2).trans hg
    · split
      · exact hg
      · split <;> rename_i c2 hc2 <;>
          exact (putState_calls _ _ _ _ _ hc2).trans hg

theorem setBalance_calls (ctx : Stub) (sender recipient symbol : String) (n : Int) :
    (setBalance ctx sender recipient symbol n).2.calls = ctx.calls := by
  unfold setBalance
  split
  · rfl
  · split <;> rename_i c1 hc1 <;> exact putState_calls _ _ _ _ _ hc1

theorem removeBalanceScan_calls (sender : String) (needed : Int) :
    ∀ (it : StateQueryIterator) (vars : ScanState) (ctx : Stub),
      (removeBalanceScan sender needed it vars ctx).2.calls = ctx.calls := by
  intro it
  induction it with
  | nil => intro vars ctx; rfl
  | cons qr rest ih =>
    intro vars ctx
    have ht := tick_calls ctx
    unfold removeBalanceScan
    split
    · split <;> rename_i c1 hc1 <;> rw [hc1] at ht <;> simp only at ht
      · exact ht
      · split
        · exact ht
        · dsimp only
          split
          · exact ht
          · split
            · exact ht
            · split
              · rw [ih]; exact ht
              · have hd := delState_calls c1 qr.1
                split <;> rename_i c2 hc2 <;> rw [hc2] at hd <;> simp only at hd
                · exact hd.trans ht
                · rw [ih]; exact hd.trans ht
    · rfl

theorem removeBalanceToken_calls (ctx : Stub) (sender tokenId : String) (needed : Int) :
    (removeBalanceToken ctx sender tokenId needed).2.calls = ctx.calls := by
  have ho := scanOpen_calls ctx balancePrefix [sender, tokenId]
  unfold removeBalanceToken
  split <;> rename_i c1 hc1 <;> rw [hc1] at ho <;> simp only at ho
  · exact ho
  · rename_i it
    have hs := removeBalanceScan_calls sender needed it ⟨bigZero, false, .simple ""⟩ c1
    split <;> rename_i c2 hc2 <;> rw [hc2] at hs <;> simp only at hs
    · exact hs.trans ho
    · exact hs.trans ho
    · split
      · exact hs.trans ho
      · split
        · dsimp only
          split
          · rw [setBalance_calls]; exact hs.trans ho
          · rename_i vars _ _ _
            have ha := addBalance_calls c2 sender sender tokenId
              (vars.partialBalance - needed)
            split <;> rename_i c3 hc3 <;> rw [hc3] at ha <;> simp only at ha <;>
              exact ha.trans (hs.trans ho)
        · rename_i vars _ _
          have hd := delState_calls c2 vars.selfRecipientKey
          split <;> rename_i c3 hc3 <;> rw [hc3] at hd <;> simp only at hd <;>
            exact hd.trans (hs.trans ho)

theorem removeBalanceTokens_calls (sender : String) (m : List (String × Int)) :
    ∀ (keys : List String) (ctx : Stub),
      (removeBalanceTokens sender m keys ctx).2.calls = ctx.calls := by
  intro keys
  induction keys with
  | nil => intro ctx; rfl
  | cons t rest ih =>
    intro ctx
    unfold removeBalanceTokens
    split
    · rfl
    · rename_i needed _
      have hr := removeBalanceToken_calls ctx sender t needed
      split <;> rename_i c1 hc1 <;> rw [hc1] at hr <;> simp only at hr
      · rw [ih]; exact hr
      · exact hr
      · exact hr

theorem removeBalance_calls (ctx : Stub) (sender : String) (symbols : List String)
    (amounts : List Int) : (removeBalance ctx sender symbols amounts).2.calls = ctx.calls := by
  unfold removeBalance
  split
  · rfl
  · exact removeBalanceTokens_calls _ _ _ _

/-! ## Minting a new token -/

theorem mintHelperPtr_ok (ctx ctx1 : Stub) (operator account symbol : String) (v : Int)
    (p : Option Int)
    (h : mintHelperPtr ctx operator account symbol (some v) = (.returned (p, none), ctx1)) :
    ∃ m, p = some m ∧ addBalance ctx operator account symbol v = (.returned (m, none), ctx1) := by
  unfold mintHelperPtr mintHelper at h
  by_cases h0 : account = "0x"
  · simp [h0] at h
  · simp only [if_neg h0] at h
    split at h
    · cases h
    · rename_i m err c hadd
      simp only [Prod.mk.injEq, Outcome.returned.injEq] at h
      obtain ⟨⟨hp, herr⟩, hc⟩ := h
      subst herr hc
      exact ⟨m, hp.symm, hadd⟩

theorem setEvent_ok (ctx ctx1 : Stub) (name : String) (payload : EventPayload)
    (err : Option Error) (h : SetEvent ctx name payload = (err, ctx1)) :
    ctx1.state = ctx.state ∧ ctx1.calls = ctx.calls := by
  unfold SetEvent at h
  split at h <;> simp only [Prod.mk.injEq] at h <;> rw [← h.2] <;> exact ⟨rfl, rfl⟩

theorem mintSettle_ok (ext : Externals) (hext : ext.Framed) (ctx final : Stub)
    (response r : Response) (operator account symbol totalSupply tokenAddress : String)
    (metadata : TokenMetaData) (mintFee v : Int) (hv : setString totalSupply = some v)
    (hnone : lookup ctx.state (balanceKey account symbol operator) = none)
    (hta : tokenAddress = generateTokenAddress ext symbol)
    (h : mintSettle ext ctx response operator account symbol totalSupply tokenAddress metadata
      mintFee = (.returned (some r, none), final)) :
    (∀ a t, balance final.state a t =
      balance ctx.state a t + (if a = account ∧ t = symbol then v else 0)) ∧
    final.calls = ctx.calls ++
      [.addTotalSupplyUTXO ext.BUSY_COIN_SYMBOL (some (-1 * mintFee)),
       .addUTXO TOTAL_SUPPLY_KEY_NFT (some v) symbol] ∧
    lookup final.state (.simple tokenAddress) =
      some (ext.marshalTokensInfo ⟨account, ext.Now, tokenAddress, metadata, bigString v,
        symbol⟩) ∧
    r.Data = some (.transferSingle ⟨operator, "0x", account, symbol, bigString v,
      tokenAddress⟩) := by
  unfold mintSettle at h
  split at h
  · cases h
  · simp [failWith] at h
  · rename_i c1 hfee
    obtain ⟨hb1, _, hcalls1⟩ := txFeeHelper_ok ext hext _ _ _ _ _ _ hfee
    split at h
    · cases h
    · simp [failWith] at h
    · rename_i p c2 hmint
      rw [hv] at hmint
      obtain ⟨m, hp, hadd⟩ := mintHelperPtr_ok _ _ _ _ _ _ _ hmint
      subst hp
      obtain ⟨_, hm, _⟩ := addBalance_ok _ _ _ _ _ _ _ hadd
      have hnone1 : lookup c1.state (balanceKey account symbol operator) = none := by
        rw [lookup_congr hb1]; exact hnone
      have hmv : m = v := by
        rw [hm]; simp [amountAt, hnone1]
      subst hmv
      have hbal2 := addBalance_balance _ _ _ _ _ _ _ hadd
      have hcalls2 : c2.calls = c1.calls := by
        have := addBalance_calls c1 operator account symbol m
        rw [hadd] at this; exact this
      dsimp only at h
      split at h
      · simp [failWith] at h
      · rename_i c3 hput
        obtain ⟨hst3, _⟩ := putState_ok _ _ _ _ hput
        have hcalls3 := putState_calls _ _ _ _ _ hput
        have hb3 : balanceRecords c3.state = balanceRecords c2.state := by
          rw [hst3]
          exact balanceRecords_put_other _ (.simple _) _ rfl
        split at h
        · simp [failWith] at h
        · rename_i c4 hev
          obtain ⟨hst4, hcalls4⟩ := setEvent_ok _ _ _ _ _ hev
          split at h
          · simp [failWith] at h
          · rename_i c5 hsup
            obtain ⟨hs5, hcalls5⟩ := addTotalSupplyTokensUTXO_ok ext hext _ _ _ _ _ hsup
            simp only [Prod.mk.injEq, Outcome.returned.injEq, Option.some.injEq,
              and_true] at h
            obtain ⟨hr, hfin⟩ := h
            subst hfin
            refine ⟨?_, ?_, ?_, ?_⟩
            · intro a t
              rw [balance_congr hs5.balances, hst4, balance_congr hb3, hbal2,
                balance_congr hb1]
            · rw [hcalls5, hcalls4, hcalls3, hcalls2, hcalls1]
              simp [ptrString]
            · rw [hta, hs5.tokens, hst4, ← hta, hst3, lookup_put_self]
              rfl
            · rw [← hr]
              rfl

theorem mintFunds_ok (ext : Externals) (hext : ext.Framed) (ctx final : Stub)
    (response r : Response) (account symbol totalSupply tokenAddress : String)
    (metadata : TokenMetaData) (v : Int) (hv : setString totalSupply = some v)
    (hnew : recordsOf ctx.state account symbol = [])
    (hta : tokenAddress = generateTokenAddress ext symbol)
    (h : mintFunds ext ctx response account symbol totalSupply tokenAddress metadata =
      (.returned (some r, none), final)) :
    ∃ (operator : String) (mintFee : Int),
    (∀ a t, balance final.state a t =
      balance ctx.state a t + (if a = account ∧ t = symbol then v else 0)) ∧
    final.calls = ctx.calls ++
      [.addTotalSupplyUTXO ext.BUSY_COIN_SYMBOL (some (-1 * mintFee)),
       .addUTXO TOTAL_SUPPLY_KEY_NFT (some v) symbol] ∧
    lookup final.state (.simple tokenAddress) =
      some (ext.marshalTokensInfo ⟨account, ext.Now, tokenAddress, metadata, bigString v,
        symbol⟩) ∧
    r.Data = some (.transferSingle ⟨operator, "0x", account, symbol, bigString v,
      tokenAddress⟩) := by
  unfold mintFunds at h
  have u1 := untouched_GetState ext ctx (.simple account)
  split at h
  · simp [failWith] at h
  · simp [failWith] at h
  · rename_i c1 hg
    rw [hg] at u1
    have u2 := hext.getCommonName c1
    split at h
    · simp [failWith] at h
    · rename_i commonName c2 hcn
      rw [hcn] at u2
      have u3 := hext.getDefaultWalletAddress c2 commonName
      split at h
      · simp [failWith] at h
      · rename_i operator c3 hop
        rw [hop] at u3
        have u4 := hext.getBalanceHelper c3 account ext.BUSY_COIN_SYMBOL
        split at h
        rename_i bal c4 hbalance
        rw [hbalance] at u4
        have u5 := untouched_getTokenIssueFee ext c4 metadata.Type_
        split at h
        rename_i feeString feeErr c5 hfee
        rw [hfee] at u5
        have u :=
          untouched_trans (untouched_trans (untouched_trans (untouched_trans u1 u2) u3) u4) u5
        simp only at u
        split at h
        · split at h
          · simp [failWith] at h
          · have hnone : lookup c5.state (balanceKey account symbol operator) = none :=
              lookup_of_empty_prefix (by rw [recordsOf_congr u.balances]; exact hnew) operator
            obtain ⟨hb, hc, hl, hd⟩ := mintSettle_ok ext hext _ _ _ _ _ _ _ _ _ _ _ _ hv
              hnone hta h
            exact ⟨operator, _, fun a t => by rw [hb a t, balance_congr u.balances],
              by rw [hc, u.calls], hl, hd⟩
        · cases h

/-- The amounts of a `Mint` whose total supply parses: whenever `Mint`
succeeds for a total supply that denotes the integer
`v` and a symbol of which the account holds no balance record yet, the
account's balance of the symbol is `v` (it was 0), the one call made for the
supply of game and NFT tokens adds `v` for that symbol, and the token record
stored under the token address carries the text of `v` as its `TotalSupply`,
which reads back as `v`; the response reports the same text.  The functions
that the sources do not define are assumed to leave balance and token records
alone. -/
theorem Mint_amounts_agree (ext : Externals) (ctx final : Stub)
    (account symbol totalSupply : String) (metadata : TokenMetaData) (response : Response)
    (v : Int) (hext : ext.Framed) (hv : setString totalSupply = some v)
    (hnew : recordsOf ctx.state account symbol = [])
    (h : Mint ext ctx account symbol totalSupply metadata =
      (.returned (some response, none), final)) :
    balance ctx.state account symbol = 0 ∧
    balance final.state account symbol = v ∧
    (∃ fee : Int, final.calls = ctx.calls ++
      [.addTotalSupplyUTXO ext.BUSY_COIN_SYMBOL (some (-1 * fee)),
       .addUTXO TOTAL_SUPPLY_KEY_NFT (some v) symbol]) ∧
    (∃ info : BusyTokensInfo,
      lookup final.state (.simple (generateTokenAddress ext symbol)) =
        some (ext.marshalTokensInfo info) ∧
      info.Account = account ∧ info.TokenSymbol = symbol ∧
      info.TotalSupply = bigString v ∧ setString info.TotalSupply = some v) ∧
    (∃ operator : String, response.Data =
      some (.transferSingle ⟨operator, "0x", account, symbol, bigString v,
        generateTokenAddress ext symbol⟩)) := by
  have hzero : balance ctx.state account symbol = 0 := by
    rw [← sumAmounts_recordsOf, hnew]
    simp [sumAmounts]
  unfold Mint at h
  dsimp only at h
  have u1 := untouched_GetState ext ctx (.simple (generateTokenAddress ext symbol))
  split at h
  · simp [failWith] at h
  · simp [failWith] at h
  · rename_i c1 hg
    rw [hg] at u1
    have u2 := hext.CheckCredentials c1 DEFAULT_CREDS "true"
    split at h
    · simp [failWith] at h
    · rename_i c2 hcc
      rw [hcc] at u2
      split at h
      · simp [failWith] at h
      · split at h
        · simp [failWith] at h
        · have u3 := hext.ifTokenExists c2 symbol
          split at h
          · simp [failWith] at h
          · simp [failWith] at h
          · rename_i c3 hex
            rw [hex] at u3
            have u := untouched_trans (untouched_trans u1 u2) u3
            simp only at u
            split at h
            · simp [failWith] at h
            · split at h
              · simp [failWith] at h
              · split at h
                · simp [failWith] at h
                · split at h
                  · simp [failWith] at h
                  · obtain ⟨operator, fee, hb, hc, hl, hd⟩ :=
                      mintFunds_ok ext hext _ _ _ _ _ _ _ _ _ _ hv
                        (by rw [recordsOf_congr u.balances]; exact hnew) rfl h
                    refine ⟨hzero, ?_, ⟨fee, ?_⟩, ⟨_, hl, rfl, rfl, rfl, ?_⟩, ⟨operator, hd⟩⟩
                    · rw [hb, balance_congr u.balances, hzero]
                      simp
                    · rw [hc, u.calls]
                    · exact setString_bigString v

theorem sampleExternals_framed : sampleExternals.Framed :=
  ⟨fun _ _ _ => untouched_refl _ _, fun _ => untouched_refl _ _, fun _ _ => untouched_refl _ _,
    fun _ _ _ => untouched_refl _ _, fun _ => untouched_refl _ _,
    fun _ _ _ => untouched_refl _ _, fun _ _ => untouched_refl _ _,
    fun _ _ _ _ => untouched_refl _ _⟩

/-- Instance on the sample store with an issue fee of 1000: alice holds
no SLV, `Mint(alice, SLV, "40")` succeeds, her balance of SLV becomes 40, the
supply call adds 40 and the token record carries "40". -/
theorem Mint_amounts_agree_witness :
    balance mintStub.state "alice" "SLV" = 0 ∧
    balance (Mint sampleExternals mintStub "alice" "SLV" "40" sampleMetaData).2.state
      "alice" "SLV" = 40 ∧
    (∃ fee : Int, (Mint sampleExternals mintStub "alice" "SLV" "40" sampleMetaData).2.calls =
      mintStub.calls ++
        [.addTotalSupplyUTXO sampleExternals.BUSY_COIN_SYMBOL (some (-1 * fee)),
         .addUTXO TOTAL_SUPPLY_KEY_NFT (some 40) "SLV"]) ∧
    (∃ info : BusyTokensInfo,
      lookup (Mint sampleExternals mintStub "alice" "SLV" "40" sampleMetaData).2.state
          (.simple (generateTokenAddress sampleExternals "SLV")) =
        some (sampleExternals.marshalTokensInfo info) ∧
      info.Account = "alice" ∧ info.TokenSymbol = "SLV" ∧
      info.TotalSupply = bigString 40 ∧ setString info.TotalSupply = some 40) ∧
    (∃ operator : String,
      (⟨"tx4", true, "Tokens has been successfully minted",
        some (.transferSingle ⟨"alice", "0x", "alice", "SLV", "40",
          "B-0xtoken-meta-SLV"⟩)⟩ : Response).Data =
      some (.transferSingle ⟨operator, "0x", "alice", "SLV", bigString 40,
        generateTokenAddress sampleExternals "SLV"⟩)) :=
  Mint_amounts_agree sampleExternals mintStub _ "alice" "SLV" "40" sampleMetaData
    ⟨"tx4", true, "Tokens has been successfully minted",
      some (.transferSingle ⟨"alice", "0x", "alice", "SLV", "40", "B-0xtoken-meta-SLV"⟩)⟩
    40 sampleExternals_framed (by decide) (by decide) (Prod.ext (by decide) rfl)

/-! ## Burning a batch of tokens -/

theorem contains_iff (s : List String) (str : String) : contains s str = true ↔ str ∈ s := by
  induction s with
  | nil => simp [contains]
  | cons v rest ih =>
    by_cases h : v = str
    · simp [contains, h]
    · simp [contains, h, ih, Ne.symm h]

theorem isDuplicateLoop_false :
    ∀ (slice occurred : List String), isDuplicateLoop slice occurred = false →
      slice.Nodup := by
  intro slice
  induction slice with
  | nil => intro _ _; exact List.nodup_nil
  | cons item rest ih =>
    intro occurred h
    unfold isDuplicateLoop at h
    split at h
    · cases h
    · have hr := ih _ h
      refine List.nodup_cons.mpr ⟨?_, hr⟩
      intro hin
      have key : ∀ (l occ : List String), item ∈ l → item ∈ occ →
          isDuplicateLoop l occ = true := by
        intro l
        induction l with
        | nil => intro _ hl; cases hl
        | cons x xs ihx =>
          intro occ hl hocc
          unfold isDuplicateLoop
          by_cases hx : contains occ x = true
          · simp [hx]
          · simp only [hx, if_false]
            rcases List.mem_cons.mp hl with hl | hl
            · subst hl
              exact absurd ((contains_iff _ _).mpr hocc) hx
            · exact ihx _ hl (List.mem_cons_of_mem _ hocc)
      rw [key rest (item :: occurred) hin (List.mem_cons_self _ _)] at h
      cases h

theorem isDuplicate_false (slice : List String) (h : isDuplicate slice = false) :
    slice.Nodup :=
  isDuplicateLoop_false slice [] h

theorem listedAmount_of_not_mem :
    ∀ (symbols : List String) (amounts : List Int) (t : String), t ∉ symbols →
      listedAmount symbols amounts t = 0 := by
  intro symbols
  induction symbols with
  | nil => intro amounts t _; cases amounts <;> rfl
  | cons s rest ih =>
    intro amounts t ht
    cases amounts with
    | nil => rfl
    | cons a as =>
      simp only [List.mem_cons, not_or] at ht
      simp [listedAmount, Ne.symm ht.1, ih as t ht.2]

theorem listedAmount_of_mem_zip :
    ∀ (symbols : List String) (amounts : List Int) (s : String) (v : Int), symbols.Nodup →
      (s, v) ∈ symbols.zip amounts → listedAmount symbols amounts s = v := by
  intro symbols
  induction symbols with
  | nil => intro amounts s v _ h; simp at h
  | cons s0 rest ih =>
    intro amounts s v hnd h
    cases amounts with
    | nil => simp at h
    | cons a as =>
      simp only [List.zip_cons_cons, List.mem_cons, Prod.mk.injEq] at h
      simp only [List.nodup_cons] at hnd
      rcases h with ⟨hs, hv⟩ | h
      · subst hs hv
        simp [listedAmount, listedAmount_of_not_mem rest as s hnd.1]
      · have hmem : s ∈ rest := (List.of_mem_zip h).1
        have hne : s0 ≠ s := fun e => hnd.1 (e ▸ hmem)
        simp [listedAmount, hne, ih as s v hnd.2 h]

theorem removeBalance_balances (ctx ctx1 : Stub) (sender : String) (symbols : List String)
    (amounts : List Int) (hwf : WellFormed ctx.state)
    (h : removeBalance ctx sender symbols amounts = (.returned none, ctx1)) :
    WellFormed ctx1.state ∧
      ∀ a t, balance ctx1.state a t =
        balance ctx.state a t - (if a = sender then listedAmount symbols amounts t else 0) := by
  unfold removeBalance at h
  split at h
  · cases h
  · rename_i m hm
    obtain ⟨hnd, hget⟩ := necessaryFundsLoop_ok symbols amounts [] m hm (by simp)
    have hperm := sortedKeys_perm m
    obtain ⟨hwf1, hbal, _⟩ := removeBalanceTokens_ok sender m (sortedKeys m) ctx ctx1 h hwf
      (hperm.nodup_iff.mpr hnd)
    refine ⟨hwf1, fun a t => ?_⟩
    rw [hbal a t]
    have hl := hget t
    simp only [mapGet, Option.getD_none, zero_add] at hl
    by_cases ha : a = sender
    · by_cases hmem : t ∈ sortedKeys m
      · simp [ha, hmem, hl]
      · have hnone : mapGet m t = none :=
          (mapGet_eq_none_iff m t).mpr (fun hin => hmem (hperm.mem_iff.mpr hin))
        rw [hnone] at hl
        simp only [Option.getD_none] at hl
        simp [ha, hmem, ← hl]
    · simp [ha]

theorem burnBatchToken_ok (ext : Externals) (hext : ext.Framed) (ctx ctx1 : Stub)
    (response : Response) (account defaultWalletAddress symbol amount : String)
    (vars vars1 : BurnBatchVars)
    (h : burnBatchToken ext ctx response account defaultWalletAddress symbol amount vars =
      .inr (vars1, ctx1)) :
    ∃ v : Int, setString amount = some v ∧ vars1.bigAmounts = vars.bigAmounts ++ [v] ∧
      SameRecords ext ctx ctx1 ∧
      ctx1.calls = ctx.calls ++
        [.addUTXO TOTAL_SUPPLY_KEY_NFT (some (ext.minusOne * v)) symbol] := by
  unfold burnBatchToken at h
  dsimp only at h
  have u1 := untouched_GetState ext ctx (.simple (generateTokenAddress ext symbol))
  split at h
  · cases h
  · cases h
  · rename_i bytes c1 hg
    rw [hg] at u1
    split at h
    · cases h
    · split at h
      · cases h
      · split at h
        · cases h
        · rename_i v hv
          split at h
          · cases h
          · rename_i c2 hsup
            obtain ⟨hs, hcalls⟩ := addTotalSupplyTokensUTXO_ok ext hext _ _ _ _ _ hsup
            simp only [Sum.inr.injEq, Prod.mk.injEq] at h
            obtain ⟨hvars, hc⟩ := h
            subst hc
            refine ⟨v, hv, by rw [← hvars], sameRecords_trans u1.toSameRecords hs, ?_⟩
            rw [hcalls, u1.calls]

theorem burnBatchToken_inl (ext : Externals) (ctx : Stub) (response : Response)
    (account defaultWalletAddress symbol amount : String) (vars : BurnBatchVars)
    (result : Outcome (Option Response × Option Error) × Stub)
    (h : burnBatchToken ext ctx response account defaultWalletAddress symbol amount vars =
      .inl result) : ∀ r, result.1 ≠ .returned (some r, none) := by
  intro r hr
  unfold burnBatchToken at h
  dsimp only at h
  repeat' split at h
  all_goals first
    | (simp only [Sum.inl.injEq] at h; subst h; simp [failWith] at hr)
    | cases h

theorem burnBatchLoop_inl (ext : Externals) (response : Response)
    (account defaultWalletAddress : String) :
    ∀ (symbols amounts : List String) (vars : BurnBatchVars) (ctx : Stub)
      (result : Outcome (Option Response × Option Error) × Stub),
      burnBatchLoop ext response account defaultWalletAddress symbols amounts vars ctx =
        .inl result → ∀ r, result.1 ≠ .returned (some r, none) := by
  intro symbols
  induction symbols with
  | nil => intro amounts vars ctx result h; simp [burnBatchLoop] at h
  | cons s rest ih =>
    intro amounts vars ctx result h
    cases amounts with
    | nil =>
      simp only [burnBatchLoop, Sum.inl.injEq] at h
      subst h
      intro r hr
      cases hr
    | cons a as =>
      simp only [burnBatchLoop] at h
      split at h
      · rename_i res htok
        simp only [Sum.inl.injEq] at h
        subst h
        exact burnBatchToken_inl ext _ _ _ _ _ _ _ _ htok
      · exact ih _ _ _ _ h

theorem burnBatchLoop_ok (ext : Externals) (hext : ext.Framed) (response : Response)
    (account defaultWalletAddress : String) :
    ∀ (symbols amounts : List String) (vars vars1 : BurnBatchVars) (ctx ctx1 : Stub),
      symbols.length = amounts.length →
      burnBatchLoop ext response account defaultWalletAddress symbols amounts vars ctx =
        .inr (vars1, ctx1) →
      ∃ vs : List Int, amounts.map setString = vs.map some ∧
        vars1.bigAmounts = vars.bigAmounts ++ vs ∧ SameRecords ext ctx ctx1 ∧
        ctx1.calls = ctx.calls ++
          List.zipWith (fun s v => LedgerCall.addUTXO TOTAL_SUPPLY_KEY_NFT
            (some (ext.minusOne * v)) s) symbols vs := by
  intro symbols
  induction symbols with
  | nil =>
    intro amounts vars vars1 ctx ctx1 hlen h
    cases amounts with
    | cons a as => simp at hlen
    | nil =>
      simp only [burnBatchLoop, Sum.inr.injEq, Prod.mk.injEq] at h
      obtain ⟨hv, hc⟩ := h
      subst hv hc
      exact ⟨[], rfl, by simp, (untouched_refl ext _).toSameRecords, by simp⟩
  | cons s rest ih =>
    intro amounts vars vars1 ctx ctx1 hlen h
    cases amounts with
    | nil => simp at hlen
    | cons a as =>
      simp only [List.length_cons, add_left_inj] at hlen
      simp only [burnBatchLoop] at h
      split at h
      · cases h
      · rename_i vars2 c2 htok
        obtain ⟨v, hv, hb2, hs2, hc2⟩ := burnBatchToken_ok ext hext _ _ _ _ _ _ _ _ _ htok
        obtain ⟨vs, hvs, hb, hs, hc⟩ := ih as vars2 vars1 c2 ctx1 hlen h
        refine ⟨v :: vs, by simp [hv, hvs], by rw [hb, hb2]; simp, sameRecords_trans hs2 hs, ?_⟩
        rw [hc, hc2]
        simp

theorem burnBatchSettle_ok (ext : Externals) (hext : ext.Framed) (ctx final : Stub)
    (response r : Response) (account : String) (symbols amounts : List String)
    (vars : BurnBatchVars) (hwf : WellFormed ctx.state)
    (h : burnBatchSettle ext ctx response account symbols amounts vars =
      (.returned (some r, none), final)) :
    (∀ a t, balance final.state a t =
      balance ctx.state a t -
        (if a = account then listedAmount symbols vars.bigAmounts t else 0)) ∧
    ∃ fee : Int, final.calls = ctx.calls ++
      [.addTotalSupplyUTXO ext.BUSY_COIN_SYMBOL (some (-1 * fee))] := by
  unfold burnBatchSettle at h
  have u1 := untouched_GetState ext ctx (.simple account)
  split at h
  · simp [failWith] at h
  · simp [failWith] at h
  · rename_i c1 hg
    rw [hg] at u1
    have u2 := hext.getBalanceHelper c1 account ext.BUSY_COIN_SYMBOL
    split at h
    rename_i bal c2 hbal
    rw [hbal] at u2
    have u3 := hext.getCurrentTxFee c2
    split at h
    rename_i feeString c3 hfee
    rw [hfee] at u3
    have u := untouched_trans (untouched_trans u1 u2) u3
    simp only at u
    split at h
    · dsimp only at h
      split at h
      · simp [failWith] at h
      · split at h
        · cases h
        · simp [failWith] at h
        · rename_i c4 hrem
          obtain ⟨hwf4, hbal4⟩ := removeBalance_balances _ _ _ _ _ (u.wellFormed hwf) hrem
          have hcalls4 : c4.calls = c3.calls := by
            have := removeBalance_calls c3 account symbols vars.bigAmounts
            rw [hrem] at this; exact this
          split at h
          · cases h
          · simp [failWith] at h
          · rename_i c5 htx
            obtain ⟨hb5, _, hcalls5⟩ := txFeeHelper_ok ext hext _ _ _ _ _ _ htx
            split at h
            · simp [failWith] at h
            · rename_i c6 hev
              obtain ⟨hst6, hcalls6⟩ := setEvent_ok _ _ _ _ _ hev
              simp only [Prod.mk.injEq, Outcome.returned.injEq, Option.some.injEq,
                and_true] at h
              obtain ⟨_, hfin⟩ := h
              subst hfin
              refine ⟨fun a t => ?_, ?_⟩
              · rw [hst6, balance_congr hb5, hbal4, balance_congr u.balances]
              · exact ⟨_, by rw [hcalls6, hcalls5, hcalls4, u.calls]⟩
    · cases h

/-- C19: whenever `BurnBatch` succeeds on a well-formed store, every amount
denotes an integer, for each index the account's balance of `symbols[i]` is its
balance before the call minus `amounts[i]`, every other balance is unchanged,
and the calls made for the supply of game and NFT tokens are, in order, one
per index adding `-amounts[i]` for `symbols[i]`; the only other recorded call
burns the fee from the native supply.  The functions that the sources do not
define are assumed to leave balance and token records alone, and the global
`minusOne` to be -1. -/
theorem BurnBatch_balance_and_supply (ext : Externals) (ctx final : Stub) (account : String)
    (symbols amounts : List String) (response : Response) (hext : ext.Framed)
    (hminus : ext.minusOne = -1) (hwf : WellFormed ctx.state)
    (h : BurnBatch ext ctx account symbols amounts =
      (.returned (some response, none), final)) :
    ∃ vs : List Int, amounts.map setString = vs.map some ∧
      (∀ sv ∈ symbols.zip vs,
        balance final.state account sv.1 = balance ctx.state account sv.1 - sv.2) ∧
      (∀ a t, (a ≠ account ∨ t ∉ symbols) →
        balance final.state a t = balance ctx.state a t) ∧
      ∃ fee : Int, final.calls = ctx.calls ++
        List.zipWith (fun s v => LedgerCall.addUTXO TOTAL_SUPPLY_KEY_NFT (some (-v)) s)
          symbols vs ++
        [.addTotalSupplyUTXO ext.BUSY_COIN_SYMBOL (some (-1 * fee))] := by
  unfold BurnBatch at h
  dsimp only at h
  split at h
  · cases h
  · split at h
    · cases h
    · rename_i hlen
      split at h
      · cases h
      · rename_i hdup
        have hnd : symbols.Nodup := isDuplicate_false symbols (by simpa using hdup)
        have hlen1 : symbols.length = amounts.length := by simpa using hlen
        have u1 := hext.CheckCredentials ctx DEFAULT_CREDS "true"
        split at h
        · simp [failWith] at h
        · rename_i c1 hcc
          rw [hcc] at u1
          have u2 := hext.getCommonName c1
          split at h
          · simp [failWith] at h
          · rename_i commonName c2 hcn
            rw [hcn] at u2
            have u3 := hext.getDefaultWalletAddress c2 commonName
            split at h
            · simp [failWith] at h
            · rename_i wallet c3 hw
              rw [hw] at u3
              have u := untouched_trans (untouched_trans u1 u2) u3
              simp only at u
              split at h
              · simp [failWith] at h
              · split at h
                · rename_i result hloop
                  exact absurd (congrArg Prod.fst h)
                    (burnBatchLoop_inl ext _ _ _ _ _ _ _ _ hloop response)
                · rename_i vars c4 hloop
                  obtain ⟨vs, hvs, hb, hs, hc⟩ :=
                    burnBatchLoop_ok ext hext _ _ _ _ _ _ _ _ _ hlen1 hloop
                  simp only [List.nil_append] at hb
                  obtain ⟨hbal, fee, hcalls⟩ := burnBatchSettle_ok ext hext _ _ _ _ _ _ _ _
                    (hs.wellFormed (u.wellFormed hwf)) h
                  rw [hb] at hbal
                  refine ⟨vs, hvs, ?_, ?_, fee, ?_⟩
                  · intro sv hsv
                    rw [hbal, balance_congr hs.balances, balance_congr u.balances]
                    simp [listedAmount_of_mem_zip symbols vs sv.1 sv.2 hnd hsv]
                  · intro a t hat
                    rw [hbal, balance_congr hs.balances, balance_congr u.balances]
                    rcases hat with ha | ht
                    · simp [ha]
                    · simp [listedAmount_of_not_mem symbols vs t ht]
                  · rw [hcalls, hc, u.calls, hminus]
                    simp

/-- Instance of C19 on the sample store: alice burns 5 GOLD and 2 GEM; her
balances go from 17 to 12 and from 5 to 3, and the supply calls add -5 for
GOLD and -2 for GEM. -/
theorem BurnBatch_balance_and_supply_witness :
    WellFormed burnStub.state ∧
    balance burnStub.state "alice" "GOLD" = 17 ∧
    balance (BurnBatch sampleExternals burnStub "alice" ["GOLD", "GEM"] ["5", "2"]).2.state
      "alice" "GOLD" = 12 ∧
    ∃ vs : List Int, ["5", "2"].map setString = vs.map some ∧
      (∀ sv ∈ ["GOLD", "GEM"].zip vs,
        balance (BurnBatch sampleExternals burnStub "alice" ["GOLD", "GEM"]
            ["5", "2"]).2.state "alice" sv.1 =
          balance burnStub.state "alice" sv.1 - sv.2) ∧
      (∀ a t, (a ≠ "alice" ∨ t ∉ ["GOLD", "GEM"]) →
        balance (BurnBatch sampleExternals burnStub "alice" ["GOLD", "GEM"]
            ["5", "2"]).2.state a t = balance burnStub.state a t) ∧
      ∃ fee : Int,
        (BurnBatch sampleExternals burnStub "alice" ["GOLD", "GEM"] ["5", "2"]).2.calls =
          burnStub.calls ++
          List.zipWith (fun s v => LedgerCall.addUTXO TOTAL_SUPPLY_KEY_NFT (some (-v)) s)
            ["GOLD", "GEM"] vs ++
          [.addTotalSupplyUTXO sampleExternals.BUSY_COIN_SYMBOL (some (-1 * fee))] :=
  ⟨by decide, by decide, by decide,
    BurnBatch_balance_and_supply sampleExternals burnStub _ "alice" ["GOLD", "GEM"] ["5", "2"]
      ⟨"tx7", true, "Tokens burn successfully",
        some (.transferBatch ⟨"alice", "alice", "0x", ["GOLD", "GEM"], ["5", "2"],
          ["B-0xtoken-meta-GOLD", "B-0xtoken-meta-GEM"]⟩)⟩
      sampleExternals_framed rfl (by decide) (Prod.ext (by decide) rfl)⟩

/-! ## The address of a token -/

theorem string_append_left_cancel (p a b : String) (h : p ++ a = p ++ b) : a = b := by
  have hd := congrArg String.data h
  simp only [String.data_append, List.append_cancel_left_eq] at hd
  exact String.ext hd

/-- C23: for an injective base-64 encoding, `generateTokenAddress` gives two
symbols the same address exactly when they are equal after upper-casing. -/
theorem generateTokenAddress_eq_iff (ext : Externals)
    (hinj : Function.Injective ext.EncodeToString) (s t : String) :
    generateTokenAddress ext s = generateTokenAddress ext t ↔ ext.ToUpper s = ext.ToUpper t := by
  constructor
  · intro h
    unfold generateTokenAddress base64Encode at h
    rw [String.append_assoc, String.append_assoc] at h
    have h1 := string_append_left_cancel _ _ _ (string_append_left_cancel _ _ _ h)
    exact string_append_left_cancel _ _ _ (hinj h1)
  · intro h
    unfold generateTokenAddress
    rw [h]

/-- Instance of C23 with the identity as encoding: "gold" and "GOLD" share the
address "B-0xtoken-meta-GOLD", and "GOLD" and "GEM" have different ones. -/
theorem generateTokenAddress_eq_iff_witness :
    generateTokenAddress sampleExternals "gold" = "B-0xtoken-meta-GOLD" ∧
    generateTokenAddress sampleExternals "GOLD" ≠ generateTokenAddress sampleExternals "GEM" ∧
    (generateTokenAddress sampleExternals "gold" = generateTokenAddress sampleExternals "GOLD" ↔
      sampleExternals.ToUpper "gold" = sampleExternals.ToUpper "GOLD") :=
  ⟨by decide, by decide,
    generateTokenAddress_eq_iff sampleExternals (fun _ _ h => h) "gold" "GOLD"⟩

/-! ## The value reported by a transfer -/

/-- C26 does not hold of the code: `addBalance` adds the stored amount into the
caller's integer in place, and `TransferFrom` reports that integer afterwards.
On the sample store bob holds a record of 1 GOLD credited by alice; the
transfer of 5 GOLD from alice to bob succeeds, bob's balance goes from 1 to 6,
and the reported `Value` is "6", the new content of the record, not "5".  For
carol, who holds no such record, the same transfer reports "5". -/
theorem TransferFrom_reports_record_total :
    lookup tokenStub.state (balanceKey "bob" "GOLD" "alice") = some "1" ∧
      (TransferFrom sampleExternals tokenStub "alice" "bob" "GOLD" "5").1 =
        .returned (some ⟨"tx3", true,
          "Request to transfer tokens has been successfully accepted",
          some (.transferSingle ⟨"alice", "alice", "bob", "GOLD", "6",
            "B-0xtoken-meta-GOLD"⟩)⟩, none) ∧
      balance tokenStub.state "bob" "GOLD" = 1 ∧
      balance (TransferFrom sampleExternals tokenStub "alice" "bob" "GOLD" "5").2.state
        "bob" "GOLD" = 6 ∧
      lookup tokenStub.state (balanceKey "carol" "GOLD" "alice") = none ∧
      (TransferFrom sampleExternals tokenStub "alice" "carol" "GOLD" "5").1 =
        .returned (some ⟨"tx3", true,
          "Request to transfer tokens has been successfully accepted",
          some (.transferSingle ⟨"alice", "alice", "carol", "GOLD", "5",
            "B-0xtoken-meta-GOLD"⟩)⟩, none) := by
  decide

/-! ## Who may update the metadata of a token -/

/-- C29 does not hold of the code: the BUSY20 branch of `UpdateTokenMetaData`
never compares the caller with the admin of the token.  With bob as caller and
alice as admin and owner of both tokens, the update of the BUSY20 token SLV
succeeds and stores the record with the new metadata, while the update of the
game token GOLD is refused with UTMD012. -/
theorem UpdateTokenMetaData_busy20_any_caller :
    (bobExternals.getDefaultWalletAddress metaStub "bob").1 = .ok "bob" ∧
      (bobExternals.unmarshalToken "1000").map (fun token => token.Admin) = .ok "alice" ∧
      (UpdateTokenMetaData bobExternals metaStub "SLV" busy20MetaData "BUSY20").1 =
        .returned (some ⟨"tx10", true, "The token's metadata has been successfully updated",
          some (.token ⟨"token", 1, "", "", "alice", "1000", 0, busy20MetaData, ""⟩)⟩, none) ∧
      lookup (UpdateTokenMetaData bobExternals metaStub "SLV" busy20MetaData "BUSY20").2.state
          (.simple (bobExternals.generateTokenStateAddress "SLV")) =
        some (bobExternals.marshalToken
          ⟨"token", 1, "", "", "alice", "1000", 0, busy20MetaData, ""⟩) ∧
      (UpdateTokenMetaData bobExternals metaStub "GOLD" sampleMetaData "GAME").1 =
        .returned (some ⟨"tx10", false, "The account is not the owner", none⟩,
          some (generateError 403 "UTMD012")) := by
  refine ⟨rfl, rfl, ?_, ?_, ?_⟩ <;> decide

/-! ## Release of vested coins -/

/-- C21 does not hold of the code: the partial release subtracts the released
amount from the share reached so far without comparing the two.  For a record
with total 1000, released 100, start 0 and release time 100, as
`MultibeneficiaryVestingV1` creates it with an immediate share of a tenth, the
call at second 5 succeeds, credits -50 to the wallet and lowers the stored
released amount to 50. -/
theorem AttemptUnlock_credits_negative_amount :
    (AttemptUnlock (vestingExternals ⟨"lockedToken", "1000", "100", 0, 100⟩ 5) vestingStub).1 =
        .returned (some ⟨"tx8", true, "All tokens have been already unlocked", none⟩, none) ∧
      (AttemptUnlock (vestingExternals ⟨"lockedToken", "1000", "100", 0, 100⟩ 5)
          vestingStub).2.calls =
        [.addUTXO "alice" (some (-50)) "BUSY", .burnTxFeeWithTotalSupply "alice" "BUSY"] ∧
      lookup (AttemptUnlock (vestingExternals ⟨"lockedToken", "1000", "100", 0, 100⟩ 5)
          vestingStub).2.state (vestingKey "alice") =
        some ((vestingExternals ⟨"lockedToken", "1000", "100", 0, 100⟩ 5).marshalLockedTokens
          ⟨"lockedToken", "1000", "50", 0, 100⟩) := by
  decide

/-- C22 does not hold of the code: the partial release drops the result of
`addUTXO` and then tests the error of an earlier call.  With an `addUTXO` that
fails, the call at second 50 on a record with total 1000, released 0, start 0
and release time 100 reports success and stores the released amount 500; the
call at second 100, in the full-release branch, returns AULK007 and leaves the
record as it was. -/
theorem AttemptUnlock_ignores_failed_credit :
    ((refusingExternals ⟨"lockedToken", "1000", "0", 0, 100⟩ 50).addUTXO vestingStub "alice"
        (some 500) "BUSY").1 = some .stub ∧
      (AttemptUnlock (refusingExternals ⟨"lockedToken", "1000", "0", 0, 100⟩ 50)
          vestingStub).1 =
        .returned (some ⟨"tx8", true, "All tokens have been already unlocked", none⟩, none) ∧
      lookup (AttemptUnlock (refusingExternals ⟨"lockedToken", "1000", "0", 0, 100⟩ 50)
          vestingStub).2.state (vestingKey "alice") =
        some ((refusingExternals ⟨"lockedToken", "1000", "0", 0, 100⟩ 50).marshalLockedTokens
          ⟨"lockedToken", "1000", "500", 0, 100⟩) ∧
      (AttemptUnlock (refusingExternals ⟨"lockedToken", "1000", "0", 0, 100⟩ 100)
          vestingStub).1 =
        .returned (some ⟨"tx8", false, "Error occurred while claiming", none⟩,
          some (generateError 500 "AULK007")) ∧
      (AttemptUnlock (refusingExternals ⟨"lockedToken", "1000", "0", 0, 100⟩ 100)
          vestingStub).2.state = vestingStub.state := by
  decide

theorem attemptUnlockPartial_div (div : Int → Int → Outcome Int)
    (hdiv : ∀ x y, 0 < y → div x y = bigDiv x y) (ext : Externals) (ctx : Stub)
    (response : Response) (walletAddress : String) (lockedToken : LockedTokens)
    (bigTotalAmount bigReleasedAmount : Option Int) (now : Nat)
    (hstart : ¬ lockedToken.StartedAt > now) (hrelease : ¬ lockedToken.ReleaseAt ≤ now) :
    attemptUnlockPartial div ext ctx response walletAddress lockedToken bigTotalAmount
        bigReleasedAmount now =
      attemptUnlockPartial bigDiv ext ctx response walletAddress lockedToken bigTotalAmount
        bigReleasedAmount now := by
  unfold attemptUnlockPartial
  cases bigTotalAmount with
  | none => rfl
  | some total =>
    have hpos : (0 : Int) < (lockedToken.ReleaseAt : Int) - lockedToken.StartedAt := by omega
    simp only [hdiv _ _ hpos]

theorem attemptUnlockRecord_div (div : Int → Int → Outcome Int)
    (hdiv : ∀ x y, 0 < y → div x y = bigDiv x y) (ext : Externals) (ctx : Stub)
    (response : Response) (walletAddress : String) (now : Option Int) :
    attemptUnlockRecord div ext ctx response walletAddress now =
      attemptUnlockRecord bigDiv ext ctx response walletAddress now := by
  unfold attemptUnlockRecord
  cases hg : GetState ctx (vestingKey walletAddress) with
  | mk result ctx1 =>
    cases result with
    | error e => rfl
    | ok bytes =>
      cases bytes with
      | none => rfl
      | some lockedTokenAsBytes =>
        cases now with
        | none => rfl
        | some seconds =>
          dsimp only
          by_cases h1 : (ext.unmarshalLockedTokens lockedTokenAsBytes).StartedAt > toUint64 seconds
          · simp only [h1, if_true]
          · by_cases h2 :
                (ext.unmarshalLockedTokens lockedTokenAsBytes).ReleaseAt ≤ toUint64 seconds
            · simp only [h1, h2, if_true, if_false]
            · simp only [h1, h2, if_false]
              exact attemptUnlockPartial_div div hdiv _ _ _ _ _ _ _ _ h1 h2

/-- C28: the division of the partial release of `AttemptUnlock` is executed
with a strictly positive divisor only: whatever a division does for a divisor
that is zero or negative, `AttemptUnlock` with it behaves as with the division
of the source, for every context, vesting record and transaction time.  The
step runs only between start and release, where `ReleaseAt - StartedAt` is
positive; a record with both times equal goes to the full release or is
refused as not started. -/
theorem AttemptUnlock_divisor_positive (div : Int → Int → Outcome Int)
    (hdiv : ∀ x y, 0 < y → div x y = bigDiv x y) (ext : Externals) (ctx : Stub) :
    AttemptUnlockWith div ext ctx = AttemptUnlock ext ctx := by
  unfold AttemptUnlock AttemptUnlockWith
  simp only [attemptUnlockRecord_div div hdiv]

/-- Instance of C28: with a division that returns 0 instead of panicking, the
call on a record whose start and release are both second 7, at second 7, is
the call of the source; it releases the whole amount. -/
theorem AttemptUnlock_divisor_positive_witness :
    (∀ x y : Int, 0 < y → safeDiv x y = bigDiv x y) ∧
    (AttemptUnlock (vestingExternals ⟨"lockedToken", "1000", "0", 7, 7⟩ 7) vestingStub).1 =
      .returned (some ⟨"tx8", true, "All tokens have been already unlocked", none⟩, none) ∧
    AttemptUnlockWith safeDiv (vestingExternals ⟨"lockedToken", "1000", "0", 7, 7⟩ 7)
        vestingStub =
      AttemptUnlock (vestingExternals ⟨"lockedToken", "1000", "0", 7, 7⟩ 7) vestingStub :=
  ⟨fun x y hy => by simp [safeDiv, bigDiv, not_le.mpr hy, ne_of_gt hy], by decide,
    AttemptUnlock_divisor_positive safeDiv
      (fun x y hy => by simp [safeDiv, bigDiv, not_le.mpr hy, ne_of_gt hy]) _ _⟩

theorem vestedAmount_full (total : Int) (startedAt releaseAt now : Nat)
    (h : releaseAt ≤ now) : vestedAmount total startedAt releaseAt now = total := by
  simp [vestedAmount, h]

theorem vestedAmount_early (total : Int) (startedAt releaseAt now : Nat)
    (hs : ¬ startedAt > now) (hr : ¬ releaseAt ≤ now) :
    vestedAmount total startedAt releaseAt now =
      (((now : Int) - startedAt) * total) / ((releaseAt : Int) - startedAt) := by
  unfold vestedAmount
  rw [if_neg hr, Rat.floor_intCast_div_natCast]
  have hc : ((releaseAt - startedAt : ℕ) : ℤ) = (releaseAt : ℤ) - startedAt := by omega
  rw [hc, mul_comm]

theorem vestedAmount_le_total (total : Int) (startedAt releaseAt now : Nat)
    (ht : 0 ≤ total) (hs : ¬ startedAt > now) :
    vestedAmount total startedAt releaseAt now ≤ total := by
  by_cases hr : releaseAt ≤ now
  · rw [vestedAmount_full _ _ _ _ hr]
  · rw [vestedAmount_early _ _ _ _ hs hr]
    have hpos : (0 : Int) < (releaseAt : Int) - startedAt := by omega
    have hle : ((now : Int) - startedAt) * total ≤ total * ((releaseAt : Int) - startedAt) := by
      rw [mul_comm]
      exact mul_le_mul_of_nonneg_left (by omega) ht
    calc ((now : Int) - startedAt) * total / ((releaseAt : Int) - startedAt)
        ≤ total * ((releaseAt : Int) - startedAt) / ((releaseAt : Int) - startedAt) :=
          Int.ediv_le_ediv hpos hle
      _ = total := Int.mul_ediv_cancel _ (ne_of_gt hpos)

theorem vestedAmount_mono (total : Int) (startedAt releaseAt now later : Nat)
    (ht : 0 ≤ total) (hs : ¬ startedAt > now) (hl : now ≤ later) :
    vestedAmount total startedAt releaseAt now ≤ vestedAmount total startedAt releaseAt later := by
  by_cases hr : releaseAt ≤ later
  · rw [vestedAmount_full _ _ _ later hr]
    exact vestedAmount_le_total _ _ _ _ ht hs
  · have hr0 : ¬ releaseAt ≤ now := by omega
    have hs1 : ¬ startedAt > later := by omega
    rw [vestedAmount_early _ _ _ _ hs hr0, vestedAmount_early _ _ _ _ hs1 hr]
    have hpos : (0 : Int) < (releaseAt : Int) - startedAt := by omega
    exact Int.ediv_le_ediv hpos (mul_le_mul_of_nonneg_right (by omega) ht)

theorem getState_ok (ctx ctx1 : Stub) (k : Key) (value : Option String)
    (h : GetState ctx k = (.ok value, ctx1)) :
    value = lookup ctx.state k ∧ ctx1.state = ctx.state ∧ ctx1.calls = ctx.calls := by
  have ht := tick_spec ctx
  have hc := tick_calls ctx
  unfold GetState at h
  split at h
  · cases h
  · rename_i c hc1
    rw [hc1] at ht hc
    simp only [Prod.mk.injEq, Except.ok.injEq] at h
    obtain ⟨hv, hctx⟩ := h
    subst hctx
    exact ⟨by rw [← hv, ht.1], ht.1, hc⟩

theorem addUTXO_vesting (ext : Externals) (hext : ext.KeepsVesting) (ctx ctx1 : Stub)
    (address token : String) (amount : Option Int) (err : Option Error)
    (h : addUTXO ext ctx address amount token = (err, ctx1)) :
    (∀ w, lookup ctx1.state (vestingKey w) = lookup ctx.state (vestingKey w)) ∧
      ctx1.calls = ctx.calls ++ [.addUTXO address amount token] := by
  have hu := hext.addUTXO ctx address amount token
  unfold addUTXO at h
  simp only [Prod.mk.injEq] at h
  rw [← h.2]
  exact ⟨hu.vesting, by simp [hu.calls]⟩

theorem burnTxFeeWithTotalSupply_vesting (ext : Externals) (hext : ext.KeepsVesting)
    (ctx ctx1 : Stub) (address token : String) (err : Option Error)
    (h : burnTxFeeWithTotalSupply ext ctx address token = (err, ctx1)) :
    (∀ w, lookup ctx1.state (vestingKey w) = lookup ctx.state (vestingKey w)) ∧
      ctx1.calls = ctx.calls ++ [.burnTxFeeWithTotalSupply address token] := by
  have hu := hext.burnTxFeeWithTotalSupply ctx address token
  unfold burnTxFeeWithTotalSupply at h
  simp only [Prod.mk.injEq] at h
  rw [← h.2]
  exact ⟨hu.vesting, by simp [hu.calls]⟩

theorem attemptUnlockStore_ok (ext : Externals) (hext : ext.KeepsVesting) (ctx final : Stub)
    (response r : Response) (walletAddress : String) (lockedToken : LockedTokens)
    (h : attemptUnlockStore ext ctx response walletAddress lockedToken =
      (.returned (some r, none), final)) :
    lookup final.state (vestingKey walletAddress) =
        some (ext.marshalLockedTokens lockedToken) ∧
      final.calls = ctx.calls ++
        [.burnTxFeeWithTotalSupply walletAddress ext.BUSY_COIN_SYMBOL] := by
  unfold attemptUnlockStore at h
  split at h
  · simp [failWith] at h
  · rename_i c1 hput
    obtain ⟨hst1, _⟩ := putState_ok _ _ _ _ hput
    have hcalls1 := putState_calls _ _ _ _ _ hput
    split at h
    · simp [failWith] at h
    · rename_i c2 hburn
      obtain ⟨hv2, hcalls2⟩ := burnTxFeeWithTotalSupply_vesting ext hext _ _ _ _ _ hburn
      have u3 := hext.getCurrentTxFee c2
      split at h
      rename_i txFee c3 hfee
      rw [hfee] at u3
      dsimp only at h
      split at h
      · simp [failWith] at h
      · rename_i c4 hev
        obtain ⟨hst4, hcalls4⟩ := setEvent_ok _ _ _ _ _ hev
        simp only [Prod.mk.injEq, Outcome.returned.injEq, Option.some.injEq, and_true] at h
        obtain ⟨_, hfin⟩ := h
        subst hfin
        refine ⟨?_, ?_⟩
        · rw [hst4, u3.vesting, hv2, hst1, lookup_put_self]
        · rw [hcalls4, u3.calls, hcalls2, hcalls1]

theorem attemptUnlockRecord_ok (ext : Externals) (hext : ext.KeepsVesting) (ctx final : Stub)
    (response r : Response) (walletAddress : String) (now : Option Int)
    (h : attemptUnlockRecord bigDiv ext ctx response walletAddress now =
      (.returned (some r, none), final)) :
    ∃ (bytes : String) (seconds total released : Int),
      now = some seconds ∧
      lookup ctx.state (vestingKey walletAddress) = some bytes ∧
      setString (ext.unmarshalLockedTokens bytes).TotalAmount = some total ∧
      setString (ext.unmarshalLockedTokens bytes).ReleasedAmount = some released ∧
      ¬ (ext.unmarshalLockedTokens bytes).StartedAt > toUint64 seconds ∧
      ∃ newReleased : String,
        lookup final.state (vestingKey walletAddress) =
          some (ext.marshalLockedTokens
            { ext.unmarshalLockedTokens bytes with ReleasedAmount := newReleased }) ∧
        setString newReleased =
          some (vestedAmount total (ext.unmarshalLockedTokens bytes).StartedAt
            (ext.unmarshalLockedTokens bytes).ReleaseAt (toUint64 seconds)) ∧
        final.calls = ctx.calls ++
          [.addUTXO walletAddress
            (some (vestedAmount total (ext.unmarshalLockedTokens bytes).StartedAt
              (ext.unmarshalLockedTokens bytes).ReleaseAt (toUint64 seconds) - released))
            ext.BUSY_COIN_SYMBOL,
           .burnTxFeeWithTotalSupply walletAddress ext.BUSY_COIN_SYMBOL] := by
  unfold attemptUnlockRecord at h
  split at h
  · simp [failWith] at h
  · simp [failWith] at h
  · rename_i bytes c1 hg
    obtain ⟨hval, hst1, hcalls1⟩ := getState_ok _ _ _ _ hg
    dsimp only at h
    split at h
    · cases h
    · rename_i seconds
      split at h
      · simp [failWith] at h
      · rename_i hstart
        split at h
        · rename_i hrel
          unfold attemptUnlockFull at h
          split at h
          · simp [failWith] at h
          · split at h
            · rename_i total released htot hrl
              dsimp only at h
              split at h
              · simp [failWith] at h
              · rename_i c2 hadd
                obtain ⟨hv2, hcalls2⟩ := addUTXO_vesting ext hext _ _ _ _ _ _ hadd
                obtain ⟨hl, hc⟩ := attemptUnlockStore_ok ext hext _ _ _ _ _ _ h
                refine ⟨bytes, seconds, total, released, rfl, hval.symm, htot, hrl,
                  hstart, (ext.unmarshalLockedTokens bytes).TotalAmount, hl, ?_, ?_⟩
                · rw [vestedAmount_full _ _ _ _ hrel, htot]
                · rw [hc, hcalls2, hcalls1, vestedAmount_full _ _ _ _ hrel]
                  simp
            · cases h
        · rename_i hrel
          unfold attemptUnlockPartial at h
          split at h
          · cases h
          · rename_i total htot
            have hpos : (0 : Int) < ((ext.unmarshalLockedTokens bytes).ReleaseAt : Int) -
                (ext.unmarshalLockedTokens bytes).StartedAt := by omega
            simp only [bigDiv, if_neg (ne_of_gt hpos)] at h
            split at h
            · simp [failWith] at h
            · split at h
              · rename_i habs
                exact absurd habs (lt_irrefl _)
              · split at h
                · cases h
                · rename_i released hrl
                  generalize hadd : addUTXO ext c1 walletAddress _ ext.BUSY_COIN_SYMBOL = res at h
                  obtain ⟨err, c2⟩ := res
                  obtain ⟨hv2, hcalls2⟩ := addUTXO_vesting ext hext _ _ _ _ _ _ hadd
                  obtain ⟨hl, hc⟩ := attemptUnlockStore_ok ext hext _ _ _ _ _ _ h
                  refine ⟨bytes, seconds, total, released, rfl, hval.symm, htot,
                    hrl, hstart, _, hl, ?_, ?_⟩
                  · rw [setString_bigString, vestedAmount_early _ _ _ _ hstart hrel]
                    congr 1
                    ring
                  · rw [hc, hcalls2, hcalls1, vestedAmount_early _ _ _ _ hstart hrel]
                    simp

/-- What a successful `AttemptUnlock` stores and credits: whenever
`AttemptUnlock` succeeds, the caller's wallet had a vesting
record whose total `T` and released amount are integers and whose start is not
after the transaction time; the record stored afterwards is the old one with
a released amount that denotes `T` from the release time on and the floor of
`T * (now - S) / (R - S)` before it; the one `addUTXO` call of the invocation
credits that amount minus the released amount before the call; and for a
non-negative `T` the new released amount is at most `T` and is non-decreasing
in the transaction time.  The functions that the sources do not define are
assumed to leave vesting records and the recorded calls alone. -/
theorem AttemptUnlock_released_amount (ext : Externals) (ctx final : Stub)
    (response : Response) (hext : ext.KeepsVesting)
    (h : AttemptUnlock ext ctx = (.returned (some response, none), final)) :
    ∃ (walletAddress bytes : String) (seconds total released : Int),
      ext.GetTxTimestamp (ext.getCommonName ctx).2 = some seconds ∧
      lookup ctx.state (vestingKey walletAddress) = some bytes ∧
      setString (ext.unmarshalLockedTokens bytes).TotalAmount = some total ∧
      setString (ext.unmarshalLockedTokens bytes).ReleasedAmount = some released ∧
      (ext.unmarshalLockedTokens bytes).StartedAt ≤ toUint64 seconds ∧
      (∃ newReleased : String,
        lookup final.state (vestingKey walletAddress) =
          some (ext.marshalLockedTokens
            { ext.unmarshalLockedTokens bytes with ReleasedAmount := newReleased }) ∧
        setString newReleased =
          some (vestedAmount total (ext.unmarshalLockedTokens bytes).StartedAt
            (ext.unmarshalLockedTokens bytes).ReleaseAt (toUint64 seconds))) ∧
      final.calls = ctx.calls ++
        [.addUTXO walletAddress
          (some (vestedAmount total (ext.unmarshalLockedTokens bytes).StartedAt
            (ext.unmarshalLockedTokens bytes).ReleaseAt (toUint64 seconds) - released))
          ext.BUSY_COIN_SYMBOL,
         .burnTxFeeWithTotalSupply walletAddress ext.BUSY_COIN_SYMBOL] ∧
      (0 ≤ total →
        vestedAmount total (ext.unmarshalLockedTokens bytes).StartedAt
          (ext.unmarshalLockedTokens bytes).ReleaseAt (toUint64 seconds) ≤ total ∧
        ∀ later : Nat, toUint64 seconds ≤ later →
          vestedAmount total (ext.unmarshalLockedTokens bytes).StartedAt
            (ext.unmarshalLockedTokens bytes).ReleaseAt (toUint64 seconds) ≤
          vestedAmount total (ext.unmarshalLockedTokens bytes).StartedAt
            (ext.unmarshalLockedTokens bytes).ReleaseAt later) := by
  unfold AttemptUnlock AttemptUnlockWith at h
  dsimp only at h
  have u1 := hext.getCommonName ctx
  have u2 := hext.getDefaultWalletAddress (ext.getCommonName ctx).2
    (orEmpty (ext.getCommonName ctx).1)
  split at h
  · simp [failWith] at h
  · rename_i walletAddress c2 hw
    rw [hw] at u2
    have u3 := hext.CheckCredentials c2 DEFAULT_CREDS "true"
    split at h
    · simp [failWith] at h
    · rename_i c3 hcc
      rw [hcc] at u3
      have u4 := hext.getCurrentTxFee c3
      have u5 := hext.getBalanceHelper (ext.getCurrentTxFee c3).2 walletAddress
        ext.BUSY_COIN_SYMBOL
      simp only at u1 u2 u3 u4 u5
      have hv : ∀ w,
          lookup (ext.getBalanceHelper (ext.getCurrentTxFee c3).2 walletAddress
            ext.BUSY_COIN_SYMBOL).2.state (vestingKey w) = lookup ctx.state (vestingKey w) := by
        intro w
        rw [u5.vesting, u4.vesting, u3.vesting, u2.vesting, u1.vesting]
      have hcalls : (ext.getBalanceHelper (ext.getCurrentTxFee c3).2 walletAddress
          ext.BUSY_COIN_SYMBOL).2.calls = ctx.calls := by
        rw [u5.calls, u4.calls, u3.calls, u2.calls, u1.calls]
      split at h
      · split at h
        · simp [failWith] at h
        · obtain ⟨bytes, seconds, total, released, hnow, hl, htot, hrl, hstart, newReleased,
            hfinal, hnew, hc⟩ := attemptUnlockRecord_ok ext hext _ _ _ _ _ _ h
          refine ⟨walletAddress, bytes, seconds, total, released, hnow, by rw [← hv]; exact hl,
            htot, hrl, not_lt.mp hstart, ⟨newReleased, hfinal, hnew⟩, by rw [hc, hcalls], ?_⟩
          · intro ht
            exact ⟨vestedAmount_le_total _ _ _ _ ht hstart,
              fun later hlater => vestedAmount_mono _ _ _ _ _ ht hstart hlater⟩
      · obtain ⟨bytes, seconds, total, released, hnow, hl, htot, hrl, hstart, newReleased,
          hfinal, hnew, hc⟩ := attemptUnlockRecord_ok ext hext _ _ _ _ _ _ h
        refine ⟨walletAddress, bytes, seconds, total, released, hnow, by rw [← hv]; exact hl,
          htot, hrl, not_lt.mp hstart, ⟨newReleased, hfinal, hnew⟩, by rw [hc, hcalls], ?_⟩
        · intro ht
          exact ⟨vestedAmount_le_total _ _ _ _ ht hstart,
            fun later hlater => vestedAmount_mono _ _ _ _ _ ht hstart hlater⟩
      · cases h

theorem vestingExternals_keepsVesting (record : LockedTokens) (now : Int) :
    (vestingExternals record now).KeepsVesting :=
  ⟨fun _ => ⟨fun _ => rfl, rfl⟩, fun _ _ => ⟨fun _ => rfl, rfl⟩,
    fun _ _ _ => ⟨fun _ => rfl, rfl⟩, fun _ => ⟨fun _ => rfl, rfl⟩,
    fun _ _ _ => ⟨fun _ => rfl, rfl⟩, fun _ _ _ _ => ⟨fun _ => rfl, rfl⟩,
    fun _ _ _ => ⟨fun _ => rfl, rfl⟩⟩

/-- Instance: a record with total 1000, released 0, start 0 and release
time 100, unlocked at second 50: the call succeeds, credits 500 and stores the
released amount "500". -/
theorem AttemptUnlock_released_amount_witness :
    (AttemptUnlock (vestingExternals ⟨"lockedToken", "1000", "0", 0, 100⟩ 50) vestingStub).2.calls =
      [.addUTXO "alice" (some 500) "BUSY", .burnTxFeeWithTotalSupply "alice" "BUSY"] ∧
    lookup (AttemptUnlock (vestingExternals ⟨"lockedToken", "1000", "0", 0, 100⟩ 50) vestingStub).2.state (vestingKey "alice") = some "500" ∧
    ∃ (walletAddress bytes : String) (seconds total released : Int),
      (vestingExternals ⟨"lockedToken", "1000", "0", 0, 100⟩ 50).GetTxTimestamp ((vestingExternals ⟨"lockedToken", "1000", "0", 0, 100⟩ 50).getCommonName vestingStub).2 = some seconds ∧
      lookup vestingStub.state (vestingKey walletAddress) = some bytes ∧
      setString ((vestingExternals ⟨"lockedToken", "1000", "0", 0, 100⟩ 50).unmarshalLockedTokens bytes).TotalAmount = some total ∧
      setString ((vestingExternals ⟨"lockedToken", "1000", "0", 0, 100⟩ 50).unmarshalLockedTokens bytes).ReleasedAmount = some released ∧
      ((vestingExternals ⟨"lockedToken", "1000", "0", 0, 100⟩ 50).unmarshalLockedTokens bytes).StartedAt ≤ toUint64 seconds ∧
      (∃ newReleased : String,
        lookup (AttemptUnlock (vestingExternals ⟨"lockedToken", "1000", "0", 0, 100⟩ 50) vestingStub).2.state (vestingKey walletAddress) =
          some ((vestingExternals ⟨"lockedToken", "1000", "0", 0, 100⟩ 50).marshalLockedTokens
            { (vestingExternals ⟨"lockedToken", "1000", "0", 0, 100⟩ 50).unmarshalLockedTokens bytes with ReleasedAmount := newReleased }) ∧
        setString newReleased =
          some (vestedAmount total ((vestingExternals ⟨"lockedToken", "1000", "0", 0, 100⟩ 50).unmarshalLockedTokens bytes).StartedAt
            ((vestingExternals ⟨"lockedToken", "1000", "0", 0, 100⟩ 50).unmarshalLockedTokens bytes).ReleaseAt (toUint64 seconds))) ∧
      (AttemptUnlock (vestingExternals ⟨"lockedToken", "1000", "0", 0, 100⟩ 50) vestingStub).2.calls = vestingStub.calls ++
        [.addUTXO walletAddress
          (some (vestedAmount total ((vestingExternals ⟨"lockedToken", "1000", "0", 0, 100⟩ 50).unmarshalLockedTokens bytes).StartedAt
            ((vestingExternals ⟨"lockedToken", "1000", "0", 0, 100⟩ 50).unmarshalLockedTokens bytes).ReleaseAt (toUint64 seconds) - released))
          (vestingExternals ⟨"lockedToken", "1000", "0", 0, 100⟩ 50).BUSY_COIN_SYMBOL,
         .burnTxFeeWithTotalSupply walletAddress (vestingExternals ⟨"lockedToken", "1000", "0", 0, 100⟩ 50).BUSY_COIN_SYMBOL] ∧
      (0 ≤ total →
        vestedAmount total ((vestingExternals ⟨"lockedToken", "1000", "0", 0, 100⟩ 50).unmarshalLockedTokens bytes).StartedAt
          ((vestingExternals ⟨"lockedToken", "1000", "0", 0, 100⟩ 50).unmarshalLockedTokens bytes).ReleaseAt (toUint64 seconds) ≤ total ∧
        ∀ later : Nat, toUint64 seconds ≤ later →
          vestedAmount total ((vestingExternals ⟨"lockedToken", "1000", "0", 0, 100⟩ 50).unmarshalLockedTokens bytes).StartedAt
            ((vestingExternals ⟨"lockedToken", "1000", "0", 0, 100⟩ 50).unmarshalLockedTokens bytes).ReleaseAt (toUint64 seconds) ≤
          vestedAmount total ((vestingExternals ⟨"lockedToken", "1000", "0", 0, 100⟩ 50).unmarshalLockedTokens bytes).StartedAt
            ((vestingExternals ⟨"lockedToken", "1000", "0", 0, 100⟩ 50).unmarshalLockedTokens bytes).ReleaseAt later) :=
  ⟨by decide, by decide,
    AttemptUnlock_released_amount (vestingExternals ⟨"lockedToken", "1000", "0", 0, 100⟩ 50) vestingStub _
      ⟨"tx8", true, "All tokens have been already unlocked", none⟩
      (vestingExternals_keepsVesting _ _) (Prod.ext (by decide) rfl)⟩

/-! ## Single NFTs: the checks of a transfer and the owner afterwards -/

theorem nftTransferSettle_ok (ext : Externals) (ctx final : Stub) (response r : Response)
    (sender recipient nftName senderDefaultAddress : String) (busyNft : BusyNft)
    (h : nftTransferSettle ext ctx response sender recipient nftName senderDefaultAddress
      busyNft = (.returned (some r, none), final)) :
    lookup final.state (nftKey nftName) =
        some (ext.marshalNft { busyNft with Account := recipient }) ∧
      r.Data = some (.nft { busyNft with Account := recipient }) := by
  unfold nftTransferSettle at h
  dsimp only at h
  split at h
  · split at h
    · simp [failWith] at h
    · split at h
      · cases h
      · simp [failWith] at h
      · split at h
        · simp [failWith] at h
        · rename_i c4 hput
          split at h
          · simp [failWith] at h
          · rename_i c5 hev
            simp only [Prod.mk.injEq, Outcome.returned.injEq, Option.some.injEq, and_true] at h
            obtain ⟨hr, hfin⟩ := h
            subst hfin
            subst hr
            refine ⟨?_, rfl⟩
            rw [(setEvent_ok _ _ _ _ _ hev).1, (putState_ok _ _ _ _ hput).1]
            exact lookup_put_self _ _ _
  · cases h

/-- Claim C24: a successful `BusyNFT.Transfer` has `sender` different from
`recipient`, equal to the default wallet of the caller and equal to the owner
in the stored record of the NFT; the record stored afterwards is the old record
with only the owner replaced by `recipient` (metadata and creation time are the
old ones), and with a codec that reads back the owner it wrote,
`GetCurrentOwner` on the resulting store returns `recipient`. -/
theorem nftTransfer_checks_and_owner (ext : Externals) (ctx final : Stub)
    (sender recipient nftName : String) (response : Response)
    (h : BusyNFT.Transfer ext ctx sender recipient nftName =
      (.returned (some response, none), final)) :
    sender ≠ recipient ∧
    (∃ commonName,
      (ext.getCommonName
        (ext.CheckCredentials (GetState ctx (nftKey nftName)).2 DEFAULT_CREDS "true").2).1 =
          .ok commonName ∧
      (ext.getDefaultWalletAddress
        (ext.getCommonName
          (ext.CheckCredentials (GetState ctx (nftKey nftName)).2 DEFAULT_CREDS "true").2).2
        commonName).1 = .ok sender) ∧
    ∃ busyNftAsBytes busyNft,
      lookup ctx.state (nftKey nftName) = some busyNftAsBytes ∧
      ext.unmarshalNft busyNftAsBytes = .ok busyNft ∧
      busyNft.Account = sender ∧
      lookup final.state (nftKey nftName) =
        some (ext.marshalNft
          { Account := recipient, CreatedAT := busyNft.CreatedAT,
            MetaData := busyNft.MetaData }) ∧
      response.Data = some (.nft
          { Account := recipient, CreatedAT := busyNft.CreatedAT,
            MetaData := busyNft.MetaData }) ∧
      ((∀ nft, ∃ decoded, ext.unmarshalNft (ext.marshalNft nft) = .ok decoded ∧
          decoded.Account = nft.Account) →
        ∀ ctx2 : Stub, ctx2.state = final.state → NoFault ctx2 →
          (BusyNFT.GetCurrentOwner ext ctx2 nftName).1 =
            .returned (some ⟨ctx2.txID, true, "Owner Successfully fetched",
              some (.text recipient)⟩, none)) := by
  unfold BusyNFT.Transfer at h
  dsimp only at h
  split at h
  · simp [failWith] at h
  · simp [failWith] at h
  · rename_i busyNftAsBytes c1 hget
    obtain ⟨hval, _, _⟩ := getState_ok _ _ _ _ hget
    have hc1 : (GetState ctx (nftKey nftName)).2 = c1 := by rw [hget]
    rw [hc1]
    split at h
    · simp [failWith] at h
    · rename_i c2 hcred
      have hc2 : (ext.CheckCredentials c1 DEFAULT_CREDS "true").2 = c2 := by rw [hcred]
      rw [hc2]
      split at h
      · simp at h
      · rename_i hne
        split at h
        · simp [failWith] at h
        · rename_i commonName c3 hcn
          split at h
          · simp [failWith] at h
          · rename_i senderDefaultAddress c4 hdw
            split at h
            · simp [failWith] at h
            · rename_i hsd
              have hsd1 : sender = senderDefaultAddress := not_not.mp hsd
              split at h
              · simp [failWith] at h
              · simp [failWith] at h
              · split at h
                · simp [failWith] at h
                · rename_i busyNft hdec
                  split at h
                  · simp [failWith] at h
                  · rename_i hown
                    have hown1 : busyNft.Account = senderDefaultAddress := not_not.mp hown
                    obtain ⟨hfin, hdata⟩ := nftTransferSettle_ok _ _ _ _ _ _ _ _ _ _ h
                    refine ⟨hne, ⟨commonName, by rw [hcn], by rw [hcn, hdw, hsd1]⟩,
                      busyNftAsBytes, busyNft, hval.symm ▸ rfl, hdec, by rw [hown1, hsd1],
                      hfin, hdata, ?_⟩
                    intro hcodec ctx2 hst hnf
                    obtain ⟨c, htick, hcst, _⟩ := tick_noFault ctx2 hnf
                    obtain ⟨decoded, hd, hacc⟩ := hcodec
                      { Account := recipient, CreatedAT := busyNft.CreatedAT,
                        MetaData := busyNft.MetaData }
                    unfold BusyNFT.GetCurrentOwner GetState
                    rw [htick]
                    dsimp only
                    rw [hcst, hst, hfin]
                    dsimp only
                    rw [hd]
                    dsimp only
                    rw [hacc]

/-- Instance of C24: alice hands the NFT "ART" to bob; the call succeeds, the
stored owner is bob and `GetCurrentOwner` on the resulting store returns bob. -/
theorem nftTransfer_checks_and_owner_witness :
    "alice" ≠ "bob" ∧
    lookup (BusyNFT.Transfer sampleExternals nftStub "alice" "bob" "ART").2.state
      (nftKey "ART") = some "bob" ∧
    (BusyNFT.GetCurrentOwner sampleExternals
      (BusyNFT.Transfer sampleExternals nftStub "alice" "bob" "ART").2 "ART").1 =
        .returned (some ⟨"tx9", true, "Owner Successfully fetched", some (.text "bob")⟩,
          none) := by
  obtain ⟨hne, _, _, _, _, _, _, _, _, hget⟩ :=
    nftTransfer_checks_and_owner sampleExternals nftStub _ "alice" "bob" "ART"
      ⟨"tx9", true, "Request to transfer the NFT has been successfully accepted",
        some (.nft ⟨"bob", "", ⟨"", "", none⟩⟩)⟩
      (Prod.ext (by decide) rfl)
  exact ⟨hne, by decide, hget (fun nft => ⟨_, rfl, rfl⟩) _ rfl (by decide)⟩

/-! ## Approval of an operator in `TransferFrom` -/

theorem isApprovedForAll_spec (ext : Externals) (ctx ctx1 : Stub) (account operator : String)
    (res : Except Error Bool) (h : _isApprovedForAll ext ctx account operator = (res, ctx1)) :
    ctx1.state = ctx.state ∧
      (res = .ok true → storedApproval ext ctx.state account operator = true) := by
  have ht := tick_spec ctx
  unfold _isApprovedForAll at h
  split at h
  · simp only [Prod.mk.injEq] at h
    obtain ⟨hr, hc⟩ := h
    subst hr
    subst hc
    exact ⟨rfl, fun hres => by cases hres⟩
  · rename_i key hkey
    have hk : key = approvalKey account operator := by
      unfold CreateCompositeKey at hkey
      split at hkey
      · cases hkey; rfl
      · cases hkey
    subst hk
    unfold GetState at h
    cases hc : ctx.tick with
    | mk f c =>
      rw [hc] at h ht
      simp only at ht
      cases f with
      | true =>
        simp only [Prod.mk.injEq] at h
        obtain ⟨hr, hc1⟩ := h
        subst hr
        subst hc1
        exact ⟨ht.1, fun hres => by cases hres⟩
      | false =>
        simp only at h
        rw [ht.1] at h
        unfold storedApproval
        cases hl : lookup ctx.state (approvalKey account operator) with
        | none =>
          rw [hl] at h
          simp only [Prod.mk.injEq] at h
          obtain ⟨hr, hc1⟩ := h
          subst hr
          subst hc1
          exact ⟨ht.1, fun hres => by cases hres⟩
        | some approvalBytes =>
          rw [hl] at h
          simp only at h
          cases hd : ext.unmarshalBool approvalBytes with
          | error e =>
            rw [hd] at h
            simp only [Prod.mk.injEq] at h
            obtain ⟨hr, hc1⟩ := h
            subst hr
            subst hc1
            exact ⟨ht.1, fun hres => by cases hres⟩
          | ok approved =>
            rw [hd] at h
            simp only [Prod.mk.injEq] at h
            obtain ⟨hr, hc1⟩ := h
            subst hr
            subst hc1
            exact ⟨ht.1, fun hres => by cases hres; simp only [hl, hd]⟩

theorem transferFromChecks_unapproved (ext : Externals) (ctx : Stub) (response : Response)
    (operator sender recipient symbol amount tokenAddress tokenType : String)
    (hop : operator ≠ sender) (hstored : storedApproval ext ctx.state sender operator = false) :
    (transferFromChecks ext ctx response operator sender recipient symbol amount tokenAddress
        tokenType).2.state = ctx.state ∧
      ∀ r, (transferFromChecks ext ctx response operator sender recipient symbol amount
        tokenAddress tokenType).1 ≠ .returned (some r, none) := by
  unfold transferFromChecks
  split
  · exact ⟨rfl, fun r hr => by cases hr⟩
  · split
    · exact ⟨rfl, fun r hr => by cases hr⟩
    · cases hap : _isApprovedForAll ext ctx sender operator with
      | mk res c1 =>
        obtain ⟨hst, happ⟩ := isApprovedForAll_spec _ _ _ _ _ _ hap
        cases res with
        | error e => exact ⟨hst, fun r hr => by cases hr⟩
        | ok approved =>
          cases approved with
          | true =>
            rw [happ rfl] at hstored
            cases hstored
          | false => exact ⟨hst, fun r hr => by cases hr⟩

theorem getState_state (ctx : Stub) (k : Key) : (GetState ctx k).2.state = ctx.state := by
  have ht := tick_spec ctx
  unfold GetState
  cases hc : ctx.tick with
  | mk f c =>
    rw [hc] at ht
    cases f <;> exact ht.1

theorem transferFromChecks_not_approved (ext : Externals) (ctx : Stub) (response : Response)
    (operator sender recipient symbol amount tokenAddress tokenType : String) (n : Int)
    (hop : operator ≠ sender) (hamount : setString amount = some n) (hn : n ≠ 0)
    (hsender : validAttribute sender = true) (hoperator : validAttribute operator = true)
    (hnf : NoFault ctx)
    (hrecord : lookup ctx.state (approvalKey sender operator) = none ∨
      ∃ approvalBytes, lookup ctx.state (approvalKey sender operator) = some approvalBytes ∧
        ext.unmarshalBool approvalBytes = .ok false) :
    (transferFromChecks ext ctx response operator sender recipient symbol amount tokenAddress
        tokenType).1 =
      .returned (some { response with Message := "Caller is neither the owner nor is approved" },
        some (generateError 403 "NTRA010")) := by
  obtain ⟨c, htick, hcst, _⟩ := tick_noFault ctx hnf
  have hkey : CreateCompositeKey approvalPrefix [sender, operator] =
      .ok (approvalKey sender operator) := by
    unfold CreateCompositeKey
    rw [if_pos]
    · rfl
    · refine ⟨by decide, ?_⟩
      simp only [List.all_cons, List.all_nil, Bool.and_true, Bool.and_eq_true]
      exact ⟨hsender, hoperator⟩
  have hap : _isApprovedForAll ext ctx sender operator = (.ok false, c) := by
    unfold _isApprovedForAll
    rw [hkey]
    unfold GetState
    rw [htick]
    dsimp only
    rw [hcst]
    rcases hrecord with hnone | ⟨approvalBytes, hsome, hdec⟩
    · rw [hnone]
    · rw [hsome]
      dsimp only
      rw [hdec]
  unfold transferFromChecks
  rw [hamount]
  dsimp only
  rw [if_neg (show ¬ n = bigZero from hn), if_pos hop, hap]
  rfl

theorem setApprovalStore_ok (ext : Externals) (ctx final : Stub) (response r : Response)
    (account operator : String) (approved : Bool) (bigTxFee : Int)
    (h : setApprovalStore ext ctx response account operator approved bigTxFee =
      (.returned (some r, none), final)) :
    ∃ approvalJSON, ext.marshalBool approved = .ok approvalJSON ∧
      lookup final.state (approvalKey account operator) = some approvalJSON ∧
      r.Data = some (.approvalForAll ⟨account, operator, approved⟩) := by
  unfold setApprovalStore at h
  split at h
  · simp [failWith] at h
  · rename_i key hkey
    have hk : key = approvalKey account operator := by
      unfold CreateCompositeKey at hkey
      split at hkey
      · cases hkey; rfl
      · cases hkey
    subst hk
    split at h
    · simp [failWith] at h
    · rename_i approvalJSON hjson
      split at h
      · simp [failWith] at h
      · rename_i c1 hput
        dsimp only at h
        split at h
        · simp [failWith] at h
        · rename_i c2 hev
          simp only [Prod.mk.injEq, Outcome.returned.injEq, Option.some.injEq, and_true] at h
          obtain ⟨hr, hfin⟩ := h
          subst hfin
          subst hr
          refine ⟨approvalJSON, hjson, ?_, rfl⟩
          rw [(setEvent_ok _ _ _ _ _ hev).1, (putState_ok _ _ _ _ hput).1]
          exact lookup_put_self _ _ _

theorem setApprovalForAll_ok (ext : Externals) (ctx final : Stub) (r : Response)
    (operator : String) (approved : Bool)
    (h : SetApprovalForAll ext ctx operator approved = (.returned (some r, none), final)) :
    ∃ account approvalJSON, ext.marshalBool approved = .ok approvalJSON ∧
      lookup final.state (approvalKey account operator) = some approvalJSON ∧
      r.Data = some (.approvalForAll ⟨account, operator, approved⟩) := by
  unfold SetApprovalForAll at h
  dsimp only at h
  split at h
  · simp [failWith] at h
  · split at h
    · simp [failWith] at h
    · rename_i account c2 hdw
      split at h
      · simp [failWith] at h
      · split at h
        · simp at h
        · split at h
          · simp [failWith] at h
          · simp [failWith] at h
          · split at h
            · split at h
              · simp [failWith] at h
              · split at h
                · cases h
                · simp [failWith] at h
                · exact ⟨account, setApprovalStore_ok _ _ _ _ _ _ _ _ _ h⟩
            · cases h

theorem transferFrom_unapproved (ext : Externals) (hext : ext.ReadOnly) (ctx : Stub)
    (sender recipient symbol amount commonName operator : String)
    (hname : (ext.getCommonName
      (GetState (ext.CheckCredentials ctx DEFAULT_CREDS "true").2
        (.simple (generateTokenAddress ext symbol))).2).1 = .ok commonName)
    (hwallet : (ext.getDefaultWalletAddress
      (ext.getCommonName
        (GetState (ext.CheckCredentials ctx DEFAULT_CREDS "true").2
          (.simple (generateTokenAddress ext symbol))).2).2 commonName).1 = .ok operator)
    (hop : operator ≠ sender)
    (hstored : storedApproval ext ctx.state sender operator = false) :
    (TransferFrom ext ctx sender recipient symbol amount).2.state = ctx.state ∧
      ∀ r, (TransferFrom ext ctx sender recipient symbol amount).1 ≠
        .returned (some r, none) := by
  unfold TransferFrom
  dsimp only
  split
  · exact ⟨rfl, fun r hr => by cases hr⟩
  · split
    · exact ⟨rfl, fun r hr => by cases hr⟩
    · have h1 := hext.CheckCredentials ctx DEFAULT_CREDS "true"
      split
      · rename_i c1 hcred
        rw [hcred] at h1
        exact ⟨h1, fun r hr => by cases hr⟩
      · rename_i c1 hcred
        rw [hcred] at h1
        have h2 := getState_state c1 (.simple (generateTokenAddress ext symbol))
        split
        · rename_i c2 hget
          rw [hget] at h2
          exact ⟨h2.trans h1, fun r hr => by cases hr⟩
        · rename_i c2 hget
          rw [hget] at h2
          exact ⟨h2.trans h1, fun r hr => by cases hr⟩
        · rename_i c2 hget
          rw [hget] at h2
          split
          · exact ⟨h2.trans h1, fun r hr => by cases hr⟩
          · rename_i tokenType _
            have h3 := hext.getCommonName c2
            split
            · rename_i c3 hcn
              rw [hcn] at h3
              exact ⟨h3.trans (h2.trans h1), fun r hr => by cases hr⟩
            · rename_i commonName1 c3 hcn
              rw [hcn] at h3
              have h4 := hext.getDefaultWalletAddress c3 commonName1
              split
              · rename_i c4 hdw
                rw [hdw] at h4
                exact ⟨h4.trans (h3.trans (h2.trans h1)), fun r hr => by cases hr⟩
              · rename_i operator1 c4 hdw
                rw [hdw] at h4
                have hc4 : c4.state = ctx.state := h4.trans (h3.trans (h2.trans h1))
                simp only [hcred, hget, hcn, Except.ok.injEq] at hname hwallet
                subst hname
                simp only [hdw, Except.ok.injEq] at hwallet
                subst hwallet
                rw [← hc4] at hstored
                have := transferFromChecks_unapproved ext c4
                  ⟨ctx.txID, false, "", none⟩ operator1 sender recipient symbol amount
                  (generateTokenAddress ext symbol) tokenType hop hstored
                exact ⟨this.1.trans hc4, this.2⟩

theorem transferFrom_success_operator (ext : Externals) (ctx final : Stub)
    (sender recipient symbol amount : String) (r : Response)
    (h : TransferFrom ext ctx sender recipient symbol amount = (.returned (some r, none), final)) :
    ∃ commonName operator,
      (ext.getCommonName
        (GetState (ext.CheckCredentials ctx DEFAULT_CREDS "true").2
          (.simple (generateTokenAddress ext symbol))).2).1 = .ok commonName ∧
      (ext.getDefaultWalletAddress
        (ext.getCommonName
          (GetState (ext.CheckCredentials ctx DEFAULT_CREDS "true").2
            (.simple (generateTokenAddress ext symbol))).2).2 commonName).1 = .ok operator := by
  unfold TransferFrom at h
  dsimp only at h
  split at h
  · cases h
  · split at h
    · cases h
    · split at h
      · cases h
      · rename_i c1 hcred
        split at h
        · cases h
        · cases h
        · rename_i c2 hget
          split at h
          · cases h
          · split at h
            · cases h
            · rename_i commonName c3 hcn
              split at h
              · cases h
              · rename_i operator c4 hdw
                exact ⟨commonName, operator, by simp only [hcred, hget, hcn],
                  by simp only [hcred, hget, hcn, hdw]⟩

theorem transferFrom_not_approved (ext : Externals) (ctx c1 c2 c3 c4 : Stub)
    (sender recipient symbol amount busyTokensInfoAsBytes tokenType commonName operator : String)
    (n : Int) (hne : sender ≠ recipient) (hzero : recipient ≠ "0x")
    (hcred : ext.CheckCredentials ctx DEFAULT_CREDS "true" = (none, c1))
    (htoken : GetState c1 (.simple (generateTokenAddress ext symbol)) =
      (.ok (some busyTokensInfoAsBytes), c2))
    (htype : ext.unmarshalTokenType busyTokensInfoAsBytes = .ok tokenType)
    (hname : ext.getCommonName c2 = (.ok commonName, c3))
    (hwallet : ext.getDefaultWalletAddress c3 commonName = (.ok operator, c4))
    (hop : operator ≠ sender) (hamount : setString amount = some n) (hn : n ≠ 0)
    (hsender : validAttribute sender = true) (hoperator : validAttribute operator = true)
    (hnf : NoFault c4)
    (hrecord : lookup c4.state (approvalKey sender operator) = none ∨
      ∃ approvalBytes, lookup c4.state (approvalKey sender operator) = some approvalBytes ∧
        ext.unmarshalBool approvalBytes = .ok false) :
    (TransferFrom ext ctx sender recipient symbol amount).1 =
        .returned
          (some ⟨ctx.txID, false, "Caller is neither the owner nor is approved", none⟩,
            some (generateError 403 "NTRA010")) ∧
      (TransferFrom ext ctx sender recipient symbol amount).2.state = c4.state := by
  have hchecks := transferFromChecks_not_approved ext c4 ⟨ctx.txID, false, "", none⟩ operator
    sender recipient symbol amount (generateTokenAddress ext symbol) tokenType n hop hamount hn
    hsender hoperator hnf hrecord
  have hstate := (transferFromChecks_unapproved ext c4 ⟨ctx.txID, false, "", none⟩ operator
    sender recipient symbol amount (generateTokenAddress ext symbol) tokenType hop
    (by
      unfold storedApproval
      rcases hrecord with hnone | ⟨approvalBytes, hsome, hdec⟩
      · rw [hnone]
      · rw [hsome]
        dsimp only
        rw [hdec])).1
  unfold TransferFrom
  dsimp only
  rw [if_neg hne, if_neg hzero, hcred]
  dsimp only
  rw [htoken]
  dsimp only
  rw [htype]
  dsimp only
  rw [hname]
  dsimp only
  rw [hwallet]
  exact ⟨hchecks, hstate⟩

/-- Claim C25, for helper functions of the identity that do not write.  In the
statement the caller's common name and default wallet are the ones that
TransferFrom itself resolves, in the contexts in which it resolves them.
(1) If that wallet is an operator other than the sender and the store holds no
approval for (sender, operator) that decodes to true, the call does not succeed
and the store after it is the store before it: no balance record is written or
deleted.  (2) A call that succeeds was made by the sender or by an operator
whose stored approval is true.  (3) If the checks before the approval pass, the
amount is a non-zero integer, the key attributes are valid, the read of the
approval meets no fault and the store holds no approval or one that decodes to
false, the call returns the error NTRA010 "Caller is neither the owner nor is
approved" and the store is unchanged.  (4) The flag read is the one that a
successful SetApprovalForAll stores under the same key. -/
theorem TransferFrom_requires_approval (ext : Externals) (hext : ext.ReadOnly) (ctx : Stub)
    (sender recipient symbol amount : String) :
    (∀ commonName operator : String,
      (ext.getCommonName
        (GetState (ext.CheckCredentials ctx DEFAULT_CREDS "true").2
          (.simple (generateTokenAddress ext symbol))).2).1 = .ok commonName →
      (ext.getDefaultWalletAddress
        (ext.getCommonName
          (GetState (ext.CheckCredentials ctx DEFAULT_CREDS "true").2
            (.simple (generateTokenAddress ext symbol))).2).2 commonName).1 = .ok operator →
      operator ≠ sender → storedApproval ext ctx.state sender operator = false →
      (TransferFrom ext ctx sender recipient symbol amount).2.state = ctx.state ∧
      ∀ r, (TransferFrom ext ctx sender recipient symbol amount).1 ≠
        .returned (some r, none)) ∧
    (∀ (r : Response) (final : Stub),
      TransferFrom ext ctx sender recipient symbol amount = (.returned (some r, none), final) →
      ∃ commonName operator,
        (ext.getCommonName
          (GetState (ext.CheckCredentials ctx DEFAULT_CREDS "true").2
            (.simple (generateTokenAddress ext symbol))).2).1 = .ok commonName ∧
        (ext.getDefaultWalletAddress
          (ext.getCommonName
            (GetState (ext.CheckCredentials ctx DEFAULT_CREDS "true").2
              (.simple (generateTokenAddress ext symbol))).2).2 commonName).1 = .ok operator ∧
        (operator = sender ∨ storedApproval ext ctx.state sender operator = true)) ∧
    (∀ (c1 c2 c3 c4 : Stub) (busyTokensInfoAsBytes tokenType commonName operator : String)
        (n : Int),
      sender ≠ recipient → recipient ≠ "0x" →
      ext.CheckCredentials ctx DEFAULT_CREDS "true" = (none, c1) →
      GetState c1 (.simple (generateTokenAddress ext symbol)) =
        (.ok (some busyTokensInfoAsBytes), c2) →
      ext.unmarshalTokenType busyTokensInfoAsBytes = .ok tokenType →
      ext.getCommonName c2 = (.ok commonName, c3) →
      ext.getDefaultWalletAddress c3 commonName = (.ok operator, c4) →
      operator ≠ sender → setString amount = some n → n ≠ 0 →
      validAttribute sender = true → validAttribute operator = true → NoFault c4 →
      (lookup ctx.state (approvalKey sender operator) = none ∨
        ∃ approvalBytes, lookup ctx.state (approvalKey sender operator) = some approvalBytes ∧
          ext.unmarshalBool approvalBytes = .ok false) →
      (TransferFrom ext ctx sender recipient symbol amount).1 =
        .returned
          (some ⟨ctx.txID, false, "Caller is neither the owner nor is approved", none⟩,
            some (generateError 403 "NTRA010")) ∧
      (TransferFrom ext ctx sender recipient symbol amount).2.state = ctx.state) ∧
    (∀ (c final : Stub) (r : Response) (operator : String) (approved : Bool),
      SetApprovalForAll ext c operator approved = (.returned (some r, none), final) →
      ∃ account approvalJSON, ext.marshalBool approved = .ok approvalJSON ∧
        lookup final.state (approvalKey account operator) = some approvalJSON ∧
        r.Data = some (.approvalForAll ⟨account, operator, approved⟩) ∧
        (ext.unmarshalBool approvalJSON = .ok approved →
          storedApproval ext final.state account operator = approved)) := by
  refine ⟨fun commonName operator hname hwallet hop hstored =>
      transferFrom_unapproved ext hext ctx sender recipient symbol amount commonName operator
        hname hwallet hop hstored, ?_, ?_, ?_⟩
  · intro r final h
    obtain ⟨commonName, operator, hname, hwallet⟩ :=
      transferFrom_success_operator ext ctx final sender recipient symbol amount r h
    refine ⟨commonName, operator, hname, hwallet, ?_⟩
    by_cases hop : operator = sender
    · exact Or.inl hop
    · right
      cases hs : storedApproval ext ctx.state sender operator with
      | true => rfl
      | false =>
        exact absurd (by rw [h])
          ((transferFrom_unapproved ext hext ctx sender recipient symbol amount commonName
            operator hname hwallet hop hs).2 r)
  · intro c1 c2 c3 c4 busyTokensInfoAsBytes tokenType commonName operator n hne hzero hcred
      htoken htype hname hwallet hop hamount hn hsender hoperator hnf hrecord
    have h1 : c1.state = ctx.state := by
      have := hext.CheckCredentials ctx DEFAULT_CREDS "true"
      rw [hcred] at this
      exact this
    have h2 : c2.state = c1.state := by
      have := getState_state c1 (.simple (generateTokenAddress ext symbol))
      rw [htoken] at this
      exact this
    have h3 : c3.state = c2.state := by
      have := hext.getCommonName c2
      rw [hname] at this
      exact this
    have h4 : c4.state = c3.state := by
      have := hext.getDefaultWalletAddress c3 commonName
      rw [hwallet] at this
      exact this
    have hc4 : c4.state = ctx.state := h4.trans (h3.trans (h2.trans h1))
    obtain ⟨hres, hst⟩ := transferFrom_not_approved ext ctx c1 c2 c3 c4 sender recipient symbol
      amount busyTokensInfoAsBytes tokenType commonName operator n hne hzero hcred htoken htype
      hname hwallet hop hamount hn hsender hoperator hnf (by rw [hc4]; exact hrecord)
    exact ⟨hres, hst.trans hc4⟩
  · intro c final r operator approved h
    obtain ⟨account, approvalJSON, hjson, hlook, hdata⟩ :=
      setApprovalForAll_ok ext c final r operator approved h
    refine ⟨account, approvalJSON, hjson, hlook, hdata, fun hdec => ?_⟩
    unfold storedApproval
    rw [hlook]
    dsimp only
    rw [hdec]

theorem callerExternals_readOnly (caller : String) : (callerExternals caller).ReadOnly :=
  ⟨fun _ _ _ => rfl, fun _ => rfl, fun _ _ => rfl⟩

/-- Instance of C25: bob, whose wallet is "bob" and who holds no approval of
alice, asks to move 5 GOLD of alice to carol; the call returns NTRA010 and the
store is unchanged; after alice approves bob with SetApprovalForAll the stored
flag is true. -/
theorem TransferFrom_requires_approval_witness :
    storedApproval (callerExternals "bob") tokenStub.state "alice" "bob" = false ∧
    storedApproval sampleExternals
      (SetApprovalForAll sampleExternals nftStub "bob" true).2.state "alice" "bob" = true ∧
    ((TransferFrom (callerExternals "bob") tokenStub "alice" "carol" "GOLD" "5").2.state =
        tokenStub.state ∧
      ∀ r, (TransferFrom (callerExternals "bob") tokenStub "alice" "carol" "GOLD" "5").1 ≠
        .returned (some r, none)) ∧
    ((TransferFrom (callerExternals "bob") tokenStub "alice" "carol" "GOLD" "5").1 =
        .returned
          (some ⟨"tx3", false, "Caller is neither the owner nor is approved", none⟩,
            some (generateError 403 "NTRA010")) ∧
      (TransferFrom (callerExternals "bob") tokenStub "alice" "carol" "GOLD" "5").2.state =
        tokenStub.state) :=
  ⟨by decide, by decide,
    (TransferFrom_requires_approval (callerExternals "bob") (callerExternals_readOnly "bob")
      tokenStub "alice" "carol" "GOLD" "5").1 "bob" "bob" rfl rfl (by decide) (by decide),
    (TransferFrom_requires_approval (callerExternals "bob") (callerExternals_readOnly "bob")
      tokenStub "alice" "carol" "GOLD" "5").2.2.1 tokenStub tokenStub tokenStub tokenStub
      "gold" "GAME" "bob" "bob" 5 (by decide) (by decide) rfl rfl rfl rfl rfl (by decide)
      (by decide) (by decide) (by decide) (by decide) (by decide) (Or.inl (by decide))⟩

/-! ## Balance records stay non-negative -/

theorem nonNegative_put (st : WorldState) (k : Key) (v : String) (h : NonNegative st)
    (hv : isBalanceKey k = true → 0 ≤ amountOf v) : NonNegative (put st k v) := by
  intro kv hkv hk
  rcases mem_put st k v kv hkv with hmem | heq
  · exact h kv hmem hk
  · subst heq
    exact hv hk

theorem nonNegative_erase (st : WorldState) (k : Key) (h : NonNegative st) :
    NonNegative (erase st k) :=
  fun kv hkv hk => h kv ((mem_erase_iff st k kv).mp hkv).1 hk

theorem putState_nonNegative (ctx : Stub) (k : Key) (v : String) (h : NonNegative ctx.state)
    (hv : isBalanceKey k = true → 0 ≤ amountOf v) :
    NonNegative (PutState ctx k v).2.state := by
  have ht := (tick_spec ctx).1
  unfold PutState
  split
  · exact h
  · split <;> rename_i c1 hc1 <;> rw [hc1] at ht <;> simp only at ht
    · rw [ht]; exact h
    · simp only
      rw [ht]
      exact nonNegative_put _ _ _ h hv

theorem delState_nonNegative (ctx : Stub) (k : Key) (h : NonNegative ctx.state) :
    NonNegative (DelState ctx k).2.state := by
  have ht := (tick_spec ctx).1
  unfold DelState
  split <;> rename_i c1 hc1 <;> rw [hc1] at ht <;> simp only at ht
  · rw [ht]; exact h
  · simp only
    rw [ht]
    exact nonNegative_erase _ _ h

theorem scanOpen_state (ctx : Stub) (objectType : String) (attributes : List String) :
    (GetStateByPartialCompositeKey ctx objectType attributes).2.state = ctx.state := by
  have ht := (tick_spec ctx).1
  unfold GetStateByPartialCompositeKey
  split
  · rfl
  · split <;> rename_i c1 hc1 <;> rw [hc1] at ht <;> exact ht

theorem addBalance_nonNegative (ctx : Stub) (sender recipient symbol : String) (n : Int)
    (hn : 0 ≤ n) (h : NonNegative ctx.state) :
    NonNegative (addBalance ctx sender recipient symbol n).2.state := by
  unfold addBalance
  split
  · exact h
  · rename_i bk _
    have hg := getState_state ctx bk
    split <;> rename_i c1 hc1
    · rw [hc1] at hg
      simp only at hg ⊢
      rw [hg]; exact h
    · rw [hc1] at hg
      simp only at hg
      have hp := putState_nonNegative c1 bk (bigString n) (by rw [hg]; exact h)
        (fun _ => by rw [amountOf_bigString]; exact hn)
      split <;> rename_i c2 hc2 <;> rw [hc2] at hp <;> exact hp
    · rename_i balanceBytes
      obtain ⟨hval, hst, _⟩ := getState_ok _ _ _ _ hc1
      split
      · simp only
        rw [hst]; exact h
      · rename_i stored hstored
        have hp := putState_nonNegative c1 bk (bigString (stored + n)) (by rw [hst]; exact h)
          (fun hk => by
            rw [amountOf_bigString]
            have := h (bk, balanceBytes) (mem_of_lookup hval.symm) hk
            rw [amountOf_of_setString hstored] at this
            exact add_nonneg this hn)
        split <;> rename_i c2 hc2 <;> rw [hc2] at hp <;> exact hp

theorem setBalance_nonNegative (ctx : Stub) (sender recipient symbol : String) (n : Int)
    (hn : 0 ≤ n) (h : NonNegative ctx.state) :
    NonNegative (setBalance ctx sender recipient symbol n).2.state := by
  unfold setBalance
  split
  · exact h
  · rename_i bk _
    have hp := putState_nonNegative ctx bk (bigString n) h
      (fun _ => by rw [amountOf_bigString]; exact hn)
    split <;> rename_i c1 hc1 <;> rw [hc1] at hp <;> exact hp

theorem removeBalanceScan_nonNegative (sender : String) (needed : Int) :
    ∀ (it : StateQueryIterator) (vars : ScanState) (ctx : Stub), NonNegative ctx.state →
      NonNegative (removeBalanceScan sender needed it vars ctx).2.state := by
  intro it
  induction it with
  | nil => intro vars ctx h; exact h
  | cons qr rest ih =>
    intro vars ctx h
    have ht := (tick_spec ctx).1
    unfold removeBalanceScan
    split
    · split <;> rename_i c1 hc1 <;> rw [hc1] at ht <;> simp only at ht
      · simp only
        rw [ht]; exact h
      · have h1 : NonNegative c1.state := by rw [ht]; exact h
        split
        · exact h1
        · dsimp only
          split
          · exact h1
          · split
            · exact h1
            · split
              · exact ih _ _ h1
              · have hd := delState_nonNegative c1 qr.1 h1
                split <;> rename_i c2 hc2 <;> rw [hc2] at hd <;> simp only at hd
                · exact hd
                · exact ih _ _ hd
    · exact h

theorem removeBalanceToken_nonNegative (ctx : Stub) (sender tokenId : String) (needed : Int)
    (h : NonNegative ctx.state) :
    NonNegative (removeBalanceToken ctx sender tokenId needed).2.state := by
  have ho := scanOpen_state ctx balancePrefix [sender, tokenId]
  unfold removeBalanceToken
  split <;> rename_i c1 hc1 <;> rw [hc1] at ho <;> simp only at ho
  · simp only
    rw [ho]; exact h
  · rename_i it
    have hs := removeBalanceScan_nonNegative sender needed it ⟨bigZero, false, .simple ""⟩ c1
      (by rw [ho]; exact h)
    split <;> rename_i c2 hc2 <;> rw [hc2] at hs <;> simp only at hs
    · exact hs
    · exact hs
    · split
      · exact hs
      · split
        · rename_i vars _ hgt
          have hrem : 0 ≤ vars.partialBalance - needed := by omega
          dsimp only
          split
          · exact setBalance_nonNegative _ _ _ _ _ hrem hs
          · have ha := addBalance_nonNegative c2 sender sender tokenId
              (vars.partialBalance - needed) hrem hs
            split <;> rename_i c3 hc3 <;> rw [hc3] at ha <;> exact ha
        · rename_i vars _ _
          have hd := delState_nonNegative c2 vars.selfRecipientKey hs
          split <;> rename_i c3 hc3 <;> rw [hc3] at hd <;> exact hd

theorem removeBalanceTokens_nonNegative (sender : String) (m : List (String × Int)) :
    ∀ (keys : List String) (ctx : Stub), NonNegative ctx.state →
      NonNegative (removeBalanceTokens sender m keys ctx).2.state := by
  intro keys
  induction keys with
  | nil => intro ctx h; exact h
  | cons t rest ih =>
    intro ctx h
    unfold removeBalanceTokens
    split
    · exact h
    · rename_i needed _
      have hr := removeBalanceToken_nonNegative ctx sender t needed h
      split <;> rename_i c1 hc1 <;> rw [hc1] at hr <;> simp only at hr
      · exact ih _ hr
      · exact hr
      · exact hr

theorem removeBalance_nonNegative (ctx : Stub) (sender : String) (symbols : List String)
    (amounts : List Int) (h : NonNegative ctx.state) :
    NonNegative (removeBalance ctx sender symbols amounts).2.state := by
  unfold removeBalance
  split
  · exact h
  · exact removeBalanceTokens_nonNegative _ _ _ _ h

theorem balance_nonneg_of_nonNegative (st : WorldState) (account symbol : String)
    (h : NonNegative st) : 0 ≤ balance st account symbol := by
  unfold balance total
  apply List.sum_nonneg
  intro x hx
  obtain ⟨kv, hkv, rfl⟩ := List.mem_map.mp hx
  obtain ⟨hmem, hp⟩ := List.mem_filter.mp hkv
  exact h kv hmem (isBalanceKey_of_underPrefix hp)

/-- Claim C30: from a store in which every balance record holds a non-negative
amount, every call of `removeBalance` (successful or not) and every call of
`addBalance` or `mintHelper` with an amount that is not negative ends in a store
in which every balance record holds a non-negative amount, and in such a store
the balance of every account for every token is non-negative. -/
theorem balance_records_stay_nonNegative (ctx : Stub) (h : NonNegative ctx.state) :
    (∀ (sender : String) (symbols : List String) (amounts : List Int),
      NonNegative (removeBalance ctx sender symbols amounts).2.state ∧
      ∀ account symbol,
        0 ≤ balance (removeBalance ctx sender symbols amounts).2.state account symbol) ∧
    (∀ (sender recipient symbol : String) (n : Int), 0 ≤ n →
      NonNegative (addBalance ctx sender recipient symbol n).2.state ∧
      ∀ account token,
        0 ≤ balance (addBalance ctx sender recipient symbol n).2.state account token) ∧
    (∀ (operator account symbol : String) (n : Int), 0 ≤ n →
      NonNegative (mintHelper ctx operator account symbol n).2.state ∧
      ∀ holder token,
        0 ≤ balance (mintHelper ctx operator account symbol n).2.state holder token) ∧
    ∀ account symbol, 0 ≤ balance ctx.state account symbol := by
  have hmint : ∀ (operator account symbol : String) (n : Int), 0 ≤ n →
      NonNegative (mintHelper ctx operator account symbol n).2.state := by
    intro operator account symbol n hn
    unfold mintHelper
    split
    · exact h
    · exact addBalance_nonNegative _ _ _ _ _ hn h
  exact ⟨fun sender symbols amounts =>
      ⟨removeBalance_nonNegative ctx sender symbols amounts h,
        fun account symbol => balance_nonneg_of_nonNegative _ _ _
          (removeBalance_nonNegative ctx sender symbols amounts h)⟩,
    fun sender recipient symbol n hn =>
      ⟨addBalance_nonNegative ctx sender recipient symbol n hn h,
        fun account token => balance_nonneg_of_nonNegative _ _ _
          (addBalance_nonNegative ctx sender recipient symbol n hn h)⟩,
    fun operator account symbol n hn =>
      ⟨hmint operator account symbol n hn,
        fun holder token => balance_nonneg_of_nonNegative _ _ _
          (hmint operator account symbol n hn)⟩,
    fun account symbol => balance_nonneg_of_nonNegative _ _ _ h⟩

/-- Instance of C30 on the sample store: after alice withdraws 5 GOLD every
balance record is non-negative, and so it is after 7 GOLD are credited to bob. -/
theorem balance_records_stay_nonNegative_witness :
    NonNegative sampleStub.state ∧
    (removeBalance sampleStub "alice" ["GOLD"] [5]).1 = .returned none ∧
    balance (removeBalance sampleStub "alice" ["GOLD"] [5]).2.state "alice" "GOLD" = 12 ∧
    NonNegative (removeBalance sampleStub "alice" ["GOLD"] [5]).2.state ∧
    NonNegative (addBalance sampleStub "alice" "bob" "GOLD" 7).2.state :=
  ⟨by decide, by decide, by decide,
    ((balance_records_stay_nonNegative sampleStub (by decide)).1 "alice" ["GOLD"] [5]).1,
    ((balance_records_stay_nonNegative sampleStub (by decide)).2.1 "alice" "bob" "GOLD" 7
      (by decide)).1⟩

/-- C27 does not hold of the code: the test that is to refuse a share above the
total compares the share with itself, since the multiplication and the division
wrote the share into the integer of the total.  On a record with total -10,
released 0, start 0 and release time 100, an unlock at second 50 succeeds and
stores the released amount -5, which exceeds the total -10; the same unlock at
second 60 stores -6, less than what the earlier time gives. -/
theorem AttemptUnlock_negative_total_exceeds :
    (AttemptUnlock (vestingExternals ⟨"lockedToken", "-10", "0", 0, 100⟩ 50) vestingStub).1 =
      .returned (some ⟨"tx8", true, "All tokens have been already unlocked", none⟩, none) ∧
    lookup (AttemptUnlock (vestingExternals ⟨"lockedToken", "-10", "0", 0, 100⟩ 50) vestingStub).2.state
      (vestingKey "alice") = some "-5" ∧
    setString "-5" = some (-5) ∧ (-10 : Int) < -5 ∧
    (AttemptUnlock (vestingExternals ⟨"lockedToken", "-10", "0", 0, 100⟩ 60) vestingStub).1 =
      .returned (some ⟨"tx8", true, "All tokens have been already unlocked", none⟩, none) ∧
    lookup (AttemptUnlock (vestingExternals ⟨"lockedToken", "-10", "0", 0, 100⟩ 60) vestingStub).2.state
      (vestingKey "alice") = some "-6" ∧
    setString "-6" = some (-6) ∧ (-6 : Int) < -5 := by
  decide

/-! ## A total supply that is not a number -/

/-- C18 does not hold of the code: `Mint` drops the result of parsing
`totalSupply` and never tests it.  On the sample store the call with the total
supply "abc" succeeds; the balance record of alice for SLV and the token record
both carry the text of the nil pointer, which denotes no integer, the response
reports the same text, and the supply call is made with the nil pointer.
`IssueToken` refuses the same text with TOK003. -/
theorem Mint_unparsable_supply_succeeds :
    setString "abc" = none ∧
    (Mint sampleExternals mintStub "alice" "SLV" "abc" sampleMetaData).1 =
      .returned (some ⟨"tx4", true, "Tokens has been successfully minted",
        some (.transferSingle ⟨"alice", "0x", "alice", "SLV", "<nil>",
          "B-0xtoken-meta-SLV"⟩)⟩, none) ∧
    lookup (Mint sampleExternals mintStub "alice" "SLV" "abc" sampleMetaData).2.state
      (balanceKey "alice" "SLV" "alice") = some "<nil>" ∧
    lookup (Mint sampleExternals mintStub "alice" "SLV" "abc" sampleMetaData).2.state
        (.simple (generateTokenAddress sampleExternals "SLV")) =
      some (sampleExternals.marshalTokensInfo
        ⟨"alice", sampleExternals.Now, "B-0xtoken-meta-SLV", sampleMetaData, "<nil>", "SLV"⟩) ∧
    setString "<nil>" = none ∧
    (Mint sampleExternals mintStub "alice" "SLV" "abc" sampleMetaData).2.calls =
      [.addTotalSupplyUTXO "BUSY" (some (-1000)), .addUTXO TOTAL_SUPPLY_KEY_NFT none "SLV"] ∧
    IssueToken sampleExternals busyStub "Silver" "SLV" "abc" 2 busy20MetaData =
      failWith ⟨"tx6", false, "", none⟩ "Error encountered converting amount" 412 "TOK003"
        busyStub := by
  decide

/-- C8 does not hold of the code: `balanceOfHelper` drops the result of parsing
a record and adds the nil pointer of a text that denotes no integer.  After the
successful `Mint` of SLV with the total supply "abc" the prefix of alice and
SLV holds one record, with the text of the nil pointer; the scan of the prefix
succeeds and yields it, and `balanceOfHelper` panics instead of returning a
text. -/
theorem balanceOfHelper_panics_after_mint :
    (Mint sampleExternals mintStub "alice" "SLV" "abc" sampleMetaData).1 =
      .returned (some ⟨"tx4", true, "Tokens has been successfully minted",
        some (.transferSingle ⟨"alice", "0x", "alice", "SLV", "<nil>",
          "B-0xtoken-meta-SLV"⟩)⟩, none) ∧
    NoFault (Mint sampleExternals mintStub "alice" "SLV" "abc" sampleMetaData).2 ∧
    (GetStateByPartialCompositeKey
        (Mint sampleExternals mintStub "alice" "SLV" "abc" sampleMetaData).2 balancePrefix
        ["alice", "SLV"]).1.toOption = some [(balanceKey "alice" "SLV" "alice", "<nil>")] ∧
    setString "<nil>" = none ∧
    (balanceOfHelper (Mint sampleExternals mintStub "alice" "SLV" "abc" sampleMetaData).2
      "alice" "SLV").1 = .panicked := by
  decide

end BusyChaincode
